import Mathlib

/-!
# Gadgetron: DistributeGadget (gadgets/distributed/DistributeGadget.cpp)

A shallow embedding of the distribution stage.  Objects on the C++ heap are
represented by their identity (a natural number).  The calls the gadget makes
on its collaborators (queues, CloudBus, connectors, codec loading, message
blocks, the base class) are recorded, in program order, in a trace of events,
and the value such a call returns is read from an environment record passed
to the embedded member function.  Logging (GERROR, GDEBUG) is left out.
-/

namespace Gadgetron

/-- Identity of an ACE_Message_Block object. -/
abbrev MessageBlock := Nat

/-- Identity of a GadgetronConnector (DistributionConnector) object. -/
abbrev Connector := Nat

/-- Return code GADGET_OK (Gadget.h). -/
def GADGET_OK : Int := 0

/-- Return code GADGET_FAIL (Gadget.h). -/
def GADGET_FAIL : Int := -1

/-- Message identifier GADGET_MESSAGE_CLOSE (GadgetMessageInterface.h); the
development never relies on the numeric value. -/
def GADGET_MESSAGE_CLOSE : Nat := 4

/-- The fields of GadgetronNodeInfo (CloudBus.h) that DistributeGadget uses. -/
structure GadgetronNodeInfo where
  address : String
  port : Nat
  active_reconstructions : Nat
deriving DecidableEq, Repr

/-- A reader or writer entry of GadgetronXML::GadgetStreamConfiguration. -/
structure Codec where
  slot : Nat
  dll : String
  classname : String
deriving DecidableEq, Repr

/-- A gadget entry of GadgetronXML::GadgetStreamConfiguration. -/
structure GadgetXML where
  name : String
  dll : String
  classname : String
deriving DecidableEq, Repr

/-- GadgetronXML::GadgetStreamConfiguration. -/
structure GadgetStreamConfiguration where
  reader : List Codec
  writer : List Codec
  gadget : List GadgetXML
deriving DecidableEq, Repr

/-- Calls that leave the gadget, in the order the code performs them.  The
Boolean of a putq event tells whether the call succeeded (did not return -1). -/
inductive Event where
  /-- this->next()->putq(m) -/
  | next_putq (m : MessageBlock) (ok : Bool)
  /-- collect_gadget_->putq(m) -/
  | collector_putq (g : Nat) (m : MessageBlock) (ok : Bool)
  /-- m->release() on a plain message block -/
  | release (m : MessageBlock)
  /-- CloudBus::instance()->get_node_info(nl) -/
  | get_node_info
  /-- CloudBus::instance()->active_reconstructions() -/
  | active_reconstructions
  /-- new DistributionConnector(this) -/
  | new_connector (c : Connector)
  /-- deserialize(node_xml_config_.c_str(), cfg) -/
  | deserialize (xml : String)
  /-- controller_->load_dll_component<GadgetMessageReader>(dll, classname) -/
  | load_reader (dll classname : String)
  /-- con->register_reader(slot, r) -/
  | register_reader (c : Connector) (slot : Nat)
  /-- controller_->load_dll_component<GadgetMessageWriter>(dll, classname) -/
  | load_writer (dll classname : String)
  /-- con->register_writer(slot, w) -/
  | register_writer (c : Connector) (slot : Nat)
  /-- con->open(address, port) -/
  | con_open (c : Connector) (address port : String)
  /-- con->send_gadgetron_configuration_script(xml) -/
  | send_configuration_script (c : Connector) (xml : String)
  /-- con->send_gadgetron_parameters(params) -/
  | send_parameters (c : Connector) (params : String)
  /-- con->putq(m1), m1 a new GadgetContainerMessage<GadgetMessageIdentifier>
  with the given id and continuation -/
  | con_putq (c : Connector) (id : Nat) (cont : Option MessageBlock) (ok : Bool)
  /-- m1->release() on the container with the given id and continuation
  (ACE releases the continuation chain with it) -/
  | release_container (id : Nat) (cont : Option MessageBlock)
  /-- it->second->wait() -/
  | con_wait (c : Connector)
  /-- it->second->close(ACE_INVALID_HANDLE) -/
  | con_close (c : Connector)
  /-- delete it->second -/
  | delete_connector (c : Connector)
  /-- collect_gadget_->set_parameter(key, value) -/
  | set_parameter (g : Nat) (key value : String)
  /-- Gadget::close(flags) -/
  | gadget_close (flags : Nat)
deriving DecidableEq, Repr

/-- std::map<int, GadgetronConnector*>: entries in ascending key order; a
value none is a null pointer. -/
abbrev NodeMap := List (Int × Option Connector)

/-- node_map_.find(k): none is end(), some v the mapped pointer. -/
def NodeMap.find (k : Int) : NodeMap → Option (Option Connector)
  | [] => none
  | (k', v) :: rest => if k' = k then some v else NodeMap.find k rest

/-- node_map_[k] = v: overwrite the entry of k or insert it in key order. -/
def NodeMap.assign (k : Int) (v : Option Connector) : NodeMap → NodeMap
  | [] => [(k, v)]
  | (k', v') :: rest =>
    if k < k' then (k, v) :: (k', v') :: rest
    else if k = k' then (k, v) :: rest
    else (k', v') :: NodeMap.assign k v rest

/-- The members of DistributeGadget, together with the two pieces of the
surrounding world the embedding threads through: the next fresh object
identity handed out by operator new, and the trace of outside calls. -/
structure DistributeGadget where
  node_map_ : NodeMap
  node_xml_config_ : String
  node_parameters_ : String
  collect_gadget_ : Option Nat
  collector : String
  use_this_node_for_compute : Bool
  next_object : Nat
  trace : List Event
deriving DecidableEq, Repr

/-- Append events to the trace. -/
def DistributeGadget.emit (s : DistributeGadget) (ev : List Event) : DistributeGadget :=
  { s with trace := s.trace ++ ev }

/-- The virtual hooks of DistributeGadget evaluated on a message:
node_index(m) (overridable; the baseline is Gadgetron.node_index below) and
message_id(m). -/
structure Policy where
  node_index : MessageBlock → Int
  message_id : MessageBlock → Nat

/-- DistributeGadget::node_index, the baseline policy (lines 263-266). -/
def node_index (_m : MessageBlock) : Int := 0

/-- What the outside world answers during one call of process. -/
structure ProcessEnv where
  /-- this->next()->putq(m) != -1 -/
  next_putq_ok : Bool
  /-- the list filled by CloudBus::get_node_info -/
  nodes : List GadgetronNodeInfo
  /-- CloudBus::active_reconstructions() -/
  local_load : Nat
  /-- GadgetronXML deserialize; none when it throws std::runtime_error -/
  deserialize : String → Option GadgetStreamConfiguration
  /-- load_dll_component<GadgetMessageReader> returned a non-null pointer -/
  load_reader : String → String → Bool
  /-- load_dll_component<GadgetMessageWriter> returned a non-null pointer -/
  load_writer : String → String → Bool
  /-- con->open(...) == 0 -/
  open_ok : Bool
  /-- con->send_gadgetron_configuration_script(...) == 0 -/
  send_config_ok : Bool
  /-- con->send_gadgetron_parameters(...) == 0 -/
  send_params_ok : Bool
  /-- con->putq(m1) != -1 -/
  con_putq_ok : Bool

/-- The scan of lines 82-94, started from the candidate me: a node with a
strictly smaller load replaces the candidate, and the loop is left as soon
as the candidate has load zero. -/
def select_node (me : GadgetronNodeInfo) : List GadgetronNodeInfo → GadgetronNodeInfo
  | [] => me
  | it :: rest =>
    let me1 := if it.active_reconstructions < me.active_reconstructions then it else me
    if me1.active_reconstructions = 0 then me1 else select_node me1 rest

/-- Lines 78-80: the initial candidate, the local node (port 0, local load).
The address is a default-constructed std::string. -/
def local_node (load : Nat) : GadgetronNodeInfo :=
  { address := "", port := 0, active_reconstructions := load }

/-- Lines 110-119: load and register the readers; the Boolean is false when
a load returned null (process then returns GADGET_FAIL). -/
def register_readers (load : String → String → Bool) (c : Connector) :
    List Codec → Bool × List Event
  | [] => (true, [])
  | i :: rest =>
    if load i.dll i.classname then
      ((register_readers load c rest).1,
        Event.load_reader i.dll i.classname :: Event.register_reader c i.slot ::
          (register_readers load c rest).2)
    else (false, [Event.load_reader i.dll i.classname])

/-- Lines 121-130: load and register the writers. -/
def register_writers (load : String → String → Bool) (c : Connector) :
    List Codec → Bool × List Event
  | [] => (true, [])
  | i :: rest =>
    if load i.dll i.classname then
      ((register_writers load c rest).1,
        Event.load_writer i.dll i.classname :: Event.register_writer c i.slot ::
          (register_writers load c rest).2)
    else (false, [Event.load_writer i.dll i.classname])

/-- Lines 99-148: create and set up the connector to the node me.  The
result is none where the code returns GADGET_FAIL from inside the block,
and the connector otherwise; the state carries the calls made so far. -/
def connect (e : ProcessEnv) (s : DistributeGadget) (me : GadgetronNodeInfo) :
    Option Connector × DistributeGadget :=
  let con := s.next_object
  let s1 := { s with next_object := s.next_object + 1,
                     trace := s.trace ++ [Event.new_connector con,
                                          Event.deserialize s.node_xml_config_] }
  match e.deserialize s.node_xml_config_ with
  | none => (none, s1)
  | some cfg =>
    let r := register_readers e.load_reader con cfg.reader
    let s2 := s1.emit r.2
    if !r.1 then (none, s2) else
    let w := register_writers e.load_writer con cfg.writer
    let s3 := s2.emit w.2
    if !w.1 then (none, s3) else
    let s4 := s3.emit [Event.con_open con me.address (Nat.repr me.port)]
    if !e.open_ok then (none, s4) else
    let s5 := s4.emit [Event.send_configuration_script con s.node_xml_config_]
    if !e.send_config_ok then (none, s5) else
    let s6 := s5.emit [Event.send_parameters con s.node_parameters_]
    if !e.send_params_ok then (none, s6) else
    (some con, s6)

/-- Lines 153-194: store the resolved pointer under the index and forward
the message, to the next gadget when the pointer is null and to the
connector otherwise. -/
def dispatch (p : Policy) (e : ProcessEnv) (s : DistributeGadget) (m : MessageBlock)
    (idx : Int) (con : Option Connector) : Int × DistributeGadget :=
  let s1 := { s with node_map_ := NodeMap.assign idx con s.node_map_ }
  match con with
  | none =>
    if !s1.use_this_node_for_compute then
      (GADGET_FAIL, s1.emit [Event.release m])
    else if !e.next_putq_ok then
      (GADGET_FAIL, s1.emit [Event.next_putq m false, Event.release m])
    else (GADGET_OK, s1.emit [Event.next_putq m true])
  | some c =>
    if !e.con_putq_ok then
      (GADGET_FAIL, s1.emit [Event.con_putq c (p.message_id m) (some m) false,
                             Event.release_container (p.message_id m) (some m)])
    else (GADGET_OK, s1.emit [Event.con_putq c (p.message_id m) (some m) true])

/-- DistributeGadget::process (lines 49-195). -/
def process (p : Policy) (e : ProcessEnv) (s : DistributeGadget) (m : MessageBlock) :
    Int × DistributeGadget :=
  let idx := p.node_index m
  if idx < 0 then (GADGET_FAIL, s)
  else if idx = 0 then
    if !e.next_putq_ok then
      (GADGET_FAIL, s.emit [Event.next_putq m false, Event.release m])
    else (GADGET_OK, s.emit [Event.next_putq m true])
  else
    match NodeMap.find idx s.node_map_ with
    | some con => dispatch p e s m idx con
    | none =>
      let s1 := s.emit [Event.get_node_info, Event.active_reconstructions]
      let me := select_node (local_node e.local_load) e.nodes
      if me.port ≠ 0 then
        match connect e s1 me with
        | (none, s2) => (GADGET_FAIL, s2)
        | (some con, s2) => dispatch p e s2 m idx (some con)
      else dispatch p e s1 m idx none

/-- How an execution can leave the defined behaviour of the C++ code. -/
inductive Fault where
  /-- an iterator or pointer is dereferenced where it must not be -/
  | undefined_behaviour
  /-- an exception leaves the member function -/
  | exception
deriving DecidableEq, Repr

/-- A task of the live stream: its identity, tmp->module()->name(), and
whether dynamic_cast<Gadget*> on it yields a non-null pointer. -/
structure Task where
  id : Nat
  name : String
  is_gadget : Bool
deriving DecidableEq, Repr

/-- What the outside world answers during process_config. -/
structure ConfigEnv where
  /-- std::string(m->rd_ptr()) -/
  parameters : String
  /-- controller_->get_xml_configuration() -/
  xml : String
  /-- GadgetronXML::deserialize; none when it throws -/
  deserialize : String → Option GadgetStreamConfiguration
  /-- GadgetronXML::serialize -/
  serialize : GadgetStreamConfiguration → String
  /-- the task this -/
  self : Task
  /-- next(), next()->next(), ... up to the task whose next() is null -/
  downstream : List Task

/-- The loop "while ((it->name != x) && (it != end)) it++", run from the
first element of the given range: the number of increments, or none when
it->name is read at end(). -/
def advance (x : String) : List GadgetXML → Option Nat
  | [] => none
  | g :: rest => if g.name ≠ x then (advance x rest).map (· + 1) else some 0

/-- Lines 208-216: erase the gadgets up to and including the one named
self_name, then those after the first remaining one named collector. -/
def slice_gadgets (self_name collector : String) (gadget : List GadgetXML) :
    Option (List GadgetXML) :=
  match advance self_name gadget with
  | none => none
  | some r =>
    let gadget1 := gadget.drop (r + 1)
    match advance collector gadget1 with
    | none => none
    | some c => some (gadget1.take (c + 1))

/-- Lines 223-227: the walk along next() looking for the collector; tmp is a
pointer (none is null) and the list holds the tasks after it. -/
def walk (collector : String) : Option Task → List Task → Except Fault (Option Task)
  | none, _ => Except.error Fault.undefined_behaviour
  | some t, [] => Except.ok (some t)
  | some t, n :: rest =>
    if t.name = collector then Except.ok (some t)
    else walk collector (if n.is_gadget then some n else none) rest

/-- DistributeGadget::process_config (lines 197-239). -/
def process_config (e : ConfigEnv) (s : DistributeGadget) :
    Except Fault (Int × DistributeGadget) :=
  let s1 := { s with node_parameters_ := e.parameters }
  match e.deserialize e.xml with
  | none => Except.error Fault.exception
  | some cfg =>
    match slice_gadgets e.self.name s.collector cfg.gadget with
    | none => Except.error Fault.undefined_behaviour
    | some gadget =>
      let s2 := { s1 with node_xml_config_ := e.serialize { cfg with gadget := gadget } }
      match walk s.collector (some e.self) e.downstream with
      | Except.error f => Except.error f
      | Except.ok tmp =>
        let s3 := { s2 with collect_gadget_ := tmp.map Task.id }
        match tmp with
        | none => Except.ok (GADGET_FAIL, s3)
        | some g =>
          Except.ok (GADGET_OK, s3.emit [Event.set_parameter g.id "pass_through_mode" "true"])

/-- DistributeGadget::collector_putq (lines 33-47); ok tells whether
collect_gadget_->putq(m) succeeds. -/
def collector_putq (ok : Bool) (s : DistributeGadget) (m : MessageBlock) :
    Int × DistributeGadget :=
  match s.collect_gadget_ with
  | none => (GADGET_FAIL, s.emit [Event.release m])
  | some g =>
    if !ok then (GADGET_FAIL, s.emit [Event.collector_putq g m false, Event.release m])
    else (GADGET_OK, s.emit [Event.collector_putq g m true])

/-- DistributionConnector::process (lines 24-26). -/
def DistributionConnector.process (ok : Bool) (s : DistributeGadget) (_messageid : Nat)
    (mb : MessageBlock) : Int × DistributeGadget :=
  collector_putq ok s mb

/-- What the outside world answers during close: whether the putq of the
CLOSE message on the connector stored under a key succeeds, and the value
Gadget::close returns. -/
structure CloseEnv where
  sentinel_putq_ok : Int → Bool
  gadget_close : Int

/-- The loop of lines 244-257 over the entries of node_map_ in key order;
the Boolean is false when a putq failed (close then returns -1). -/
def close_connectors (putq_ok : Int → Bool) : NodeMap → Bool × List Event
  | [] => (true, [])
  | (_, none) :: rest => close_connectors putq_ok rest
  | (k, some c) :: rest =>
    if !putq_ok k then (false, [Event.con_putq c GADGET_MESSAGE_CLOSE none false])
    else
      ((close_connectors putq_ok rest).1,
        [Event.con_putq c GADGET_MESSAGE_CLOSE none true, Event.con_wait c,
         Event.con_close c, Event.delete_connector c] ++ (close_connectors putq_ok rest).2)

/-- DistributeGadget::close (lines 241-261). -/
def close (e : CloseEnv) (s : DistributeGadget) (flags : Nat) : Int × DistributeGadget :=
  if flags ≠ 0 then
    let r := close_connectors e.sentinel_putq_ok s.node_map_
    if !r.1 then (-1, s.emit r.2)
    else (e.gadget_close, s.emit (r.2 ++ [Event.gadget_close flags]))
  else (e.gadget_close, s.emit [Event.gadget_close flags])

/-- A freshly constructed gadget with the given property values. -/
def DistributeGadget.init (collector : String) (use_this_node : Bool) : DistributeGadget :=
  { node_map_ := [], node_xml_config_ := "", node_parameters_ := "", collect_gadget_ := none,
    collector := collector, use_this_node_for_compute := use_this_node,
    next_object := 0, trace := [] }

/-- A sequence of process calls, each with its own answers of the world. -/
def process_all (p : Policy) (s : DistributeGadget) :
    List (ProcessEnv × MessageBlock) → DistributeGadget
  | [] => s
  | (e, m) :: rest => process_all p (process p e s m).2 rest

/-- The candidate the scan would hold after looking at every node of the
list, were the loop never left early: the "running best" of the selection
rule (the body of lines 88-90 folded over the list, without the break). -/
def running_best (me : GadgetronNodeInfo) (nl : List GadgetronNodeInfo) : GadgetronNodeInfo :=
  nl.foldl (fun best it =>
    if it.active_reconstructions < best.active_reconstructions then it else best) me

/-- A gadget descriptor with the given name. -/
def stage (name : String) : GadgetXML := { name := name, dll := "lib", classname := name }

/-- The stream configuration [A, Router, C, Collector, D]. -/
def sample_pipeline : GadgetStreamConfiguration :=
  { reader := [], writer := [],
    gadget := [stage "A", stage "Router", stage "C", stage "Collector", stage "D"] }

/-- A world for process_config: the controller holds the sample pipeline,
the gadget is the task "Router", followed in the live stream by C,
Collector and D; the serialised form lists the gadget names. -/
def sample_config_env : ConfigEnv :=
  { parameters := "<ismrmrdHeader/>", xml := "<gadgetronStreamConfiguration/>",
    deserialize := fun _ => some sample_pipeline,
    serialize := fun cfg => String.intercalate "," (cfg.gadget.map GadgetXML.name),
    self := { id := 1, name := "Router", is_gadget := true },
    downstream := [{ id := 2, name := "C", is_gadget := true },
                   { id := 3, name := "Collector", is_gadget := true },
                   { id := 4, name := "D", is_gadget := true }] }

/-- The non-null pointers stored in the node map, in key order. -/
def connectors (nm : NodeMap) : List Connector := nm.filterMap Prod.snd

/-- The calls lines 246-255 make on one connector when the putq succeeds:
put the CLOSE message, wait, close, delete. -/
def teardown (c : Connector) : List Event :=
  [Event.con_putq c GADGET_MESSAGE_CLOSE none true, Event.con_wait c, Event.con_close c,
   Event.delete_connector c]

/-- How often a trace releases the message block m, directly or as the
continuation of a released container. -/
def releases (m : MessageBlock) (tr : List Event) : Nat :=
  tr.countP (fun ev =>
    match ev with
    | Event.release m1 => decide (m1 = m)
    | Event.release_container _ (some m1) => decide (m1 = m)
    | _ => false)

/-- The shape of a gadget state the code can reach: the node map is a
std::map (keys strictly ascending), the connectors stored in it are
pairwise distinct objects, and each of them has been allocated. -/
def DistributeGadget.wf (s : DistributeGadget) : Prop :=
  s.node_map_.Pairwise (fun a b => a.1 < b.1) ∧
  (connectors s.node_map_).Nodup ∧
  ∀ c ∈ connectors s.node_map_, c < s.next_object

/-- The calls lines 110-119 make for a list of readers that all load. -/
def reader_calls (c : Connector) (l : List Codec) : List Event :=
  l.flatMap (fun i => [Event.load_reader i.dll i.classname, Event.register_reader c i.slot])

/-- The calls lines 121-130 make for a list of writers that all load. -/
def writer_calls (c : Connector) (l : List Codec) : List Event :=
  l.flatMap (fun i => [Event.load_writer i.dll i.classname, Event.register_writer c i.slot])

/-- Whether an event puts a message on a queue (of the next gadget, of the
collector or of a connector). -/
def Event.is_putq : Event → Bool
  | Event.next_putq _ _ => true
  | Event.collector_putq _ _ _ => true
  | Event.con_putq _ _ _ _ => true
  | _ => false

/-- Whether an event asks the CloudBus. -/
def Event.is_query : Event → Bool
  | Event.get_node_info => true
  | Event.active_reconstructions => true
  | _ => false

/-- The calls a sequence of process calls makes when every message is handed
to the next gadget: one putq per message, and a release after a failed one. -/
def offered (calls : List (ProcessEnv × MessageBlock)) : List Event :=
  calls.flatMap (fun em =>
    Event.next_putq em.2 em.1.next_putq_ok ::
      (if em.1.next_putq_ok then [] else [Event.release em.2]))

/-! ## ParameterParser (toolboxes/hostutils/parameterparser.cpp)

The two classes of this file live in the global namespace of the source.
A char is identified with the character of an ASCII string; what the code
prints (std::cout, print_usage) has no counterpart, and the int and float
values a parameter derives from its strings by stream extraction are left
out. -/

/-- The enumeration CommandLineParameterType (parameterparser.h); the code
only asks whether the type is COMMAND_LINE_FLOAT or COMMAND_LINE_INT. -/
inductive CommandLineParameterType where
  | COMMAND_LINE_STRING
  | COMMAND_LINE_INT
  | COMMAND_LINE_FLOAT
  | COMMAND_LINE_NO_ARG
deriving DecidableEq, Repr

/-- The members of CommandLineParameter; m_string_value is the array of
m_nr_values strings. -/
structure CommandLineParameter where
  m_type : CommandLineParameterType
  m_switch : Char
  m_nr_values : Nat
  m_desc : String
  m_is_required : Bool
  m_is_set : Bool
  m_string_value : List String
deriving DecidableEq, Repr

/-- CommandLineParameter::CommandLineParameter (lines 8-29). -/
def CommandLineParameter.ctor (com_switch : Char) (type : CommandLineParameterType)
    (nr_values : Nat) (desc : String) (required : Bool) : CommandLineParameter :=
  { m_type := type, m_switch := com_switch, m_nr_values := nr_values, m_desc := desc,
    m_is_required := required, m_is_set := false,
    m_string_value := List.replicate nr_values "" }

/-- CommandLineParameter::is_switch_equal_to (lines 84-87). -/
def CommandLineParameter.is_switch_equal_to (p : CommandLineParameter) (com_switch : Char) :
    Bool :=
  p.m_switch == com_switch

/-- CommandLineParameter::set_value (lines 89-112) on an argv that holds at
least m_nr_values strings (the callers see to that): the first m_nr_values
strings are stored and the parameter is marked set. -/
def CommandLineParameter.set_value (p : CommandLineParameter) (argv : List String) :
    CommandLineParameter :=
  { p with m_string_value := argv.take p.m_nr_values, m_is_set := true }

/-- The members of ParameterParser.  m_parameter_list holds the
m_number_of_parameters pointers stored so far, and allocated is the number
of slots of the array they are stored in. -/
structure ParameterParser where
  m_list_size : Nat
  m_list_increment : Nat
  allocated : Nat
  m_parameter_list : List CommandLineParameter
  m_max_desc_length : Nat
  m_max_number_values : Nat
  m_command_name : String
deriving DecidableEq, Repr

/-- The member m_number_of_parameters. -/
def ParameterParser.m_number_of_parameters (s : ParameterParser) : Nat :=
  s.m_parameter_list.length

/-- ParameterParser::ParameterParser (lines 129-137). -/
def ParameterParser.ctor (list_size list_increment : Nat) : ParameterParser :=
  { m_list_size := list_size, m_list_increment := list_increment, allocated := list_size,
    m_parameter_list := [], m_max_desc_length := 0, m_max_number_values := 0,
    m_command_name := "" }

/-- ParameterParser::expand_list (lines 144-156): a new array of
m_list_size + m_list_increment slots receives the stored pointers;
m_list_size itself is not changed.  Copying more pointers than the new
array has slots is undefined. -/
def ParameterParser.expand_list (s : ParameterParser) : Except Fault ParameterParser :=
  let new_list_size := s.m_list_size + s.m_list_increment
  if s.m_number_of_parameters ≤ new_list_size then
    Except.ok { s with allocated := new_list_size }
  else Except.error Fault.undefined_behaviour

/-- ParameterParser::add_parameter without a default (lines 195-218).
Storing the pointer beyond the allocated array is undefined. -/
def ParameterParser.add_parameter (s : ParameterParser) (com_switch : Char)
    (type : CommandLineParameterType) (nr_values : Nat) (desc : String) (required : Bool) :
    Except Fault (Int × ParameterParser) :=
  let p := CommandLineParameter.ctor com_switch type nr_values desc required
  if s.m_parameter_list.any (fun q => q.is_switch_equal_to com_switch) then
    Except.ok (-1, s)
  else
    match (if s.m_number_of_parameters ≥ s.m_list_size then s.expand_list
           else Except.ok s) with
    | Except.error f => Except.error f
    | Except.ok s1 =>
      if s1.m_number_of_parameters < s1.allocated then
        Except.ok (0,
          { s1 with
            m_parameter_list := s1.m_parameter_list ++ [p],
            m_max_desc_length := max s1.m_max_desc_length desc.length,
            m_max_number_values := max s1.m_max_number_values nr_values })
      else Except.error Fault.undefined_behaviour

/-- The white space skipped by stream extraction (isspace in the C locale). -/
def is_space (c : Char) : Bool :=
  c.toNat = 32 || (9 ≤ c.toNat && c.toNat ≤ 13)

/-- The pieces of a text between white space characters, empty ones included. -/
def pieces : List Char → List (List Char)
  | [] => [[]]
  | c :: cs =>
    if is_space c then [] :: pieces cs
    else
      match pieces cs with
      | [] => [[c]]
      | w :: ws => (c :: w) :: ws

/-- The strings the loop of lines 180-185 extracts from the default text:
its first nr_values words, followed by empty strings when it has fewer. -/
def default_argv (nr_values : Nat) (dflt : String) : List String :=
  ((((pieces dflt.data).filter (fun w => !w.isEmpty)).map String.mk) ++
    List.replicate nr_values "").take nr_values

/-- ParameterParser::add_parameter with a default (lines 167-193).  The
value returned by the inner add_parameter is not looked at; set_value is
called on the last stored parameter with an argv of nr_values strings, which
is undefined when there is no stored parameter or when that parameter reads
more strings than argv holds. -/
def ParameterParser.add_parameter_default (s : ParameterParser) (com_switch : Char)
    (type : CommandLineParameterType) (nr_values : Nat) (desc : String) (required : Bool)
    (dflt : String) : Except Fault (Int × ParameterParser) :=
  match s.add_parameter com_switch type nr_values desc required with
  | Except.error f => Except.error f
  | Except.ok r =>
    match r.2.m_parameter_list.getLast? with
    | none => Except.error Fault.undefined_behaviour
    | some last =>
      if last.m_nr_values ≤ nr_values then
        Except.ok (0,
          { r.2 with
            m_parameter_list :=
              r.2.m_parameter_list.dropLast ++
                [last.set_value (default_argv nr_values dflt)] })
      else Except.error Fault.undefined_behaviour

/-- The character argv[a][1] of a token: none when the token is empty (the
read lies beyond the terminator), the terminator itself for a token of one
character. -/
def second_char (tok : String) : Option Char :=
  match tok.data with
  | [] => none
  | [_] => some (Char.ofNat 0)
  | _ :: c :: _ => some c

/-- The outcome of the loop of lines 234-252 over the stored parameters. -/
inductive SwitchResult where
  /-- no parameter has the switch: argument_found stays false -/
  | unknown
  /-- the parameter with the switch needs more values than are left -/
  | malformed
  /-- set_value was called: the new parameters and the number of values read -/
  | set (l : List CommandLineParameter) (k : Nat)
deriving DecidableEq, Repr

/-- The loop of lines 234-252: the first parameter whose switch is c takes
its values from the strings that follow the token. -/
def find_switch (c : Char) (following : List String) :
    List CommandLineParameter → SwitchResult
  | [] => SwitchResult.unknown
  | p :: ps =>
    if p.is_switch_equal_to c then
      if p.m_nr_values ≤ following.length then
        SwitchResult.set (p.set_value following :: ps) p.m_nr_values
      else SwitchResult.malformed
    else
      match find_switch c following ps with
      | SwitchResult.set l k => SwitchResult.set (p :: l) k
      | r => r

/-- The while loop of lines 225-259 on the tokens from argv[a] on.  The test
of line 227 only prints.  Reading argv[a][1] of an empty token is undefined;
it is read once a parameter is stored. -/
def parse_loop (s : ParameterParser) (tokens : List String) :
    Except Fault (Int × ParameterParser) :=
  match tokens with
  | [] => Except.ok (0, s)
  | tok :: rest =>
    match second_char tok with
    | none =>
      if s.m_parameter_list.isEmpty then Except.ok (-1, s)
      else Except.error Fault.undefined_behaviour
    | some c =>
      match find_switch c rest s.m_parameter_list with
      | SwitchResult.unknown => Except.ok (-1, s)
      | SwitchResult.malformed => Except.ok (-1, s)
      | SwitchResult.set l k => parse_loop { s with m_parameter_list := l } (rest.drop k)
termination_by tokens.length
decreasing_by
  simp only [List.length_drop, List.length_cons]
  omega

/-- ParameterParser::parse_parameter_list (lines 220-261); argc is the
length of argv.  With argc = 0 the read of argv[0] is undefined. -/
def ParameterParser.parse_parameter_list (s : ParameterParser) (argv : List String) :
    Except Fault (Int × ParameterParser) :=
  match argv with
  | [] => Except.error Fault.undefined_behaviour
  | name :: tokens => parse_loop { s with m_command_name := name } tokens

/-- ParameterParser::get_parameter (lines 336-346); none is the null pointer. -/
def ParameterParser.get_parameter (s : ParameterParser) (com_switch : Char) :
    Option CommandLineParameter :=
  s.m_parameter_list.find? (fun q => q.is_switch_equal_to com_switch)

/-- The switches of the stored parameters, in list order. -/
def ParameterParser.switches (s : ParameterParser) : List Char :=
  s.m_parameter_list.map CommandLineParameter.m_switch

/-- A call of one of the two add_parameter overloads with its arguments. -/
inductive AddCall where
  | plain (com_switch : Char) (type : CommandLineParameterType) (nr_values : Nat)
      (desc : String) (required : Bool)
  | with_default (com_switch : Char) (type : CommandLineParameterType) (nr_values : Nat)
      (desc : String) (required : Bool) (dflt : String)
deriving DecidableEq, Repr

/-- One call of add_parameter, the returned value dropped. -/
def ParameterParser.add_call (s : ParameterParser) : AddCall → Except Fault ParameterParser
  | AddCall.plain c t n d r => (s.add_parameter c t n d r).map Prod.snd
  | AddCall.with_default c t n d r dflt => (s.add_parameter_default c t n d r dflt).map Prod.snd

/-- A sequence of add_parameter calls. -/
def ParameterParser.add_calls (s : ParameterParser) : List AddCall → Except Fault ParameterParser
  | [] => Except.ok s
  | call :: rest =>
    match s.add_call call with
    | Except.error f => Except.error f
    | Except.ok s1 => s1.add_calls rest

/-- The tokens of a list of groups, each a switch token followed by its
value tokens. -/
def flatten_groups (gs : List (String × List String)) : List String :=
  gs.flatMap (fun g => g.1 :: g.2)

/-- Every group starts with a token whose second character is the switch of
a stored parameter and has exactly that parameter's number of values. -/
def well_grouped (params : List CommandLineParameter) (gs : List (String × List String)) :
    Prop :=
  ∀ g ∈ gs, ∃ p ∈ params, second_char g.1 = some p.m_switch ∧ g.2.length = p.m_nr_values

/-- The values of the last group whose switch is c, if there is one. -/
def last_group (c : Char) : List (String × List String) → Option (List String)
  | [] => none
  | g :: gs =>
    match last_group c gs with
    | some v => some v
    | none => if second_char g.1 = some c then some g.2 else none

/-- A parameter after the groups have been read: set to the values of the
last group with its switch, or left as it was when no group has its switch. -/
def after_groups (gs : List (String × List String)) (p : CommandLineParameter) :
    CommandLineParameter :=
  match last_group p.m_switch gs with
  | none => p
  | some v => { p with m_string_value := v, m_is_set := true }

/-! ## Sample inputs used to instantiate the theorems -/

/-- The baseline hooks: node_index as in the source, message_id the identity. -/
def baseline : Policy := { node_index := node_index, message_id := fun m => m }

/-- A policy sending every message to the remote slot 1. -/
def slot_one : Policy := { node_index := fun _ => 1, message_id := fun m => m }

/-- A policy with a negative node index. -/
def negative_slot : Policy := { node_index := fun _ => -1, message_id := fun m => m }

/-- A stream configuration with one reader and one writer. -/
def sample_cfg : GadgetStreamConfiguration :=
  { reader := [{ slot := 1008, dll := "mri_core", classname := "AcquisitionReader" }],
    writer := [{ slot := 1022, dll := "mri_core", classname := "ImageWriter" }],
    gadget := [] }

/-- The nodes of the selection scenario: A with load 5, B with load 0, C with load 1. -/
def sample_nodes : List GadgetronNodeInfo :=
  [{ address := "A", port := 9002, active_reconstructions := 5 },
   { address := "B", port := 9002, active_reconstructions := 0 },
   { address := "C", port := 9002, active_reconstructions := 1 }]

/-- A world in which every call succeeds; local load 2 and the sample nodes. -/
def sample_env : ProcessEnv :=
  { next_putq_ok := true, nodes := sample_nodes, local_load := 2,
    deserialize := fun _ => some sample_cfg,
    load_reader := fun _ _ => true, load_writer := fun _ _ => true,
    open_ok := true, send_config_ok := true, send_params_ok := true, con_putq_ok := true }

/-- The sample world with no remote node known. -/
def lonely_env : ProcessEnv := { sample_env with nodes := [] }

/-- The sample world in which the transport cannot be opened. -/
def unreachable_env : ProcessEnv := { sample_env with open_ok := false }

/-- A fresh gadget with collector "Collector" that may compute locally. -/
def sample_gadget : DistributeGadget := DistributeGadget.init "Collector" true

/-- A fresh gadget that must not compute locally. -/
def remote_only_gadget : DistributeGadget := DistributeGadget.init "Collector" false

/-- A world for close in which every putq succeeds and Gadget::close returns 0. -/
def sample_close_env : CloseEnv := { sentinel_putq_ok := fun _ => true, gadget_close := 0 }

/-- A gadget whose node map holds connector 10 under 1, null under 2 and
connector 11 under 3. -/
def busy_gadget : DistributeGadget :=
  { sample_gadget with node_map_ := [(1, some 10), (2, none), (3, some 11)], next_object := 12 }

/-- The state process_config leaves on a fresh gadget in the sample world. -/
def configured_gadget : DistributeGadget :=
  match process_config sample_config_env sample_gadget with
  | Except.ok r => r.2
  | Except.error _ => sample_gadget

/-- The sample world in which the next gadget refuses the message. -/
def full_queue_env : ProcessEnv := { sample_env with next_putq_ok := false }

/-- The sample pipeline with the reader and the writer of sample_cfg. -/
def codec_pipeline : GadgetStreamConfiguration :=
  { sample_cfg with gadget := sample_pipeline.gadget }

/-- The sample world for process_config whose controller holds codec_pipeline. -/
def codec_config_env : ConfigEnv :=
  { sample_config_env with deserialize := fun _ => some codec_pipeline }

/-- The state process_config leaves on a fresh gadget in that world. -/
def codec_gadget : DistributeGadget :=
  match process_config codec_config_env sample_gadget with
  | Except.ok r => r.2
  | Except.error _ => sample_gadget

/-- A world for process that parses the configuration stored by
process_config in codec_config_env back into the slice [C, Collector]. -/
def codec_env : ProcessEnv :=
  { sample_env with
    deserialize := fun x =>
      if x = "C,Collector" then
        some { codec_pipeline with gadget := [stage "C", stage "Collector"] }
      else none }

/-- A world for process_config in which no gadget is named "Collector":
the configuration is [A, Router, C, D] and the live stream is Router, C, D. -/
def no_collector_env : ConfigEnv :=
  { sample_config_env with
    deserialize := fun _ =>
      some { reader := [], writer := [],
             gadget := [stage "A", stage "Router", stage "C", stage "D"] },
    downstream := [{ id := 2, name := "C", is_gadget := true },
                   { id := 4, name := "D", is_gadget := true }] }

/-- The sample world for process_config with a live stream Router, C, D that
lacks the collector named in the configuration. -/
def missing_stage_env : ConfigEnv :=
  { sample_config_env with
    downstream := [{ id := 2, name := "C", is_gadget := true },
                   { id := 4, name := "D", is_gadget := true }] }

/-- As missing_stage_env, with the stream ended by a task that is not a
Gadget (the tail of an ACE stream). -/
def stream_tail_env : ConfigEnv :=
  { sample_config_env with
    downstream := [{ id := 2, name := "C", is_gadget := true },
                   { id := 4, name := "D", is_gadget := true },
                   { id := 5, name := "ACE_Stream_Tail", is_gadget := false }] }

/-- The sample world in which the best node, B, reports port 0. -/
def portless_env : ProcessEnv :=
  { sample_env with
    nodes := [{ address := "A", port := 9002, active_reconstructions := 5 },
              { address := "B", port := 0, active_reconstructions := 0 },
              { address := "C", port := 9002, active_reconstructions := 1 }] }

/-- A string parameter with the given switch and number of values. -/
def string_parameter (c : Char) (n : Nat) : CommandLineParameter :=
  CommandLineParameter.ctor c CommandLineParameterType.COMMAND_LINE_STRING n "value" false

/-- A parser constructed with list_size 1 and list_increment 1 after the
parameters a (one value) and b (no value) have been added. -/
def two_slot_parameters : ParameterParser :=
  { m_list_size := 1, m_list_increment := 1, allocated := 2,
    m_parameter_list := [string_parameter (Char.ofNat 97) 1, string_parameter (Char.ofNat 98) 0],
    m_max_desc_length := 5, m_max_number_values := 1, m_command_name := "" }

/-- A parser constructed with list_size 10 and list_increment 10 holding the
parameters a (one value) and b (no value). -/
def sample_parameters : ParameterParser :=
  { m_list_size := 10, m_list_increment := 10, allocated := 10,
    m_parameter_list := [string_parameter (Char.ofNat 97) 1, string_parameter (Char.ofNat 98) 0],
    m_max_desc_length := 5, m_max_number_values := 1, m_command_name := "" }

/-- The sample parser once the command name "prog" has been stored. -/
def named_parameters : ParameterParser := { sample_parameters with m_command_name := "prog" }

/-! ## Lemmas on the node map and on process -/

theorem NodeMap.find_assign (j k : Int) (v : Option Connector) (nm : NodeMap) :
    NodeMap.find j (NodeMap.assign k v nm) = if k = j then some v else NodeMap.find j nm := by
  induction nm with
  | nil => simp [NodeMap.assign, NodeMap.find]
  | cons kv rest ih =>
    obtain ⟨k', v'⟩ := kv
    unfold NodeMap.assign
    by_cases h1 : k < k'
    · simp [h1, NodeMap.find]
    · by_cases h2 : k = k'
      · subst h2
        by_cases h3 : k = j <;> simp [NodeMap.find, h3]
      · have h4 : ¬ k' = k := fun h => h2 h.symm
        by_cases h3 : k = j
        · subst h3
          simp [h1, h2, h4, NodeMap.find, ih]
        · simp [h1, h2, h3, NodeMap.find, ih]

theorem connect_fields (e : ProcessEnv) (s : DistributeGadget) (me : GadgetronNodeInfo) :
    (connect e s me).2.node_map_ = s.node_map_ ∧
    (connect e s me).2.use_this_node_for_compute = s.use_this_node_for_compute ∧
    (connect e s me).2.node_xml_config_ = s.node_xml_config_ ∧
    (connect e s me).2.node_parameters_ = s.node_parameters_ ∧
    (connect e s me).2.collect_gadget_ = s.collect_gadget_ ∧
    (connect e s me).2.collector = s.collector := by
  unfold connect
  cases e.deserialize s.node_xml_config_ with
  | none => simp
  | some cfg =>
    simp only [DistributeGadget.emit]
    split_ifs <;> simp

theorem connect_some (e : ProcessEnv) (s : DistributeGadget) (me : GadgetronNodeInfo)
    (c : Connector) (h : (connect e s me).1 = some c) : c = s.next_object := by
  unfold connect at h
  cases hd : e.deserialize s.node_xml_config_ with
  | none => simp [hd] at h
  | some cfg =>
    simp only [hd, DistributeGadget.emit] at h
    split_ifs at h
    simp_all

theorem dispatch_find (p : Policy) (e : ProcessEnv) (s : DistributeGadget) (m : MessageBlock)
    (idx : Int) (con : Option Connector) (j : Int) :
    NodeMap.find j (dispatch p e s m idx con).2.node_map_ =
      if idx = j then some con else NodeMap.find j s.node_map_ := by
  have key : ∀ r : Int × DistributeGadget,
      r.2.node_map_ = NodeMap.assign idx con s.node_map_ →
      NodeMap.find j r.2.node_map_ = if idx = j then some con else NodeMap.find j s.node_map_ := by
    intro r hr
    rw [hr, NodeMap.find_assign]
  apply key
  unfold dispatch
  cases con with
  | none =>
    simp only [DistributeGadget.emit]
    split_ifs <;> rfl
  | some c =>
    simp only [DistributeGadget.emit]
    split_ifs <;> rfl

/-- The result of process when the index is positive and already resolved. -/
theorem process_cached (p : Policy) (e : ProcessEnv) (s : DistributeGadget) (m : MessageBlock)
    (con : Option Connector) (hi : 0 < p.node_index m)
    (hf : NodeMap.find (p.node_index m) s.node_map_ = some con) :
    process p e s m = dispatch p e s m (p.node_index m) con := by
  unfold process
  have h1 : ¬ p.node_index m < 0 := by omega
  have h2 : ¬ p.node_index m = 0 := by omega
  simp [h1, h2, hf]

/-- The result of process when the index is positive and not yet resolved. -/
theorem process_fresh (p : Policy) (e : ProcessEnv) (s : DistributeGadget) (m : MessageBlock)
    (hi : 0 < p.node_index m) (hf : NodeMap.find (p.node_index m) s.node_map_ = none) :
    process p e s m =
      if (select_node (local_node e.local_load) e.nodes).port ≠ 0 then
        match connect e (s.emit [Event.get_node_info, Event.active_reconstructions])
            (select_node (local_node e.local_load) e.nodes) with
        | (none, s2) => (GADGET_FAIL, s2)
        | (some con, s2) => dispatch p e s2 m (p.node_index m) (some con)
      else dispatch p e (s.emit [Event.get_node_info, Event.active_reconstructions]) m
        (p.node_index m) none := by
  unfold process
  have h1 : ¬ p.node_index m < 0 := by omega
  have h2 : ¬ p.node_index m = 0 := by omega
  simp [h1, h2, hf]

/-- An entry of the node map survives a call of process unchanged. -/
theorem process_keeps_entry (p : Policy) (e : ProcessEnv) (s : DistributeGadget)
    (m : MessageBlock) (j : Int) (v : Option Connector)
    (h : NodeMap.find j s.node_map_ = some v) :
    NodeMap.find j (process p e s m).2.node_map_ = some v := by
  by_cases h1 : p.node_index m < 0
  · simpa [process, h1] using h
  by_cases h2 : p.node_index m = 0
  · cases hq : e.next_putq_ok <;> simpa [process, h2, hq, DistributeGadget.emit] using h
  have hi : 0 < p.node_index m := by omega
  cases hf : NodeMap.find (p.node_index m) s.node_map_ with
  | some con =>
    rw [process_cached p e s m con hi hf, dispatch_find]
    by_cases hj : p.node_index m = j
    · rw [hj] at hf
      rw [hf] at h
      simp [hj, h]
    · simp [hj, h]
  | none =>
    have hj : ¬ p.node_index m = j := by
      intro hj
      rw [hj] at hf
      rw [hf] at h
      cases h
    rw [process_fresh p e s m hi hf]
    split_ifs with hp
    · generalize hc : connect e (s.emit [Event.get_node_info, Event.active_reconstructions])
        (select_node (local_node e.local_load) e.nodes) = r
      obtain ⟨r1, r2⟩ := r
      have hm := (connect_fields e (s.emit [Event.get_node_info, Event.active_reconstructions])
        (select_node (local_node e.local_load) e.nodes)).1
      rw [hc] at hm
      simp only [DistributeGadget.emit] at hm
      cases r1 with
      | none => simp only [hm]; exact h
      | some c => simp only [dispatch_find, hj, if_false, hm]; exact h
    · simp only [dispatch_find, hj, if_false, DistributeGadget.emit]
      exact h

theorem process_all_keeps_entry (p : Policy) (calls : List (ProcessEnv × MessageBlock))
    (s : DistributeGadget) (j : Int) (v : Option Connector)
    (h : NodeMap.find j s.node_map_ = some v) :
    NodeMap.find j (process_all p s calls).node_map_ = some v := by
  induction calls generalizing s with
  | nil => exact h
  | cons em rest ih =>
    obtain ⟨e, m⟩ := em
    exact ih _ (process_keeps_entry p e s m j v h)

theorem dispatch_trace (p : Policy) (e : ProcessEnv) (s : DistributeGadget) (m : MessageBlock)
    (idx : Int) (con : Option Connector) :
    ∃ ev, (dispatch p e s m idx con).2.trace = s.trace ++ ev := by
  unfold dispatch
  cases con with
  | none =>
    simp only [DistributeGadget.emit]
    split_ifs <;> exact ⟨_, rfl⟩
  | some c =>
    simp only [DistributeGadget.emit]
    split_ifs <;> exact ⟨_, rfl⟩

theorem connect_trace (e : ProcessEnv) (s : DistributeGadget) (me : GadgetronNodeInfo) :
    ∃ ev, (connect e s me).2.trace = s.trace ++ Event.new_connector s.next_object :: ev := by
  unfold connect
  cases e.deserialize s.node_xml_config_ with
  | none => exact ⟨_, rfl⟩
  | some cfg =>
    simp only [DistributeGadget.emit]
    split_ifs <;> simp

/-- A first resolution starts by asking the CloudBus. -/
theorem process_fresh_trace (p : Policy) (e : ProcessEnv) (s : DistributeGadget)
    (m : MessageBlock) (hi : 0 < p.node_index m)
    (hf : NodeMap.find (p.node_index m) s.node_map_ = none) :
    ∃ ev, (process p e s m).2.trace =
      s.trace ++ Event.get_node_info :: Event.active_reconstructions :: ev := by
  rw [process_fresh p e s m hi hf]
  split_ifs with hp
  · generalize hc : connect e (s.emit [Event.get_node_info, Event.active_reconstructions])
      (select_node (local_node e.local_load) e.nodes) = r
    obtain ⟨r1, r2⟩ := r
    obtain ⟨ev, hev⟩ := connect_trace e (s.emit [Event.get_node_info, Event.active_reconstructions])
      (select_node (local_node e.local_load) e.nodes)
    rw [hc] at hev
    simp only [DistributeGadget.emit] at hev
    cases r1 with
    | none =>
      refine ⟨Event.new_connector s.next_object :: ev, ?_⟩
      simp only [hev, List.append_assoc, List.cons_append, List.nil_append]
    | some c =>
      obtain ⟨ev2, hev2⟩ := dispatch_trace p e r2 m (p.node_index m) (some c)
      refine ⟨Event.new_connector s.next_object :: (ev ++ ev2), ?_⟩
      simp only [hev2, hev, List.append_assoc, List.cons_append, List.nil_append]
  · obtain ⟨ev2, hev2⟩ := dispatch_trace p e
      (s.emit [Event.get_node_info, Event.active_reconstructions]) m (p.node_index m) none
    refine ⟨ev2, ?_⟩
    rw [hev2]
    simp only [DistributeGadget.emit, List.append_assoc, List.cons_append, List.nil_append]

/-- The connector set-up fails when the open or one of the two sends fails. -/
theorem connect_handshake_failure (e : ProcessEnv) (s : DistributeGadget)
    (me : GadgetronNodeInfo) (cfg : GadgetStreamConfiguration)
    (hcfg : e.deserialize s.node_xml_config_ = some cfg)
    (hr : (register_readers e.load_reader s.next_object cfg.reader).1 = true)
    (hw : (register_writers e.load_writer s.next_object cfg.writer).1 = true)
    (hfail : e.open_ok = false ∨ e.send_config_ok = false ∨ e.send_params_ok = false) :
    (connect e s me).1 = none ∧
    Event.con_open s.next_object me.address (Nat.repr me.port) ∈ (connect e s me).2.trace := by
  unfold connect
  simp only [hcfg, hr, hw, DistributeGadget.emit]
  rcases hfail with h | h | h
  · simp [h]
  · cases e.open_ok <;> simp [h]
  · cases e.open_ok <;> cases e.send_config_ok <;> simp [h]

/-! ## Lemmas on the configuration slice and on the selection scan -/

theorem advance_first (x : String) (l : List GadgetXML) (r : Nat)
    (hr : (l[r]?).map GadgetXML.name = some x)
    (hfirst : ∀ j, j < r → (l[j]?).map GadgetXML.name ≠ some x) :
    advance x l = some r := by
  induction l generalizing r with
  | nil => simp at hr
  | cons g rest ih =>
    cases r with
    | zero =>
      have hg : g.name = x := by simpa using hr
      simp [advance, hg]
    | succ n =>
      have hg : g.name ≠ x := by
        have := hfirst 0 (Nat.succ_pos n)
        simpa using this
      have hn : ((rest[n]?).map GadgetXML.name) = some x := by simpa using hr
      have hrest : ∀ j, j < n → (rest[j]?).map GadgetXML.name ≠ some x := by
        intro j hj
        have := hfirst (j + 1) (Nat.succ_lt_succ hj)
        simpa using this
      simp [advance, hg, ih n hn hrest]

theorem slice_gadgets_positions (self_name collector : String) (gadget : List GadgetXML)
    (r c : Nat)
    (hr : (gadget[r]?).map GadgetXML.name = some self_name)
    (hr1 : ∀ j, j < r → (gadget[j]?).map GadgetXML.name ≠ some self_name)
    (hrc : r < c)
    (hc : (gadget[c]?).map GadgetXML.name = some collector)
    (hc1 : ∀ j, r < j → j < c → (gadget[j]?).map GadgetXML.name ≠ some collector) :
    slice_gadgets self_name collector gadget = some ((gadget.take (c + 1)).drop (r + 1)) := by
  have h1 := advance_first self_name gadget r hr hr1
  have h2 : advance collector (gadget.drop (r + 1)) = some (c - r - 1) := by
    apply advance_first
    · rw [List.getElem?_drop]
      have : r + 1 + (c - r - 1) = c := by omega
      rw [this]
      exact hc
    · intro j hj
      rw [List.getElem?_drop]
      exact hc1 (r + 1 + j) (by omega) (by omega)
  unfold slice_gadgets
  simp only [h1, h2]
  rw [List.drop_take]
  have : c - r - 1 + 1 = c + 1 - (r + 1) := by omega
  rw [this]

theorem running_best_zero (me : GadgetronNodeInfo) (nl : List GadgetronNodeInfo)
    (h : me.active_reconstructions = 0) : running_best me nl = me := by
  induction nl with
  | nil => rfl
  | cons it rest ih =>
    unfold running_best at ih ⊢
    simp only [List.foldl_cons, h, Nat.not_lt_zero, if_false]
    exact ih

theorem select_node_of_running_best_zero (me : GadgetronNodeInfo)
    (nl : List GadgetronNodeInfo) (h : (running_best me nl).active_reconstructions = 0) :
    select_node me nl = running_best me nl := by
  induction nl generalizing me with
  | nil => rfl
  | cons it rest ih =>
    unfold select_node
    simp only
    by_cases h0 : (if it.active_reconstructions < me.active_reconstructions then it
        else me).active_reconstructions = 0
    · rw [if_pos h0]
      have := running_best_zero _ rest h0
      simpa [running_best] using this.symm
    · rw [if_neg h0]
      exact ih _ h

theorem select_node_append_of_zero (me : GadgetronNodeInfo)
    (front later : List GadgetronNodeInfo)
    (h : (select_node me front).active_reconstructions = 0) :
    select_node me (front ++ later) = select_node me front := by
  induction front generalizing me with
  | nil =>
    have hme : me.active_reconstructions = 0 := h
    cases later with
    | nil => rfl
    | cons it rest => simp [select_node, hme]
  | cons it rest ih =>
    rw [List.cons_append]
    unfold select_node at h ⊢
    simp only at h ⊢
    by_cases h0 : (if it.active_reconstructions < me.active_reconstructions then it
        else me).active_reconstructions = 0
    · simp only [h0, if_true]
    · simp only [h0, if_false] at h ⊢
      exact ih _ h

/-! ## Lemmas on close -/

theorem close_connectors_all_ok (putq_ok : Int → Bool) (nm : NodeMap)
    (hok : ∀ k c, (k, some c) ∈ nm → putq_ok k = true) :
    close_connectors putq_ok nm = (true, (connectors nm).flatMap teardown) := by
  induction nm with
  | nil => rfl
  | cons kv rest ih =>
    obtain ⟨k, v⟩ := kv
    have ih1 := ih (fun k1 c1 h => hok k1 c1 (List.mem_cons_of_mem _ h))
    cases v with
    | none => simpa [close_connectors, connectors] using ih1
    | some c =>
      have hk : putq_ok k = true := hok k c (List.mem_cons_self _ _)
      simp only [connectors] at ih1
      simp [close_connectors, connectors, hk, ih1, teardown]

theorem close_connectors_no_gadget_close (putq_ok : Int → Bool) (nm : NodeMap) (f : Nat) :
    Event.gadget_close f ∉ (close_connectors putq_ok nm).2 := by
  induction nm with
  | nil => simp [close_connectors]
  | cons kv rest ih =>
    obtain ⟨k, v⟩ := kv
    cases v with
    | none => simpa [close_connectors] using ih
    | some c =>
      cases hk : putq_ok k
      · simp [close_connectors, hk]
      · simpa [close_connectors, hk] using ih

theorem close_connectors_teardown (putq_ok : Int → Bool) (nm : NodeMap)
    (h : (close_connectors putq_ok nm).1 = true) (k : Int) (c : Connector)
    (hm : (k, some c) ∈ nm) : teardown c <:+: (close_connectors putq_ok nm).2 := by
  induction nm with
  | nil => cases hm
  | cons kv rest ih =>
    obtain ⟨k1, v⟩ := kv
    cases v with
    | none =>
      have hm1 : (k, some c) ∈ rest := by
        rcases List.mem_cons.1 hm with h1 | h1
        · cases h1
        · exact h1
      simp only [close_connectors] at h ⊢
      exact ih h hm1
    | some c1 =>
      cases hk : putq_ok k1
      · simp [close_connectors, hk] at h
      · simp only [close_connectors, hk, Bool.not_true, Bool.false_eq_true, if_false] at h ⊢
        rcases List.mem_cons.1 hm with h1 | h1
        · have hc : c = c1 := by
            have := congrArg Prod.snd h1
            simpa using this
          subst hc
          exact ⟨[], (close_connectors putq_ok rest).2, by simp [teardown]⟩
        · obtain ⟨a, b, hab⟩ := ih h h1
          exact ⟨[Event.con_putq c1 GADGET_MESSAGE_CLOSE none true, Event.con_wait c1,
            Event.con_close c1, Event.delete_connector c1] ++ a, b, by simp [← hab]⟩

theorem close_connectors_failure (putq_ok : Int → Bool) (nm : NodeMap)
    (h : ∃ k c, (k, some c) ∈ nm ∧ putq_ok k = false) :
    (close_connectors putq_ok nm).1 = false := by
  induction nm with
  | nil =>
    obtain ⟨k, c, hm, _⟩ := h
    cases hm
  | cons kv rest ih =>
    obtain ⟨k1, v⟩ := kv
    obtain ⟨k, c, hm, hk⟩ := h
    cases v with
    | none =>
      have hm1 : (k, some c) ∈ rest := by
        rcases List.mem_cons.1 hm with h1 | h1
        · cases h1
        · exact h1
      simpa [close_connectors] using ih ⟨k, c, hm1, hk⟩
    | some c1 =>
      cases hk1 : putq_ok k1
      · simp [close_connectors, hk1]
      · rcases List.mem_cons.1 hm with h1 | h1
        · have : k = k1 := by
            have := congrArg Prod.fst h1
            simpa using this
          rw [this, hk1] at hk
          cases hk
        · simpa [close_connectors, hk1] using ih ⟨k, c, h1, hk⟩

theorem count_sentinel_flatMap (c : Connector) (l : List Connector) :
    ((l.flatMap teardown).count (Event.con_putq c GADGET_MESSAGE_CLOSE none true)) =
      l.count c := by
  induction l with
  | nil => rfl
  | cons x xs ih =>
    rw [List.flatMap_cons, List.count_append, ih, List.count_cons]
    by_cases hx : x = c
    · subst hx
      simp [teardown, List.count_cons, Nat.add_comm]
    · have hx2 : ¬ c = x := fun h => hx h.symm
      simp [teardown, List.count_cons, hx, hx2]

/-! ## The reachable states keep their connectors distinct -/

theorem NodeMap.assign_keys (k : Int) (v : Option Connector) (nm : NodeMap)
    (kv : Int × Option Connector) (h : kv ∈ NodeMap.assign k v nm) :
    kv = (k, v) ∨ kv ∈ nm := by
  induction nm with
  | nil => simpa [NodeMap.assign] using h
  | cons a rest ih =>
    obtain ⟨k1, v1⟩ := a
    unfold NodeMap.assign at h
    split_ifs at h with h1 h2
    · rcases List.mem_cons.1 h with h3 | h3
      · exact Or.inl h3
      · exact Or.inr h3
    · rcases List.mem_cons.1 h with h3 | h3
      · exact Or.inl h3
      · exact Or.inr (List.mem_cons_of_mem _ h3)
    · rcases List.mem_cons.1 h with h3 | h3
      · exact Or.inr (h3 ▸ List.mem_cons_self _ _)
      · rcases ih h3 with h4 | h4
        · exact Or.inl h4
        · exact Or.inr (List.mem_cons_of_mem _ h4)

theorem NodeMap.assign_sorted (k : Int) (v : Option Connector) (nm : NodeMap)
    (h : nm.Pairwise (fun a b => a.1 < b.1)) :
    (NodeMap.assign k v nm).Pairwise (fun a b => a.1 < b.1) := by
  induction nm with
  | nil => simp [NodeMap.assign]
  | cons a rest ih =>
    obtain ⟨k1, v1⟩ := a
    obtain ⟨hhead, htail⟩ := List.pairwise_cons.1 h
    unfold NodeMap.assign
    split_ifs with h1 h2
    · refine List.pairwise_cons.2 ⟨?_, h⟩
      intro b hb
      rcases List.mem_cons.1 hb with h3 | h3
      · rw [h3]; exact h1
      · exact lt_trans h1 (hhead b h3)
    · subst h2
      exact List.pairwise_cons.2 ⟨hhead, htail⟩
    · refine List.pairwise_cons.2 ⟨?_, ih htail⟩
      intro b hb
      rcases NodeMap.assign_keys k v rest b hb with h3 | h3
      · rw [h3]
        show k1 < k
        omega
      · exact hhead b h3

theorem NodeMap.find_mem (k : Int) (v : Option Connector) (nm : NodeMap)
    (h : NodeMap.find k nm = some v) : (k, v) ∈ nm := by
  induction nm with
  | nil => simp [NodeMap.find] at h
  | cons a rest ih =>
    obtain ⟨k1, v1⟩ := a
    unfold NodeMap.find at h
    split_ifs at h with h1
    · have hv : v1 = v := by simpa using h
      rw [h1, hv]
      exact List.mem_cons_self _ _
    · exact List.mem_cons_of_mem _ (ih h)

theorem NodeMap.assign_of_find (k : Int) (v : Option Connector) (nm : NodeMap)
    (hs : nm.Pairwise (fun a b => a.1 < b.1)) (h : NodeMap.find k nm = some v) :
    NodeMap.assign k v nm = nm := by
  induction nm with
  | nil => simp [NodeMap.find] at h
  | cons a rest ih =>
    obtain ⟨k1, v1⟩ := a
    obtain ⟨hhead, htail⟩ := List.pairwise_cons.1 hs
    unfold NodeMap.find at h
    split_ifs at h with h1
    · have hv : v1 = v := by simpa using h
      subst h1
      subst hv
      simp [NodeMap.assign]
    · have hlt : k1 < k := hhead (k, v) (NodeMap.find_mem k v rest h)
      have h2 : ¬ k < k1 := by omega
      have h3 : ¬ k = k1 := fun h4 => h1 h4.symm
      simp [NodeMap.assign, h2, h3, ih htail h]

theorem connectors_assign_mem (k : Int) (v : Option Connector) (nm : NodeMap) (x : Connector)
    (h : x ∈ connectors (NodeMap.assign k v nm)) : x ∈ connectors nm ∨ v = some x := by
  unfold connectors at h ⊢
  obtain ⟨kv, hkv, hx⟩ := List.mem_filterMap.1 h
  rcases NodeMap.assign_keys k v nm kv hkv with h1 | h1
  · right
    rw [h1] at hx
    exact hx
  · left
    exact List.mem_filterMap.2 ⟨kv, h1, hx⟩

theorem connectors_assign_nodup (k : Int) (v : Option Connector) (nm : NodeMap)
    (hn : (connectors nm).Nodup) (hfresh : ∀ c, v = some c → c ∉ connectors nm) :
    (connectors (NodeMap.assign k v nm)).Nodup := by
  induction nm with
  | nil => cases v <;> simp [NodeMap.assign, connectors]
  | cons a rest ih =>
    obtain ⟨k1, v1⟩ := a
    have hrest : (connectors rest).Nodup := by
      cases v1 with
      | none => simpa [connectors] using hn
      | some c1 =>
        have : (c1 :: connectors rest).Nodup := by simpa [connectors] using hn
        exact (List.nodup_cons.1 this).2
    have hfresh_rest : ∀ c, v = some c → c ∉ connectors rest := by
      intro c hc hmem
      apply hfresh c hc
      cases v1 with
      | none => simpa [connectors] using hmem
      | some c1 =>
        have : c ∈ c1 :: connectors rest := List.mem_cons_of_mem _ hmem
        simpa [connectors] using this
    have hcons : ∀ (w : Option Connector) (l : NodeMap),
        connectors ((k1, w) :: l) = w.toList ++ connectors l := by
      intro w l
      cases w <;> simp [connectors]
    unfold NodeMap.assign
    split_ifs with h1 h2
    · cases v with
      | none => simpa [connectors] using hn
      | some c =>
        have : (c :: connectors ((k1, v1) :: rest)).Nodup :=
          List.nodup_cons.2 ⟨hfresh c rfl, hn⟩
        simpa [connectors] using this
    · cases v with
      | none => simpa [connectors] using hrest
      | some c =>
        have : (c :: connectors rest).Nodup := List.nodup_cons.2 ⟨hfresh_rest c rfl, hrest⟩
        simpa [connectors] using this
    · have ih1 := ih hrest hfresh_rest
      cases v1 with
      | none => simpa [connectors] using ih1
      | some c1 =>
        have hc1 : c1 ∉ connectors (NodeMap.assign k v rest) := by
          intro hmem
          rcases connectors_assign_mem k v rest c1 hmem with h3 | h3
          · have : (c1 :: connectors rest).Nodup := by simpa [connectors] using hn
            exact (List.nodup_cons.1 this).1 h3
          · apply hfresh c1 h3
            simp [connectors]
        have : (c1 :: connectors (NodeMap.assign k v rest)).Nodup :=
          List.nodup_cons.2 ⟨hc1, ih1⟩
        simpa [connectors] using this

theorem connect_next_object (e : ProcessEnv) (s : DistributeGadget) (me : GadgetronNodeInfo) :
    (connect e s me).2.next_object = s.next_object + 1 := by
  unfold connect
  cases e.deserialize s.node_xml_config_ with
  | none => simp
  | some cfg =>
    simp only [DistributeGadget.emit]
    split_ifs <;> simp

theorem dispatch_fields (p : Policy) (e : ProcessEnv) (s : DistributeGadget) (m : MessageBlock)
    (idx : Int) (con : Option Connector) :
    (dispatch p e s m idx con).2.node_map_ = NodeMap.assign idx con s.node_map_ ∧
    (dispatch p e s m idx con).2.next_object = s.next_object := by
  unfold dispatch
  cases con with
  | none =>
    simp only [DistributeGadget.emit]
    split_ifs <;> exact ⟨rfl, rfl⟩
  | some c =>
    simp only [DistributeGadget.emit]
    split_ifs <;> exact ⟨rfl, rfl⟩

/-- A well-formed state stays well-formed when a pointer that is null or
freshly allocated is stored. -/
theorem wf_assign_fresh (s t : DistributeGadget) (idx : Int) (con : Option Connector)
    (hs : s.wf) (hmap : t.node_map_ = NodeMap.assign idx con s.node_map_)
    (hnext : s.next_object ≤ t.next_object)
    (hcon : ∀ c, con = some c → s.next_object ≤ c ∧ c < t.next_object) : t.wf := by
  obtain ⟨h1, h2, h3⟩ := hs
  refine ⟨?_, ?_, ?_⟩
  · rw [hmap]; exact NodeMap.assign_sorted idx con _ h1
  · rw [hmap]
    apply connectors_assign_nodup idx con _ h2
    intro c hc hmem
    exact absurd (h3 c hmem) (Nat.not_lt.2 (hcon c hc).1)
  · intro c hc
    rw [hmap] at hc
    rcases connectors_assign_mem idx con _ c hc with h4 | h4
    · exact lt_of_lt_of_le (h3 c h4) hnext
    · exact (hcon c h4).2

/-- Process keeps the state well-formed. -/
theorem process_preserves_wf (p : Policy) (e : ProcessEnv) (s : DistributeGadget)
    (m : MessageBlock) (hs : s.wf) : (process p e s m).2.wf := by
  by_cases h1 : p.node_index m < 0
  · simpa [process, h1] using hs
  by_cases h2 : p.node_index m = 0
  · cases hq : e.next_putq_ok <;>
      simpa [process, h2, hq, DistributeGadget.emit, DistributeGadget.wf] using hs
  have hi : 0 < p.node_index m := by omega
  cases hf : NodeMap.find (p.node_index m) s.node_map_ with
  | some con =>
    rw [process_cached p e s m con hi hf]
    obtain ⟨hm, hn⟩ := dispatch_fields p e s m (p.node_index m) con
    rw [NodeMap.assign_of_find _ _ _ hs.1 hf] at hm
    unfold DistributeGadget.wf
    rw [hm, hn]
    exact hs
  | none =>
    rw [process_fresh p e s m hi hf]
    have hs1 : (s.emit [Event.get_node_info, Event.active_reconstructions]).wf := hs
    split_ifs with hp
    · have hcf := (connect_fields e (s.emit [Event.get_node_info, Event.active_reconstructions])
        (select_node (local_node e.local_load) e.nodes)).1
      have hcn := connect_next_object e
        (s.emit [Event.get_node_info, Event.active_reconstructions])
        (select_node (local_node e.local_load) e.nodes)
      have hcs := connect_some e (s.emit [Event.get_node_info, Event.active_reconstructions])
        (select_node (local_node e.local_load) e.nodes)
      generalize connect e (s.emit [Event.get_node_info, Event.active_reconstructions])
        (select_node (local_node e.local_load) e.nodes) = r at hcf hcn hcs
      obtain ⟨r1, r2⟩ := r
      simp only [DistributeGadget.emit] at hcf hcn hcs
      cases r1 with
      | none =>
        obtain ⟨h3, h4, h5⟩ := hs
        refine ⟨?_, ?_, ?_⟩
        · show r2.node_map_.Pairwise _
          rw [hcf]; exact h3
        · show (connectors r2.node_map_).Nodup
          rw [hcf]; exact h4
        · intro c hc
          have hc1 : c ∈ connectors r2.node_map_ := hc
          rw [hcf] at hc1
          show c < r2.next_object
          rw [hcn]
          exact Nat.lt_succ_of_lt (h5 c hc1)
      | some c =>
        obtain ⟨hm, hn⟩ := dispatch_fields p e r2 m (p.node_index m) (some c)
        have hc : c = s.next_object := hcs c rfl
        apply wf_assign_fresh s _ (p.node_index m) (some c) hs
        · rw [hm, hcf]
        · rw [hn, hcn]; exact Nat.le_succ _
        · intro c1 h6
          have : c = c1 := by simpa using h6
          rw [hn, hcn, ← this, hc]
          exact ⟨Nat.le_refl _, Nat.lt_succ_self _⟩
    · obtain ⟨hm, hn⟩ := dispatch_fields p e
        (s.emit [Event.get_node_info, Event.active_reconstructions]) m (p.node_index m) none
      apply wf_assign_fresh s _ (p.node_index m) none hs
      · rw [hm]; rfl
      · rw [hn]; exact Nat.le_refl _
      · intro c1 h6
        cases h6

/-- Close leaves the node map and the allocator as they are. -/
theorem close_preserves_wf (e : CloseEnv) (s : DistributeGadget) (flags : Nat) (hs : s.wf) :
    (close e s flags).2.wf := by
  unfold close
  simp only
  split_ifs <;> exact hs

/-- A freshly constructed gadget is well-formed. -/
theorem init_wf (collector : String) (use_this_node : Bool) :
    (DistributeGadget.init collector use_this_node).wf := by
  simp [DistributeGadget.wf, DistributeGadget.init, connectors]

/-! ## Lemmas on sequences of calls -/

theorem NodeMap.find_of_mem (k : Int) (v : Option Connector) (nm : NodeMap)
    (hs : nm.Pairwise (fun a b => a.1 < b.1)) (h : (k, v) ∈ nm) :
    NodeMap.find k nm = some v := by
  induction nm with
  | nil => cases h
  | cons a rest ih =>
    obtain ⟨k1, v1⟩ := a
    obtain ⟨hhead, htail⟩ := List.pairwise_cons.1 hs
    unfold NodeMap.find
    rcases List.mem_cons.1 h with h1 | h1
    · have hk : k = k1 := congrArg Prod.fst h1
      have hv : v = v1 := congrArg Prod.snd h1
      simp [hk, hv]
    · have hlt : k1 < k := hhead (k, v) h1
      have hne : ¬ k1 = k := by omega
      simp [hne, ih htail h1]

theorem process_index_zero_eq (p : Policy) (e : ProcessEnv) (s : DistributeGadget)
    (m : MessageBlock) (h : p.node_index m = 0) :
    process p e s m =
      (if e.next_putq_ok then GADGET_OK else GADGET_FAIL,
        s.emit (Event.next_putq m e.next_putq_ok ::
          (if e.next_putq_ok then [] else [Event.release m]))) := by
  cases hq : e.next_putq_ok <;> simp [process, h, hq]

theorem process_all_index_zero (p : Policy) (calls : List (ProcessEnv × MessageBlock))
    (s : DistributeGadget) (h : ∀ m, p.node_index m = 0) :
    process_all p s calls = s.emit (offered calls) := by
  induction calls generalizing s with
  | nil => simp [process_all, offered, DistributeGadget.emit]
  | cons em rest ih =>
    obtain ⟨e, m⟩ := em
    simp only [process_all]
    rw [process_index_zero_eq p e s m (h m), ih]
    simp [offered, DistributeGadget.emit, List.flatMap_cons]

/-! ## Lemmas on the calls made while a slot is resolved -/

theorem emit_extends (P : Event → Prop) (s t : DistributeGadget) (ev2 : List Event)
    (h : ∃ ev, t.trace = s.trace ++ ev ∧ ∀ x ∈ ev, P x) (h2 : ∀ x ∈ ev2, P x) :
    ∃ ev, (t.emit ev2).trace = s.trace ++ ev ∧ ∀ x ∈ ev, P x := by
  obtain ⟨ev, h1, h3⟩ := h
  refine ⟨ev ++ ev2, by simp [DistributeGadget.emit, h1], ?_⟩
  intro x hx
  rcases List.mem_append.1 hx with h4 | h4
  · exact h3 x h4
  · exact h2 x h4

theorem register_readers_events (load : String → String → Bool) (c : Connector)
    (l : List Codec) :
    ∀ x ∈ (register_readers load c l).2, x.is_putq = false ∧ x.is_query = false := by
  induction l with
  | nil => simp [register_readers]
  | cons i rest ih =>
    unfold register_readers
    split_ifs
    · intro x hx
      rcases List.mem_cons.1 hx with h | h
      · rw [h]; exact ⟨rfl, rfl⟩
      · rcases List.mem_cons.1 h with h1 | h1
        · rw [h1]; exact ⟨rfl, rfl⟩
        · exact ih x h1
    · intro x hx
      rw [List.mem_singleton.1 hx]
      exact ⟨rfl, rfl⟩

theorem register_writers_events (load : String → String → Bool) (c : Connector)
    (l : List Codec) :
    ∀ x ∈ (register_writers load c l).2, x.is_putq = false ∧ x.is_query = false := by
  induction l with
  | nil => simp [register_writers]
  | cons i rest ih =>
    unfold register_writers
    split_ifs
    · intro x hx
      rcases List.mem_cons.1 hx with h | h
      · rw [h]; exact ⟨rfl, rfl⟩
      · rcases List.mem_cons.1 h with h1 | h1
        · rw [h1]; exact ⟨rfl, rfl⟩
        · exact ih x h1
    · intro x hx
      rw [List.mem_singleton.1 hx]
      exact ⟨rfl, rfl⟩

theorem register_readers_all (load : String → String → Bool) (c : Connector) (l : List Codec)
    (h : ∀ i ∈ l, load i.dll i.classname = true) :
    register_readers load c l = (true, reader_calls c l) := by
  induction l with
  | nil => rfl
  | cons i rest ih =>
    have h1 := ih (fun j hj => h j (List.mem_cons_of_mem _ hj))
    unfold register_readers
    rw [if_pos (h i (List.mem_cons_self _ _)), h1]
    simp [reader_calls, List.flatMap_cons]

theorem register_writers_all (load : String → String → Bool) (c : Connector) (l : List Codec)
    (h : ∀ i ∈ l, load i.dll i.classname = true) :
    register_writers load c l = (true, writer_calls c l) := by
  induction l with
  | nil => rfl
  | cons i rest ih =>
    have h1 := ih (fun j hj => h j (List.mem_cons_of_mem _ hj))
    unfold register_writers
    rw [if_pos (h i (List.mem_cons_self _ _)), h1]
    simp [writer_calls, List.flatMap_cons]

/-- The set-up of a connector puts nothing on any queue. -/
theorem connect_no_putq (e : ProcessEnv) (s : DistributeGadget) (me : GadgetronNodeInfo) :
    ∃ ev, (connect e s me).2.trace = s.trace ++ ev ∧ ∀ x ∈ ev, x.is_putq = false := by
  have base : ∀ t : DistributeGadget,
      t.trace = s.trace ++ [Event.new_connector s.next_object,
        Event.deserialize s.node_xml_config_] →
      ∃ ev, t.trace = s.trace ++ ev ∧ ∀ x ∈ ev, x.is_putq = false := by
    intro t ht
    refine ⟨_, ht, ?_⟩
    intro x hx
    rcases List.mem_cons.1 hx with h | h
    · rw [h]; rfl
    · rw [List.mem_singleton.1 h]; rfl
  have one : ∀ a : Event, a.is_putq = false → ∀ x ∈ [a], x.is_putq = false := by
    intro a ha x hx
    rw [List.mem_singleton.1 hx]
    exact ha
  unfold connect
  cases e.deserialize s.node_xml_config_ with
  | none => exact base _ rfl
  | some cfg =>
    have hr := fun x hx => (register_readers_events e.load_reader s.next_object cfg.reader x hx).1
    have hw := fun x hx => (register_writers_events e.load_writer s.next_object cfg.writer x hx).1
    have h2 := fun t ht => emit_extends _ s _ _ (base t ht) hr
    have h3 := fun t ht => emit_extends _ s _ _ (h2 t ht) hw
    have h4 := fun t ht => emit_extends _ s _ _ (h3 t ht)
      (one (Event.con_open s.next_object me.address (Nat.repr me.port)) rfl)
    have h5 := fun t ht => emit_extends _ s _ _ (h4 t ht)
      (one (Event.send_configuration_script s.next_object s.node_xml_config_) rfl)
    have h6 := fun t ht => emit_extends _ s _ _ (h5 t ht)
      (one (Event.send_parameters s.next_object s.node_parameters_) rfl)
    dsimp only
    split_ifs
    · exact h2 _ rfl
    · exact h3 _ rfl
    · exact h4 _ rfl
    · exact h5 _ rfl
    · exact h6 _ rfl
    · exact h6 _ rfl

/-- The result of a set-up in which every step succeeds. -/
theorem connect_all_ok (e : ProcessEnv) (s : DistributeGadget) (me : GadgetronNodeInfo)
    (cfg : GadgetStreamConfiguration)
    (hcfg : e.deserialize s.node_xml_config_ = some cfg)
    (hr : ∀ i ∈ cfg.reader, e.load_reader i.dll i.classname = true)
    (hw : ∀ i ∈ cfg.writer, e.load_writer i.dll i.classname = true)
    (ho : e.open_ok = true) (hsc : e.send_config_ok = true) (hsp : e.send_params_ok = true) :
    connect e s me =
      (some s.next_object,
        { s with
          next_object := s.next_object + 1,
          trace := s.trace ++
            ([Event.new_connector s.next_object, Event.deserialize s.node_xml_config_] ++
              reader_calls s.next_object cfg.reader ++ writer_calls s.next_object cfg.writer ++
              [Event.con_open s.next_object me.address (Nat.repr me.port),
               Event.send_configuration_script s.next_object s.node_xml_config_,
               Event.send_parameters s.next_object s.node_parameters_]) }) := by
  unfold connect
  simp [hcfg, register_readers_all _ _ _ hr, register_writers_all _ _ _ hw, ho, hsc, hsp,
    DistributeGadget.emit]

theorem dispatch_none_trace (p : Policy) (e : ProcessEnv) (s : DistributeGadget)
    (m : MessageBlock) (idx : Int) :
    ∃ added, (dispatch p e s m idx none).2.trace = s.trace ++ added ∧
      ∀ ev ∈ added, ev.is_query = false ∧
        (ev = Event.release m ∨ ∃ ok, ev = Event.next_putq m ok) := by
  unfold dispatch
  simp only [DistributeGadget.emit]
  split_ifs
  · exact ⟨[Event.release m], rfl, by simp [Event.is_query]⟩
  · exact ⟨[Event.next_putq m false, Event.release m], rfl, by simp [Event.is_query]⟩
  · exact ⟨[Event.next_putq m true], rfl, by simp [Event.is_query]⟩

theorem dispatch_some_eq (p : Policy) (e : ProcessEnv) (s : DistributeGadget)
    (m : MessageBlock) (idx : Int) (c : Connector) :
    dispatch p e s m idx (some c) =
      (if e.con_putq_ok then GADGET_OK else GADGET_FAIL,
        { s with
          node_map_ := NodeMap.assign idx (some c) s.node_map_,
          trace := s.trace ++ Event.con_putq c (p.message_id m) (some m) e.con_putq_ok ::
            (if e.con_putq_ok then []
             else [Event.release_container (p.message_id m) (some m)]) }) := by
  cases hq : e.con_putq_ok <;> simp [dispatch, hq, DistributeGadget.emit]

theorem process_fields (p : Policy) (e : ProcessEnv) (s : DistributeGadget) (m : MessageBlock) :
    (process p e s m).2.use_this_node_for_compute = s.use_this_node_for_compute ∧
    (process p e s m).2.node_xml_config_ = s.node_xml_config_ ∧
    (process p e s m).2.node_parameters_ = s.node_parameters_ ∧
    (process p e s m).2.collect_gadget_ = s.collect_gadget_ ∧
    (process p e s m).2.collector = s.collector := by
  have hd : ∀ (t : DistributeGadget) (idx : Int) (con : Option Connector),
      (dispatch p e t m idx con).2.use_this_node_for_compute = t.use_this_node_for_compute ∧
      (dispatch p e t m idx con).2.node_xml_config_ = t.node_xml_config_ ∧
      (dispatch p e t m idx con).2.node_parameters_ = t.node_parameters_ ∧
      (dispatch p e t m idx con).2.collect_gadget_ = t.collect_gadget_ ∧
      (dispatch p e t m idx con).2.collector = t.collector := by
    intro t idx con
    unfold dispatch
    cases con with
    | none =>
      simp only [DistributeGadget.emit]
      split_ifs <;> exact ⟨rfl, rfl, rfl, rfl, rfl⟩
    | some c =>
      simp only [DistributeGadget.emit]
      split_ifs <;> exact ⟨rfl, rfl, rfl, rfl, rfl⟩
  by_cases h1 : p.node_index m < 0
  · simp [process, h1]
  by_cases h2 : p.node_index m = 0
  · rw [process_index_zero_eq p e s m h2]
    exact ⟨rfl, rfl, rfl, rfl, rfl⟩
  have hi : 0 < p.node_index m := by omega
  cases hf : NodeMap.find (p.node_index m) s.node_map_ with
  | some con =>
    rw [process_cached p e s m con hi hf]
    exact hd s _ con
  | none =>
    rw [process_fresh p e s m hi hf]
    split_ifs with hp
    · have hcf := connect_fields e (s.emit [Event.get_node_info, Event.active_reconstructions])
        (select_node (local_node e.local_load) e.nodes)
      generalize connect e (s.emit [Event.get_node_info, Event.active_reconstructions])
        (select_node (local_node e.local_load) e.nodes) = r at hcf
      obtain ⟨r1, r2⟩ := r
      obtain ⟨_, g1, g2, g3, g4, g5⟩ := hcf
      cases r1 with
      | none => exact ⟨g1, g2, g3, g4, g5⟩
      | some c =>
        obtain ⟨d1, d2, d3, d4, d5⟩ := hd r2 (p.node_index m) (some c)
        exact ⟨d1.trans g1, d2.trans g2, d3.trans g3, d4.trans g4, d5.trans g5⟩
    · exact hd _ _ none

theorem process_all_fields (p : Policy) (calls : List (ProcessEnv × MessageBlock))
    (s : DistributeGadget) :
    (process_all p s calls).use_this_node_for_compute = s.use_this_node_for_compute ∧
    (process_all p s calls).node_xml_config_ = s.node_xml_config_ ∧
    (process_all p s calls).node_parameters_ = s.node_parameters_ ∧
    (process_all p s calls).collect_gadget_ = s.collect_gadget_ ∧
    (process_all p s calls).collector = s.collector := by
  induction calls generalizing s with
  | nil => exact ⟨rfl, rfl, rfl, rfl, rfl⟩
  | cons em rest ih =>
    obtain ⟨e, m⟩ := em
    obtain ⟨a1, a2, a3, a4, a5⟩ := ih (process p e s m).2
    obtain ⟨b1, b2, b3, b4, b5⟩ := process_fields p e s m
    exact ⟨a1.trans b1, a2.trans b2, a3.trans b3, a4.trans b4, a5.trans b5⟩

/-! ## Lemmas on process_config -/

theorem walk_some (collector : String) (l : List Task) (tmp r : Option Task)
    (h : walk collector tmp l = Except.ok r) : ∃ g, r = some g := by
  induction l generalizing tmp with
  | nil =>
    cases tmp with
    | none => simp [walk] at h
    | some t =>
      simp only [walk, Except.ok.injEq] at h
      exact ⟨t, h.symm⟩
  | cons n rest ih =>
    cases tmp with
    | none => simp [walk] at h
    | some t =>
      unfold walk at h
      split_ifs at h with h1
      · simp only [Except.ok.injEq] at h
        exact ⟨t, h.symm⟩
      · exact ih _ h
      · exact ih _ h

/-- What a returning process_config has done. -/
theorem process_config_ok (e : ConfigEnv) (s s1 : DistributeGadget) (st : Int)
    (h : process_config e s = Except.ok (st, s1)) :
    ∃ cfg gadget g, e.deserialize e.xml = some cfg ∧
      slice_gadgets e.self.name s.collector cfg.gadget = some gadget ∧
      walk s.collector (some e.self) e.downstream = Except.ok (some g) ∧
      st = GADGET_OK ∧
      s1.node_parameters_ = e.parameters ∧
      s1.node_xml_config_ = e.serialize { cfg with gadget := gadget } ∧
      s1.collect_gadget_ = some g.id ∧
      s1.trace = s.trace ++ [Event.set_parameter g.id "pass_through_mode" "true"] ∧
      s1.node_map_ = s.node_map_ ∧ s1.next_object = s.next_object ∧
      s1.collector = s.collector ∧
      s1.use_this_node_for_compute = s.use_this_node_for_compute := by
  unfold process_config at h
  cases hd : e.deserialize e.xml with
  | none => simp [hd] at h
  | some cfg =>
    cases hs : slice_gadgets e.self.name s.collector cfg.gadget with
    | none => simp [hd, hs] at h
    | some gadget =>
      cases hw : walk s.collector (some e.self) e.downstream with
      | error f => simp [hd, hs, hw] at h
      | ok tmp =>
        obtain ⟨g, hg⟩ := walk_some _ _ _ _ hw
        subst hg
        simp only [hd, hs, hw, Option.map_some', Except.ok.injEq, Prod.mk.injEq] at h
        obtain ⟨h1, h2⟩ := h
        subst h2
        exact ⟨cfg, gadget, g, rfl, hs, rfl, h1.symm, rfl, rfl, rfl, rfl, rfl, rfl, rfl, rfl⟩

/-- The walk stops on the first task named as the collector when the tasks
up to it are Gadgets. -/
theorem walk_finds (collector : String) (l : List Task) (t : Task) (k : Nat) (g : Task)
    (hk : (t :: l)[k]? = some g) (hname : g.name = collector)
    (hfirst : ∀ j, j < k → ∀ x, (t :: l)[j]? = some x → x.name ≠ collector)
    (hgad : ∀ j, 0 < j → j ≤ k → ∀ x, (t :: l)[j]? = some x → x.is_gadget = true) :
    walk collector (some t) l = Except.ok (some g) := by
  induction l generalizing t k with
  | nil =>
    cases k with
    | zero =>
      have : t = g := by simpa using hk
      rw [this]
      rfl
    | succ n => simp at hk
  | cons n rest ih =>
    cases k with
    | zero =>
      have ht : t = g := by simpa using hk
      rw [ht]
      simp [walk, hname]
    | succ k1 =>
      have ht : t.name ≠ collector := hfirst 0 (Nat.succ_pos _) t (by simp)
      have hn : n.is_gadget = true := hgad 1 (by omega) (by omega) n (by simp)
      unfold walk
      rw [if_neg ht, if_pos hn]
      apply ih n k1
      · simpa using hk
      · intro j hj x hx
        exact hfirst (j + 1) (by omega) x (by simpa using hx)
      · intro j hj1 hj2 x hx
        exact hgad (j + 1) (by omega) (by omega) x (by simpa using hx)

/-! ## Lemmas on the minimum found by the selection scan -/

/-- With loads that cannot be negative the early exit does not change the
outcome of the scan. -/
theorem select_node_eq_running_best (me : GadgetronNodeInfo) (nl : List GadgetronNodeInfo) :
    select_node me nl = running_best me nl := by
  induction nl generalizing me with
  | nil => rfl
  | cons it rest ih =>
    unfold select_node
    simp only
    by_cases h0 : (if it.active_reconstructions < me.active_reconstructions then it
        else me).active_reconstructions = 0
    · rw [if_pos h0]
      have := running_best_zero _ rest h0
      simpa [running_best] using this.symm
    · rw [if_neg h0, ih]
      simp [running_best]

/-- The running best is the start candidate when no node is strictly
better, and otherwise the first node carrying the least load. -/
theorem running_best_first_minimum (me : GadgetronNodeInfo) (nl : List GadgetronNodeInfo) :
    (running_best me nl = me ∧
      ∀ x ∈ nl, me.active_reconstructions ≤ x.active_reconstructions) ∨
    (∃ front back, nl = front ++ running_best me nl :: back ∧
      (running_best me nl).active_reconstructions < me.active_reconstructions ∧
      (∀ y ∈ front,
        (running_best me nl).active_reconstructions < y.active_reconstructions) ∧
      ∀ y ∈ back, (running_best me nl).active_reconstructions ≤ y.active_reconstructions) := by
  induction nl generalizing me with
  | nil => exact Or.inl ⟨rfl, by simp⟩
  | cons it rest ih =>
    have hstep : running_best me (it :: rest) =
        running_best (if it.active_reconstructions < me.active_reconstructions then it
          else me) rest := by
      simp [running_best]
    rw [hstep]
    by_cases hlt : it.active_reconstructions < me.active_reconstructions
    · rw [if_pos hlt]
      rcases ih it with ⟨h1, h2⟩ | ⟨front, back, h1, h2, h3, h4⟩
      · right
        refine ⟨[], rest, by rw [h1]; rfl, by rw [h1]; exact hlt, by simp, ?_⟩
        rw [h1]
        exact h2
      · right
        refine ⟨it :: front, back, by rw [List.cons_append, ← h1], lt_trans h2 hlt, ?_, h4⟩
        intro y hy
        rcases List.mem_cons.1 hy with h5 | h5
        · rw [h5]; exact h2
        · exact h3 y h5
    · rw [if_neg hlt]
      rcases ih me with ⟨h1, h2⟩ | ⟨front, back, h1, h2, h3, h4⟩
      · left
        refine ⟨h1, ?_⟩
        intro x hx
        rcases List.mem_cons.1 hx with h5 | h5
        · rw [h5]; exact Nat.le_of_not_lt hlt
        · exact h2 x h5
      · right
        refine ⟨it :: front, back, by rw [List.cons_append, ← h1], h2, ?_, h4⟩
        intro y hy
        rcases List.mem_cons.1 hy with h5 | h5
        · rw [h5]; exact lt_of_lt_of_le h2 (Nat.le_of_not_lt hlt)
        · exact h3 y h5

/-- The selected load is a lower bound of the local load and of every
listed load. -/
theorem select_node_le (s : Nat) (nl : List GadgetronNodeInfo) :
    (select_node (local_node s) nl).active_reconstructions ≤ s ∧
    ∀ x ∈ nl, (select_node (local_node s) nl).active_reconstructions ≤
      x.active_reconstructions := by
  rw [select_node_eq_running_best]
  rcases running_best_first_minimum (local_node s) nl with ⟨h1, h2⟩ | ⟨front, back, h1, h2, h3, h4⟩
  · rw [h1]
    exact ⟨Nat.le_refl _, h2⟩
  · refine ⟨Nat.le_of_lt h2, ?_⟩
    intro x hx
    rw [h1] at hx
    rcases List.mem_append.1 hx with h5 | h5
    · exact Nat.le_of_lt (h3 x h5)
    · rcases List.mem_cons.1 h5 with h6 | h6
      · rw [h6]
      · exact h4 x h6

/-- The selected candidate is the local node or a listed node with a load
strictly below the local load. -/
theorem select_node_local_or_listed (s : Nat) (nl : List GadgetronNodeInfo) :
    select_node (local_node s) nl = local_node s ∨
    (select_node (local_node s) nl ∈ nl ∧
      (select_node (local_node s) nl).active_reconstructions < s) := by
  rw [select_node_eq_running_best]
  rcases running_best_first_minimum (local_node s) nl with ⟨h1, _⟩ | ⟨front, back, h1, h2, _, _⟩
  · exact Or.inl h1
  · right
    have hmem : ∀ z, nl = front ++ z :: back → z ∈ nl := by
      intro z hz
      rw [hz]
      simp
    exact ⟨hmem _ h1, h2⟩

/-! ## Lemmas on the kinds of call made by the connector set-up -/

theorem register_readers_kind (P : Event → Prop) (load : String → String → Bool)
    (c : Connector) (l : List Codec)
    (h1 : ∀ d k, P (Event.load_reader d k)) (h2 : ∀ sl, P (Event.register_reader c sl)) :
    ∀ x ∈ (register_readers load c l).2, P x := by
  induction l with
  | nil => simp [register_readers]
  | cons i rest ih =>
    unfold register_readers
    split_ifs
    · intro x hx
      rcases List.mem_cons.1 hx with h | h
      · rw [h]; exact h1 _ _
      · rcases List.mem_cons.1 h with h3 | h3
        · rw [h3]; exact h2 _
        · exact ih x h3
    · intro x hx
      rw [List.mem_singleton.1 hx]
      exact h1 _ _

theorem register_writers_kind (P : Event → Prop) (load : String → String → Bool)
    (c : Connector) (l : List Codec)
    (h1 : ∀ d k, P (Event.load_writer d k)) (h2 : ∀ sl, P (Event.register_writer c sl)) :
    ∀ x ∈ (register_writers load c l).2, P x := by
  induction l with
  | nil => simp [register_writers]
  | cons i rest ih =>
    unfold register_writers
    split_ifs
    · intro x hx
      rcases List.mem_cons.1 hx with h | h
      · rw [h]; exact h1 _ _
      · rcases List.mem_cons.1 h with h3 | h3
        · rw [h3]; exact h2 _
        · exact ih x h3
    · intro x hx
      rw [List.mem_singleton.1 hx]
      exact h1 _ _

/-- A property shared by every kind of call the set-up can make holds of
every call it makes. -/
theorem connect_events (P : Event → Prop) (e : ProcessEnv) (s : DistributeGadget)
    (me : GadgetronNodeInfo)
    (h1 : P (Event.new_connector s.next_object))
    (h2 : P (Event.deserialize s.node_xml_config_))
    (h3 : ∀ d k, P (Event.load_reader d k))
    (h4 : ∀ sl, P (Event.register_reader s.next_object sl))
    (h5 : ∀ d k, P (Event.load_writer d k))
    (h6 : ∀ sl, P (Event.register_writer s.next_object sl))
    (h7 : P (Event.con_open s.next_object me.address (Nat.repr me.port)))
    (h8 : P (Event.send_configuration_script s.next_object s.node_xml_config_))
    (h9 : P (Event.send_parameters s.next_object s.node_parameters_)) :
    ∃ ev, (connect e s me).2.trace = s.trace ++ ev ∧ ∀ x ∈ ev, P x := by
  have base : ∀ t : DistributeGadget,
      t.trace = s.trace ++ [Event.new_connector s.next_object,
        Event.deserialize s.node_xml_config_] →
      ∃ ev, t.trace = s.trace ++ ev ∧ ∀ x ∈ ev, P x := by
    intro t ht
    refine ⟨_, ht, ?_⟩
    intro x hx
    rcases List.mem_cons.1 hx with h | h
    · rw [h]; exact h1
    · rw [List.mem_singleton.1 h]; exact h2
  have one : ∀ a : Event, P a → ∀ x ∈ [a], P x := by
    intro a ha x hx
    rw [List.mem_singleton.1 hx]
    exact ha
  unfold connect
  cases e.deserialize s.node_xml_config_ with
  | none => exact base _ rfl
  | some cfg =>
    have hr := register_readers_kind P e.load_reader s.next_object cfg.reader h3 h4
    have hw := register_writers_kind P e.load_writer s.next_object cfg.writer h5 h6
    have g2 := fun t ht => emit_extends P s _ _ (base t ht) hr
    have g3 := fun t ht => emit_extends P s _ _ (g2 t ht) hw
    have g4 := fun t ht => emit_extends P s _ _ (g3 t ht) (one _ h7)
    have g5 := fun t ht => emit_extends P s _ _ (g4 t ht) (one _ h8)
    have g6 := fun t ht => emit_extends P s _ _ (g5 t ht) (one _ h9)
    dsimp only
    split_ifs
    · exact g2 _ rfl
    · exact g3 _ rfl
    · exact g4 _ rfl
    · exact g5 _ rfl
    · exact g6 _ rfl
    · exact g6 _ rfl

/-- The calls of a first resolution after the CloudBus queries: when the
candidate has a port, a connector is created and every open goes to the
candidate; otherwise no connector is created and nothing is opened. -/
theorem process_fresh_calls (p : Policy) (e : ProcessEnv) (s : DistributeGadget)
    (m : MessageBlock) (hi : 0 < p.node_index m)
    (hf : NodeMap.find (p.node_index m) s.node_map_ = none) :
    ∃ added, (process p e s m).2.trace = s.trace ++ added ∧
      ((select_node (local_node e.local_load) e.nodes).port ≠ 0 →
        Event.new_connector s.next_object ∈ added) ∧
      ((select_node (local_node e.local_load) e.nodes).port = 0 →
        ∀ c, Event.new_connector c ∉ added) ∧
      ∀ c a pt, Event.con_open c a pt ∈ added →
        (select_node (local_node e.local_load) e.nodes).port ≠ 0 ∧
        a = (select_node (local_node e.local_load) e.nodes).address ∧
        pt = Nat.repr (select_node (local_node e.local_load) e.nodes).port := by
  rw [process_fresh p e s m hi hf]
  by_cases hp : (select_node (local_node e.local_load) e.nodes).port = 0
  · rw [if_neg (by simpa using hp)]
    obtain ⟨ev, hev, hk⟩ := dispatch_none_trace p e
      (s.emit [Event.get_node_info, Event.active_reconstructions]) m (p.node_index m)
    refine ⟨[Event.get_node_info, Event.active_reconstructions] ++ ev, ?_, ?_, ?_, ?_⟩
    · rw [hev]
      simp [DistributeGadget.emit]
    · intro h
      exact absurd hp h
    · intro _ c hmem
      rcases List.mem_append.1 hmem with h | h
      · simp at h
      · rcases (hk _ h).2 with h1 | ⟨ok, h1⟩ <;> cases h1
    · intro c a pt hmem
      rcases List.mem_append.1 hmem with h | h
      · simp at h
      · rcases (hk _ h).2 with h1 | ⟨ok, h1⟩ <;> cases h1
  · rw [if_pos hp]
    obtain ⟨ev, hev, hk⟩ := connect_events
      (fun x => ∀ c a pt, x = Event.con_open c a pt →
        a = (select_node (local_node e.local_load) e.nodes).address ∧
        pt = Nat.repr (select_node (local_node e.local_load) e.nodes).port) e
      (s.emit [Event.get_node_info, Event.active_reconstructions])
      (select_node (local_node e.local_load) e.nodes)
      (by intro c a pt h; cases h) (by intro c a pt h; cases h)
      (by intro d k c a pt h; cases h) (by intro sl c a pt h; cases h)
      (by intro d k c a pt h; cases h) (by intro sl c a pt h; cases h)
      (by intro c a pt h; cases h; exact ⟨rfl, rfl⟩)
      (by intro c a pt h; cases h) (by intro c a pt h; cases h)
    obtain ⟨ev1, hev1⟩ := connect_trace e
      (s.emit [Event.get_node_info, Event.active_reconstructions])
      (select_node (local_node e.local_load) e.nodes)
    have hfirst : ev = Event.new_connector s.next_object :: ev1 := by
      have := hev.symm.trans hev1
      exact List.append_cancel_left this
    generalize connect e (s.emit [Event.get_node_info, Event.active_reconstructions])
      (select_node (local_node e.local_load) e.nodes) = r at hev
    obtain ⟨r1, r2⟩ := r
    simp only [DistributeGadget.emit] at hev
    cases r1 with
    | none =>
      refine ⟨[Event.get_node_info, Event.active_reconstructions] ++ ev, ?_, ?_, ?_, ?_⟩
      · show r2.trace = _
        rw [hev]
        simp
      · intro _
        rw [hfirst]
        simp
      · intro h
        exact absurd h hp
      · intro c a pt hmem
        rcases List.mem_append.1 hmem with h | h
        · simp at h
        · exact ⟨hp, hk _ h c a pt rfl⟩
    | some con =>
      dsimp only
      rw [dispatch_some_eq]
      refine ⟨[Event.get_node_info, Event.active_reconstructions] ++ ev ++
        (Event.con_putq con (p.message_id m) (some m) e.con_putq_ok ::
          (if e.con_putq_ok then []
           else [Event.release_container (p.message_id m) (some m)])), ?_, ?_, ?_, ?_⟩
      · show r2.trace ++ _ = _
        rw [hev]
        simp
      · intro _
        rw [hfirst]
        simp
      · intro h
        exact absurd h hp
      · intro c a pt hmem
        rcases List.mem_append.1 hmem with h | h
        · rcases List.mem_append.1 h with h1 | h1
          · simp at h1
          · exact ⟨hp, hk _ h1 c a pt rfl⟩
        · cases hq : e.con_putq_ok <;> simp [hq] at h

/-! ## Lemmas on ParameterParser -/

theorem any_switch_iff (l : List CommandLineParameter) (c : Char) :
    l.any (fun q => q.is_switch_equal_to c) = true ↔ ∃ q ∈ l, q.m_switch = c := by
  simp [List.any_eq_true, CommandLineParameter.is_switch_equal_to]

/-- What a returning add_parameter has done. -/
theorem add_parameter_ok (s s1 : ParameterParser) (c : Char) (t : CommandLineParameterType)
    (n : Nat) (d : String) (r : Bool) (x : Int)
    (h : s.add_parameter c t n d r = Except.ok (x, s1)) :
    (x = -1 ∧ s1 = s ∧ ∃ q ∈ s.m_parameter_list, q.m_switch = c) ∨
    (x = 0 ∧ (∀ q ∈ s.m_parameter_list, q.m_switch ≠ c) ∧
      s1.m_parameter_list = s.m_parameter_list ++ [CommandLineParameter.ctor c t n d r] ∧
      s1.m_list_size = s.m_list_size ∧ s1.m_list_increment = s.m_list_increment ∧
      s1.m_parameter_list.length ≤ s1.allocated) := by
  unfold ParameterParser.add_parameter at h
  by_cases hdup : s.m_parameter_list.any (fun q => q.is_switch_equal_to c) = true
  · rw [if_pos hdup] at h
    simp only [Except.ok.injEq, Prod.mk.injEq] at h
    exact Or.inl ⟨h.1.symm, h.2.symm, (any_switch_iff _ _).1 hdup⟩
  · rw [if_neg hdup] at h
    have hno : ∀ q ∈ s.m_parameter_list, q.m_switch ≠ c := by
      intro q hq hc
      exact hdup ((any_switch_iff _ _).2 ⟨q, hq, hc⟩)
    right
    have key : ∀ s0 : ParameterParser,
        s0.m_parameter_list = s.m_parameter_list → s0.m_list_size = s.m_list_size →
        s0.m_list_increment = s.m_list_increment →
        (if s0.m_number_of_parameters < s0.allocated then
          (Except.ok (0,
            { s0 with
              m_parameter_list :=
                s0.m_parameter_list ++ [CommandLineParameter.ctor c t n d r],
              m_max_desc_length := max s0.m_max_desc_length d.length,
              m_max_number_values := max s0.m_max_number_values n }) :
            Except Fault (Int × ParameterParser))
         else Except.error Fault.undefined_behaviour) = Except.ok (x, s1) →
        x = 0 ∧ (∀ q ∈ s.m_parameter_list, q.m_switch ≠ c) ∧
          s1.m_parameter_list = s.m_parameter_list ++ [CommandLineParameter.ctor c t n d r] ∧
          s1.m_list_size = s.m_list_size ∧ s1.m_list_increment = s.m_list_increment ∧
          s1.m_parameter_list.length ≤ s1.allocated := by
      intro s0 e1 e2 e3 h0
      by_cases hroom : s0.m_number_of_parameters < s0.allocated
      · rw [if_pos hroom] at h0
        simp only [Except.ok.injEq, Prod.mk.injEq] at h0
        obtain ⟨hx, hs⟩ := h0
        subst hs
        refine ⟨hx.symm, hno, by rw [← e1], e2, e3, ?_⟩
        simp only [ParameterParser.m_number_of_parameters] at hroom
        simp only [List.length_append, List.length_singleton]
        omega
      · rw [if_neg hroom] at h0
        cases h0
    by_cases hfull : s.m_number_of_parameters ≥ s.m_list_size
    · rw [if_pos hfull] at h
      unfold ParameterParser.expand_list at h
      by_cases hcopy : s.m_number_of_parameters ≤ s.m_list_size + s.m_list_increment
      · simp only [hcopy, if_true] at h
        exact key { s with allocated := s.m_list_size + s.m_list_increment } rfl rfl rfl h
      · simp only [hcopy, if_false] at h
        cases h
    · rw [if_neg hfull] at h
      exact key s rfl rfl rfl h

/-- A returning add_parameter keeps the switches pairwise distinct. -/
theorem add_parameter_nodup (s s1 : ParameterParser) (c : Char) (t : CommandLineParameterType)
    (n : Nat) (d : String) (r : Bool) (x : Int) (hn : s.switches.Nodup)
    (h : s.add_parameter c t n d r = Except.ok (x, s1)) : s1.switches.Nodup := by
  rcases add_parameter_ok s s1 c t n d r x h with ⟨_, h1, _⟩ | ⟨_, hno, h1, _⟩
  · rw [h1]; exact hn
  · unfold ParameterParser.switches at hn ⊢
    rw [h1, List.map_append]
    refine List.nodup_append.2 ⟨hn, by simp, ?_⟩
    intro a ha hb
    obtain ⟨q, hq, hqa⟩ := List.mem_map.1 ha
    have : a = c := by simpa [CommandLineParameter.ctor] using hb
    exact hno q hq (hqa.trans this)

/-- A returning add_parameter with a default keeps the switches. -/
theorem add_parameter_default_nodup (s s1 : ParameterParser) (c : Char)
    (t : CommandLineParameterType) (n : Nat) (d : String) (r : Bool) (dflt : String) (x : Int)
    (hn : s.switches.Nodup)
    (h : s.add_parameter_default c t n d r dflt = Except.ok (x, s1)) : s1.switches.Nodup := by
  unfold ParameterParser.add_parameter_default at h
  cases ha : s.add_parameter c t n d r with
  | error f => simp [ha] at h
  | ok res =>
    obtain ⟨y, s2⟩ := res
    have hn2 := add_parameter_nodup s s2 c t n d r y hn ha
    simp only [ha] at h
    cases hl : s2.m_parameter_list.getLast? with
    | none => simp [hl] at h
    | some last =>
      simp only [hl] at h
      split_ifs at h with h1
      simp only [Except.ok.injEq, Prod.mk.injEq] at h
      obtain ⟨_, hs⟩ := h
      subst hs
      have hsplit := List.dropLast_append_getLast? (l := s2.m_parameter_list) last
        (by rw [hl]; rfl)
      unfold ParameterParser.switches at hn2 ⊢
      rw [← hsplit] at hn2
      simpa [CommandLineParameter.set_value] using hn2

theorem add_calls_nodup (calls : List AddCall) (s s1 : ParameterParser)
    (hn : s.switches.Nodup) (h : s.add_calls calls = Except.ok s1) : s1.switches.Nodup := by
  induction calls generalizing s with
  | nil =>
    simp only [ParameterParser.add_calls, Except.ok.injEq] at h
    rw [← h]; exact hn
  | cons call rest ih =>
    simp only [ParameterParser.add_calls] at h
    cases hc : s.add_call call with
    | error f => simp [hc] at h
    | ok s2 =>
      simp only [hc] at h
      refine ih s2 ?_ h
      cases call with
      | plain c t n d r =>
        simp only [ParameterParser.add_call] at hc
        cases ha : s.add_parameter c t n d r with
        | error f => simp [ha, Except.map] at hc
        | ok res =>
          simp only [ha, Except.map, Except.ok.injEq] at hc
          rw [← hc]
          exact add_parameter_nodup s res.2 c t n d r res.1 hn ha
      | with_default c t n d r dflt =>
        simp only [ParameterParser.add_call] at hc
        cases ha : s.add_parameter_default c t n d r dflt with
        | error f => simp [ha, Except.map] at hc
        | ok res =>
          simp only [ha, Except.map, Except.ok.injEq] at hc
          rw [← hc]
          exact add_parameter_default_nodup s res.2 c t n d r dflt res.1 hn ha

/-- With pairwise distinct switches get_parameter finds each stored
parameter by its switch. -/
theorem get_parameter_of_mem (l : List CommandLineParameter)
    (hn : (l.map CommandLineParameter.m_switch).Nodup) (q : CommandLineParameter)
    (hq : q ∈ l) :
    l.find? (fun x => x.is_switch_equal_to q.m_switch) = some q := by
  induction l with
  | nil => cases hq
  | cons a rest ih =>
    rw [List.map_cons, List.nodup_cons] at hn
    rcases List.mem_cons.1 hq with h | h
    · subst h
      simp [List.find?, CommandLineParameter.is_switch_equal_to]
    · have hne : ¬ a.m_switch = q.m_switch := by
        intro heq
        exact hn.1 (heq ▸ List.mem_map_of_mem _ h)
      rw [List.find?_cons_of_neg _ (by simpa [CommandLineParameter.is_switch_equal_to] using hne)]
      exact ih hn.2 h

/-! ## Lemmas on parse_parameter_list -/

theorem parse_loop_nil (s : ParameterParser) : parse_loop s [] = Except.ok (0, s) := by
  rw [parse_loop]

theorem parse_loop_cons (s : ParameterParser) (tok : String) (rest : List String) :
    parse_loop s (tok :: rest) =
      match second_char tok with
      | none =>
        if s.m_parameter_list.isEmpty then Except.ok (-1, s)
        else Except.error Fault.undefined_behaviour
      | some c =>
        match find_switch c rest s.m_parameter_list with
        | SwitchResult.unknown => Except.ok (-1, s)
        | SwitchResult.malformed => Except.ok (-1, s)
        | SwitchResult.set l k => parse_loop { s with m_parameter_list := l } (rest.drop k) := by
  rw [parse_loop]

/-- One round of the loop on a token whose switch is stored with enough
values behind it. -/
theorem parse_loop_set (s : ParameterParser) (tok : String) (rest : List String) (c : Char)
    (l : List CommandLineParameter) (k : Nat) (hc : second_char tok = some c)
    (hf : find_switch c rest s.m_parameter_list = SwitchResult.set l k) :
    parse_loop s (tok :: rest) = parse_loop { s with m_parameter_list := l } (rest.drop k) := by
  rw [parse_loop_cons, hc]
  simp only [hf]

theorem second_char_some (tok : String) (h : tok ≠ "") : ∃ c, second_char tok = some c := by
  unfold second_char
  cases hd : tok.data with
  | nil => exact absurd (String.ext hd) h
  | cons a rest =>
    cases rest with
    | nil => exact ⟨_, rfl⟩
    | cons b rest2 => exact ⟨_, rfl⟩

/-- The key of a parameter in the loop: its switch and number of values. -/
theorem set_value_key (p : CommandLineParameter) (argv : List String) :
    (p.set_value argv).m_switch = p.m_switch ∧ (p.set_value argv).m_nr_values = p.m_nr_values :=
  ⟨rfl, rfl⟩

theorem find_switch_unknown (c : Char) (f : List String) (ps : List CommandLineParameter)
    (h : ∀ p ∈ ps, p.m_switch ≠ c) : find_switch c f ps = SwitchResult.unknown := by
  induction ps with
  | nil => rfl
  | cons p rest ih =>
    have hp : p.is_switch_equal_to c = false := by
      simpa [CommandLineParameter.is_switch_equal_to] using h p (List.mem_cons_self _ _)
    unfold find_switch
    simp only [hp, Bool.false_eq_true, if_false]
    rw [ih (fun q hq => h q (List.mem_cons_of_mem _ hq))]

/-- With pairwise distinct switches the loop changes exactly the parameter
with the switch. -/
theorem find_switch_found (c : Char) (f : List String) (ps : List CommandLineParameter)
    (hn : (ps.map CommandLineParameter.m_switch).Nodup) (p : CommandLineParameter)
    (hp : p ∈ ps) (hc : p.m_switch = c) :
    find_switch c f ps =
      if p.m_nr_values ≤ f.length then
        SwitchResult.set (ps.map (fun q => if q.m_switch = c then q.set_value f else q))
          p.m_nr_values
      else SwitchResult.malformed := by
  induction ps with
  | nil => cases hp
  | cons a rest ih =>
    rw [List.map_cons, List.nodup_cons] at hn
    by_cases ha : a.m_switch = c
    · have hpa : p = a := by
        rcases List.mem_cons.1 hp with h | h
        · exact h
        · exfalso
          apply hn.1
          rw [ha, ← hc]
          exact List.mem_map_of_mem _ h
      subst hpa
      have hrest : rest.map (fun q => if q.m_switch = c then q.set_value f else q) = rest := by
        conv_rhs => rw [← List.map_id rest]
        apply List.map_congr_left
        intro q hq
        have : ¬ q.m_switch = c := by
          intro h
          apply hn.1
          rw [ha, ← h]
          exact List.mem_map_of_mem _ hq
        simp [this]
      have hb : p.is_switch_equal_to c = true := by
        simpa [CommandLineParameter.is_switch_equal_to] using ha
      unfold find_switch
      simp only [hb, if_true, List.map_cons, ha, hrest]
    · have hprest : p ∈ rest := by
        rcases List.mem_cons.1 hp with h | h
        · exact absurd (h ▸ hc) ha
        · exact h
      have hb : a.is_switch_equal_to c = false := by
        simpa [CommandLineParameter.is_switch_equal_to] using ha
      unfold find_switch
      simp only [hb, Bool.false_eq_true, if_false, ih hn.2 hprest, List.map_cons, ha]
      split_ifs <;> rfl

/-- What the loop has done when it reports a value set. -/
theorem find_switch_set (c : Char) (f : List String) (ps l : List CommandLineParameter)
    (k : Nat) (h : find_switch c f ps = SwitchResult.set l k) :
    (∃ p ∈ ps, p.m_switch = c ∧ p.m_nr_values = k) ∧ k ≤ f.length ∧
    l.map (fun q => (q.m_switch, q.m_nr_values)) =
      ps.map (fun q => (q.m_switch, q.m_nr_values)) := by
  induction ps generalizing l with
  | nil => simp [find_switch] at h
  | cons a rest ih =>
    unfold find_switch at h
    by_cases ha : a.is_switch_equal_to c = true
    · rw [if_pos ha] at h
      split_ifs at h with h1
      simp only [SwitchResult.set.injEq] at h
      obtain ⟨hl, hk⟩ := h
      subst hl
      subst hk
      refine ⟨⟨a, List.mem_cons_self _ _, ?_, rfl⟩, h1, by simp [CommandLineParameter.set_value]⟩
      simpa [CommandLineParameter.is_switch_equal_to] using ha
    · rw [if_neg ha] at h
      cases hr : find_switch c f rest with
      | unknown => simp [hr] at h
      | malformed => simp [hr] at h
      | set l1 k1 =>
        simp only [hr, SwitchResult.set.injEq] at h
        obtain ⟨hl, hk⟩ := h
        subst hl
        subst hk
        obtain ⟨⟨p, hp, hpc, hpk⟩, hle, hshape⟩ := ih l1 hr
        exact ⟨⟨p, List.mem_cons_of_mem _ hp, hpc, hpk⟩, hle, by simp [hshape]⟩

theorem well_grouped_of_shape (l ps : List CommandLineParameter)
    (gs : List (String × List String))
    (h : l.map (fun q => (q.m_switch, q.m_nr_values)) =
      ps.map (fun q => (q.m_switch, q.m_nr_values)))
    (hw : well_grouped l gs) : well_grouped ps gs := by
  intro g hg
  obtain ⟨p, hp, h1, h2⟩ := hw g hg
  have hmem : (p.m_switch, p.m_nr_values) ∈ ps.map (fun q => (q.m_switch, q.m_nr_values)) := by
    rw [← h]
    exact List.mem_map_of_mem (fun q => (q.m_switch, q.m_nr_values)) hp
  obtain ⟨q, hq, hkey⟩ := List.mem_map.1 hmem
  simp only [Prod.mk.injEq] at hkey
  exact ⟨q, hq, by rw [hkey.1]; exact h1, by rw [hkey.2]; exact h2⟩

theorem flatten_groups_cons (g : String × List String) (gs : List (String × List String)) :
    flatten_groups (g :: gs) = g.1 :: (g.2 ++ flatten_groups gs) := by
  simp [flatten_groups, List.flatMap_cons]

/-- Reading one more group in front changes a parameter as the loop does. -/
theorem after_groups_cons (g : String × List String) (gs : List (String × List String))
    (following : List String) (p q : CommandLineParameter)
    (hg : second_char g.1 = some p.m_switch) (hlen : g.2.length = p.m_nr_values)
    (hq : q.m_switch = p.m_switch → q = p) :
    after_groups gs
        (if q.m_switch = p.m_switch then q.set_value (g.2 ++ following) else q) =
      after_groups (g :: gs) q := by
  by_cases hc : q.m_switch = p.m_switch
  · have hqp := hq hc
    subst hqp
    have htake : (g.2 ++ following).take q.m_nr_values = g.2 := List.take_left' hlen
    simp only [if_true, after_groups, last_group, CommandLineParameter.set_value, htake, hg]
    cases last_group q.m_switch gs <;> rfl
  · have hne : ¬ (some p.m_switch = some q.m_switch) := by
      intro h
      exact hc (Option.some.inj h).symm
    simp only [hc, if_false, after_groups, last_group, hg, hne]
    cases last_group q.m_switch gs <;> rfl

/-- The loop accepts a well grouped token list and leaves every parameter
with the values of the last group of its switch. -/
theorem parse_loop_groups (gs : List (String × List String)) :
    ∀ s : ParameterParser, s.switches.Nodup → well_grouped s.m_parameter_list gs →
      parse_loop s (flatten_groups gs) =
        Except.ok (0,
          { s with
            m_parameter_list := s.m_parameter_list.map (after_groups gs) }) := by
  induction gs with
  | nil =>
    intro s _ _
    have hid : s.m_parameter_list.map (after_groups []) = s.m_parameter_list := by
      conv_rhs => rw [← List.map_id s.m_parameter_list]
      apply List.map_congr_left
      intro q _
      rfl
    rw [hid]
    exact parse_loop_nil s
  | cons g gs ih =>
    intro s hn hw
    obtain ⟨p, hp, hg, hlen⟩ := hw g (List.mem_cons_self _ _)
    have hfound := find_switch_found p.m_switch (g.2 ++ flatten_groups gs) s.m_parameter_list
      hn p hp rfl
    rw [if_pos (by rw [List.length_append]; omega)] at hfound
    rw [flatten_groups_cons, parse_loop_set s g.1 _ p.m_switch _ _ hg hfound,
      List.drop_left' hlen]
    have hshape : (s.m_parameter_list.map
        (fun q => if q.m_switch = p.m_switch then q.set_value (g.2 ++ flatten_groups gs)
          else q)).map (fun q => (q.m_switch, q.m_nr_values)) =
        s.m_parameter_list.map (fun q => (q.m_switch, q.m_nr_values)) := by
      rw [List.map_map]
      apply List.map_congr_left
      intro q _
      simp only [Function.comp]
      split_ifs <;> rfl
    have hsw : (s.m_parameter_list.map
        (fun q => if q.m_switch = p.m_switch then q.set_value (g.2 ++ flatten_groups gs)
          else q)).map CommandLineParameter.m_switch =
        s.m_parameter_list.map CommandLineParameter.m_switch := by
      rw [List.map_map]
      apply List.map_congr_left
      intro q _
      simp only [Function.comp]
      split_ifs <;> rfl
    have hw2 : well_grouped (s.m_parameter_list.map
        (fun q => if q.m_switch = p.m_switch then q.set_value (g.2 ++ flatten_groups gs)
          else q)) gs :=
      well_grouped_of_shape _ _ gs hshape.symm
        (fun g1 hg1 => hw g1 (List.mem_cons_of_mem _ hg1))
    have hn2 : ParameterParser.switches
        { s with
          m_parameter_list := s.m_parameter_list.map
            (fun q => if q.m_switch = p.m_switch then q.set_value (g.2 ++ flatten_groups gs)
              else q) } |>.Nodup := by
      unfold ParameterParser.switches
      rw [hsw]
      exact hn
    rw [ih _ hn2 hw2]
    have hmap : (s.m_parameter_list.map
        (fun q => if q.m_switch = p.m_switch then q.set_value (g.2 ++ flatten_groups gs)
          else q)).map (after_groups gs) =
        s.m_parameter_list.map (after_groups (g :: gs)) := by
      rw [List.map_map]
      apply List.map_congr_left
      intro q hq
      exact after_groups_cons g gs _ p q hg hlen
        (fun h => List.inj_on_of_nodup_map hn hq hp h)
    simp only [hmap]

/-- A token list the loop accepts is well grouped. -/
theorem parse_loop_accepts (n : Nat) :
    ∀ (s s1 : ParameterParser) (tokens : List String), tokens.length ≤ n →
      parse_loop s tokens = Except.ok (0, s1) →
      ∃ gs, well_grouped s.m_parameter_list gs ∧ tokens = flatten_groups gs := by
  induction n with
  | zero =>
    intro s s1 tokens hlen _
    have : tokens = [] := List.length_eq_zero.1 (Nat.le_zero.1 hlen)
    subst this
    exact ⟨[], (by intro g hg; cases hg), rfl⟩
  | succ n ih =>
    intro s s1 tokens hlen h
    cases tokens with
    | nil => exact ⟨[], (by intro g hg; cases hg), rfl⟩
    | cons tok rest =>
      rw [parse_loop_cons] at h
      cases hc : second_char tok with
      | none =>
        simp only [hc] at h
        split_ifs at h
        simp at h
      | some c =>
        simp only [hc] at h
        cases hf : find_switch c rest s.m_parameter_list with
        | unknown => simp [hf] at h
        | malformed => simp [hf] at h
        | set l k =>
          simp only [hf] at h
          obtain ⟨⟨p, hp, hpc, hpk⟩, hk, hshape⟩ := find_switch_set c rest _ l k hf
          have hlen2 : (rest.drop k).length ≤ n := by
            simp only [List.length_drop, List.length_cons] at hlen ⊢
            omega
          obtain ⟨gs, hw, hgs⟩ := ih _ s1 (rest.drop k) hlen2 h
          refine ⟨(tok, rest.take k) :: gs, ?_, ?_⟩
          · intro g hg
            rcases List.mem_cons.1 hg with h1 | h1
            · subst h1
              refine ⟨p, hp, by rw [hc, hpc], ?_⟩
              simp only [List.length_take]
              omega
            · exact well_grouped_of_shape l _ gs hshape hw g h1
          · rw [flatten_groups_cons, ← hgs]
            simp

/-- On tokens that are not empty the loop returns 0 or -1. -/
theorem parse_loop_returns (n : Nat) :
    ∀ (s : ParameterParser) (tokens : List String), tokens.length ≤ n →
      (∀ t ∈ tokens, t ≠ "") →
      ∃ r s1, parse_loop s tokens = Except.ok (r, s1) ∧ (r = 0 ∨ r = -1) := by
  induction n with
  | zero =>
    intro s tokens hlen _
    have : tokens = [] := List.length_eq_zero.1 (Nat.le_zero.1 hlen)
    subst this
    exact ⟨0, s, parse_loop_nil s, Or.inl rfl⟩
  | succ n ih =>
    intro s tokens hlen hne
    cases tokens with
    | nil => exact ⟨0, s, parse_loop_nil s, Or.inl rfl⟩
    | cons tok rest =>
      obtain ⟨c, hc⟩ := second_char_some tok (hne tok (List.mem_cons_self _ _))
      cases hf : find_switch c rest s.m_parameter_list with
      | unknown =>
        refine ⟨-1, s, ?_, Or.inr rfl⟩
        rw [parse_loop_cons]
        simp only [hc, hf]
      | malformed =>
        refine ⟨-1, s, ?_, Or.inr rfl⟩
        rw [parse_loop_cons]
        simp only [hc, hf]
      | set l k =>
        have hlen2 : (rest.drop k).length ≤ n := by
          simp only [List.length_drop, List.length_cons] at hlen ⊢
          omega
        rw [parse_loop_set s tok rest c l k hc hf]
        exact ih _ (rest.drop k) hlen2
          (fun t ht => hne t (List.mem_cons_of_mem _ (List.mem_of_mem_drop ht)))

theorem last_group_none (c : Char) (gs : List (String × List String))
    (h : ∀ g ∈ gs, second_char g.1 ≠ some c) : last_group c gs = none := by
  induction gs with
  | nil => rfl
  | cons g rest ih =>
    unfold last_group
    rw [ih (fun x hx => h x (List.mem_cons_of_mem _ hx))]
    simp only [h g (List.mem_cons_self _ _), if_false]

theorem last_group_last (c : Char) (front : List (String × List String))
    (g : String × List String) (back : List (String × List String))
    (hg : second_char g.1 = some c) (hback : ∀ x ∈ back, second_char x.1 ≠ some c) :
    last_group c (front ++ g :: back) = some g.2 := by
  induction front with
  | nil =>
    rw [List.nil_append]
    unfold last_group
    rw [last_group_none c back hback]
    simp only [hg, if_true]
  | cons a rest ih =>
    rw [List.cons_append]
    unfold last_group
    rw [ih]

/-! ## Further lemmas on close and on the configuration slice -/

theorem append_singleton_split_of {α : Type} (P : α → Prop) (a b : α)
    (l before after : List α) (hl : ∀ x ∈ l, ¬ P x) (hb : P b)
    (h : l ++ [a] = before ++ b :: after) : before = l ∧ b = a ∧ after = [] := by
  induction l generalizing before with
  | nil =>
    cases before with
    | nil =>
      simp only [List.nil_append, List.cons.injEq] at h
      exact ⟨rfl, h.1.symm, h.2.symm⟩
    | cons y rest =>
      simp only [List.nil_append, List.cons_append, List.cons.injEq] at h
      have h2 := h.2
      cases rest <;> simp at h2
  | cons x xs ih =>
    cases before with
    | nil =>
      simp only [List.cons_append, List.nil_append, List.cons.injEq] at h
      exact absurd (h.1 ▸ hb) (hl x (List.mem_cons_self _ _))
    | cons y rest =>
      simp only [List.cons_append, List.cons.injEq] at h
      obtain ⟨h3, h4, h5⟩ := ih rest (fun z hz => hl z (List.mem_cons_of_mem _ hz)) h.2
      exact ⟨by rw [h.1, h3], h4, h5⟩

/-- The scan of line 210 or 215 is defined when the range holds a
descriptor with the name. -/
theorem advance_defined (x : String) (l : List GadgetXML) (j : Nat)
    (h : (l[j]?).map GadgetXML.name = some x) : ∃ k, advance x l = some k := by
  induction l generalizing j with
  | nil => simp at h
  | cons g rest ih =>
    unfold advance
    by_cases hg : g.name = x
    · exact ⟨0, by simp [hg]⟩
    · cases j with
      | zero =>
        have : g.name = x := by simpa using h
        exact absurd this hg
      | succ n =>
        obtain ⟨k, hk⟩ := ih n (by simpa using h)
        exact ⟨k + 1, by simp [hg, hk]⟩

/-- The slice is defined when the gadget's own name occurs in the descriptor
list and the collector name occurs after its first occurrence. -/
theorem slice_gadgets_defined (self_name collector : String) (gadget : List GadgetXML)
    (r c : Nat)
    (hr : (gadget[r]?).map GadgetXML.name = some self_name)
    (hr1 : ∀ j, j < r → (gadget[j]?).map GadgetXML.name ≠ some self_name)
    (hrc : r < c)
    (hc : (gadget[c]?).map GadgetXML.name = some collector) :
    ∃ slice, slice_gadgets self_name collector gadget = some slice := by
  have h1 := advance_first self_name gadget r hr hr1
  obtain ⟨k, hk⟩ := advance_defined collector (gadget.drop (r + 1)) (c - r - 1) (by
    rw [List.getElem?_drop]
    have : r + 1 + (c - r - 1) = c := by omega
    rw [this]
    exact hc)
  refine ⟨(gadget.drop (r + 1)).take (k + 1), ?_⟩
  simp only [slice_gadgets, h1, hk]

/-! ## Theorems -/

/-- C1: for a message whose node index is 0, process leaves the node map as
it is and its result does not depend on the node map (it is never read);
the only outside calls are the putq on the next gadget (and the release of
the message when that putq fails), so cluster membership is not queried and
no connector is created; the call returns GADGET_OK when the putq succeeds. -/
theorem process_index_zero_forwards_to_next (p : Policy) (e : ProcessEnv)
    (s : DistributeGadget) (m : MessageBlock) (h : p.node_index m = 0) :
    (process p e s m).2.node_map_ = s.node_map_ ∧
    (process p e s m).2.next_object = s.next_object ∧
    (process p e s m).2.trace =
      s.trace ++ Event.next_putq m e.next_putq_ok ::
        (if e.next_putq_ok then [] else [Event.release m]) ∧
    (∀ nm : NodeMap, process p e { s with node_map_ := nm } m =
      ((process p e s m).1, { (process p e s m).2 with node_map_ := nm })) ∧
    (e.next_putq_ok = true → (process p e s m).1 = GADGET_OK) := by
  cases hq : e.next_putq_ok <;>
    simp [process, h, hq, DistributeGadget.emit]

/-- Instance of C1 with the baseline policy on a fresh gadget. -/
theorem process_index_zero_forwards_to_next_witness :
    baseline.node_index 7 = 0 ∧
    (process baseline sample_env sample_gadget 7).2.node_map_ = sample_gadget.node_map_ ∧
    (process baseline sample_env sample_gadget 7).2.trace = [Event.next_putq 7 true] ∧
    (process baseline sample_env sample_gadget 7).1 = GADGET_OK :=
  have h := process_index_zero_forwards_to_next baseline sample_env sample_gadget 7 rfl
  ⟨rfl, h.1, h.2.2.1, h.2.2.2.2 rfl⟩

/-- C2: when a process call for the positive index i has created the
connector c and cached it under i, every later process call for i (after
any number of further process calls and no close) puts its message, wrapped
in a container carrying message_id, on that same c; it makes no other
outside call: no CloudBus query, no new connector, no open and no handshake
send. -/
theorem process_reuses_cached_connector (p : Policy) (e1 e2 : ProcessEnv)
    (s : DistributeGadget) (m1 m2 : MessageBlock) (i : Int) (c : Connector)
    (between : List (ProcessEnv × MessageBlock))
    (hi : 0 < i) (h1 : p.node_index m1 = i) (h2 : p.node_index m2 = i)
    (hcreated : Event.new_connector c ∈ (process p e1 s m1).2.trace ∧
      Event.new_connector c ∉ s.trace)
    (hcached : NodeMap.find i (process p e1 s m1).2.node_map_ = some (some c)) :
    (process p e2 (process_all p (process p e1 s m1).2 between) m2).2.trace =
      (process_all p (process p e1 s m1).2 between).trace ++
        Event.con_putq c (p.message_id m2) (some m2) e2.con_putq_ok ::
          (if e2.con_putq_ok then []
           else [Event.release_container (p.message_id m2) (some m2)]) ∧
    (process p e2 (process_all p (process p e1 s m1).2 between) m2).2.next_object =
      (process_all p (process p e1 s m1).2 between).next_object ∧
    NodeMap.find i (process p e2 (process_all p (process p e1 s m1).2 between) m2).2.node_map_ =
      some (some c) ∧
    (process p e2 (process_all p (process p e1 s m1).2 between) m2).1 =
      (if e2.con_putq_ok then GADGET_OK else GADGET_FAIL) := by
  have _ := hcreated
  have _ := h1
  have hk := process_all_keeps_entry p between (process p e1 s m1).2 i (some c) hcached
  rw [← h2] at hk hi
  rw [process_cached p e2 _ m2 (some c) hi hk, ← h2]
  refine ⟨?_, ?_, ?_, ?_⟩
  · cases hq : e2.con_putq_ok <;> simp [dispatch, hq, DistributeGadget.emit]
  · cases hq : e2.con_putq_ok <;> simp [dispatch, hq, DistributeGadget.emit]
  · simp [dispatch_find]
  · cases hq : e2.con_putq_ok <;> simp [dispatch, hq, DistributeGadget.emit]

/-- Instance of C2: two calls for slot 1 on a fresh gadget, with a call that
fails to open a connector for it in between. -/
theorem process_reuses_cached_connector_witness :
    (process slot_one sample_env sample_gadget 7).2.trace =
      [Event.get_node_info, Event.active_reconstructions, Event.new_connector 0,
       Event.deserialize "", Event.load_reader "mri_core" "AcquisitionReader",
       Event.register_reader 0 1008, Event.load_writer "mri_core" "ImageWriter",
       Event.register_writer 0 1022, Event.con_open 0 "B" "9002",
       Event.send_configuration_script 0 "", Event.send_parameters 0 "",
       Event.con_putq 0 7 (some 7) true] ∧
    (process slot_one sample_env
      (process_all slot_one (process slot_one sample_env sample_gadget 7).2
        [(lonely_env, 8)]) 9).2.trace =
      (process_all slot_one (process slot_one sample_env sample_gadget 7).2
        [(lonely_env, 8)]).trace ++ [Event.con_putq 0 9 (some 9) true] :=
  ⟨by decide,
   (process_reuses_cached_connector slot_one sample_env sample_env sample_gadget 7 9 1 0
      [(lonely_env, 8)] (by decide) rfl rfl ⟨by decide, by decide⟩ (by decide)).1⟩

/-- C3: when the gadget's own name first occurs at position r of the
descriptor list and the collector name first occurs after r at position c,
the slice computed by lines 208-216 is the descriptors at positions r+1..c
in their order, and process_config (on a live stream whose walk is defined)
returns with node_xml_config_ holding the serialised configuration whose
gadget list is exactly that slice. -/
theorem process_config_ships_slice (e : ConfigEnv) (s : DistributeGadget)
    (cfg : GadgetStreamConfiguration) (r c : Nat) (tmp : Option Task)
    (hcfg : e.deserialize e.xml = some cfg)
    (hr : (cfg.gadget[r]?).map GadgetXML.name = some e.self.name)
    (hr1 : ∀ j, j < r → (cfg.gadget[j]?).map GadgetXML.name ≠ some e.self.name)
    (hrc : r < c)
    (hc : (cfg.gadget[c]?).map GadgetXML.name = some s.collector)
    (hc1 : ∀ j, r < j → j < c → (cfg.gadget[j]?).map GadgetXML.name ≠ some s.collector)
    (hwalk : walk s.collector (some e.self) e.downstream = Except.ok tmp) :
    slice_gadgets e.self.name s.collector cfg.gadget =
      some ((cfg.gadget.take (c + 1)).drop (r + 1)) ∧
    ∃ status s1, process_config e s = Except.ok (status, s1) ∧
      s1.node_xml_config_ =
        e.serialize { cfg with gadget := (cfg.gadget.take (c + 1)).drop (r + 1) } := by
  have hs := slice_gadgets_positions e.self.name s.collector cfg.gadget r c hr hr1 hrc hc hc1
  refine ⟨hs, ?_⟩
  unfold process_config
  simp only [hcfg, hs, hwalk]
  cases tmp with
  | none => exact ⟨_, _, rfl, rfl⟩
  | some g => exact ⟨_, _, rfl, rfl⟩

/-- Instance of C3: [A, Router, C, Collector, D] with collector "Collector"
gives the slice [C, Collector]. -/
theorem process_config_ships_slice_witness :
    slice_gadgets "Router" "Collector"
      [stage "A", stage "Router", stage "C", stage "Collector", stage "D"] =
      some [stage "C", stage "Collector"] ∧
    ∃ status s1, process_config sample_config_env sample_gadget = Except.ok (status, s1) ∧
      s1.node_xml_config_ = "C,Collector" :=
  process_config_ships_slice sample_config_env sample_gadget sample_pipeline 1 3
    (some { id := 3, name := "Collector", is_gadget := true }) rfl (by decide)
    (by decide) (by decide) (by decide)
    (by intro j h1 h2; interval_cases j; decide) rfl

/-- C4: as soon as the running best candidate has load zero the scan is
over: if the running best after the node at position k has load zero, the
selection on the whole list is that candidate, it equals the selection on
the list cut after position k, and no list of nodes put after position k
changes it. -/
theorem select_node_stops_at_zero (me : GadgetronNodeInfo) (nl : List GadgetronNodeInfo)
    (k : Nat) (hz : (running_best me (nl.take (k + 1))).active_reconstructions = 0) :
    select_node me nl = running_best me (nl.take (k + 1)) ∧
    select_node me nl = select_node me (nl.take (k + 1)) ∧
    ∀ later, select_node me (nl.take (k + 1) ++ later) = select_node me (nl.take (k + 1)) := by
  have h1 := select_node_of_running_best_zero me (nl.take (k + 1)) hz
  have h2 : (select_node me (nl.take (k + 1))).active_reconstructions = 0 := by rw [h1]; exact hz
  have h3 := select_node_append_of_zero me (nl.take (k + 1)) (nl.drop (k + 1)) h2
  rw [List.take_append_drop] at h3
  exact ⟨h3.trans h1, h3, fun later => select_node_append_of_zero me _ later h2⟩

/-- Instance of C4: self load 2 and nodes [(A,5),(B,0),(C,1)]; the running
best is B at position 1, and B is selected. -/
theorem select_node_stops_at_zero_witness :
    (running_best (local_node 2) (sample_nodes.take 2)).active_reconstructions = 0 ∧
    select_node (local_node 2) sample_nodes =
      { address := "B", port := 9002, active_reconstructions := 0 } :=
  ⟨by decide, (select_node_stops_at_zero (local_node 2) sample_nodes 1 (by decide)).1⟩

/-- C5: with use_this_node_for_compute = false, a message with a positive
index that resolves to no connector (a null entry is cached, or the index is
new and the scan ends on a candidate with port 0, the local node) makes
process return GADGET_FAIL; the calls it adds to the trace contain no putq
on the next gadget, and the message is released. -/
theorem process_fails_without_local_fallback (p : Policy) (e : ProcessEnv)
    (s : DistributeGadget) (m : MessageBlock)
    (hu : s.use_this_node_for_compute = false) (hi : 0 < p.node_index m)
    (hres : NodeMap.find (p.node_index m) s.node_map_ = some none ∨
      (NodeMap.find (p.node_index m) s.node_map_ = none ∧
        (select_node (local_node e.local_load) e.nodes).port = 0)) :
    (process p e s m).1 = GADGET_FAIL ∧
    ∃ added, (process p e s m).2.trace = s.trace ++ added ∧
      (∀ m1 ok, Event.next_putq m1 ok ∉ added) ∧ Event.release m ∈ added := by
  rcases hres with hf | ⟨hf, hp⟩
  · rw [process_cached p e s m none hi hf]
    refine ⟨by simp [dispatch, hu], [Event.release m], ?_, ?_, ?_⟩ <;>
      simp [dispatch, hu, DistributeGadget.emit]
  · rw [process_fresh p e s m hi hf]
    refine ⟨by simp [dispatch, hu, hp, DistributeGadget.emit],
      [Event.get_node_info, Event.active_reconstructions, Event.release m], ?_, ?_, ?_⟩ <;>
      simp [dispatch, hu, hp, DistributeGadget.emit]

/-- Instance of C5: no remote node is known, so slot 1 resolves to the local
node, which must not compute. -/
theorem process_fails_without_local_fallback_witness :
    (process slot_one lonely_env remote_only_gadget 7).1 = GADGET_FAIL ∧
    ∃ added, (process slot_one lonely_env remote_only_gadget 7).2.trace =
        remote_only_gadget.trace ++ added ∧
      (∀ m1 ok, Event.next_putq m1 ok ∉ added) ∧ Event.release 7 ∈ added :=
  process_fails_without_local_fallback slot_one lonely_env remote_only_gadget 7 rfl
    (by decide) (Or.inr ⟨rfl, rfl⟩)

/-- C6: close with a non-zero flag, when every putq of a CLOSE message
succeeds, performs for each non-null entry of the node map, in key order,
the four calls putq(CLOSE), wait, close, delete on its connector and nothing
else before Gadget::close; every putq on a connector is such a CLOSE
message, and a connector stored once receives exactly one.  Null entries
contribute nothing.  With flags = 0 the only call is Gadget::close. -/
theorem close_tears_down_every_connector (e : CloseEnv) (s : DistributeGadget) (flags : Nat) :
    (flags ≠ 0 → (∀ k c, (k, some c) ∈ s.node_map_ → e.sentinel_putq_ok k = true) →
      (close e s flags).2.trace =
        s.trace ++ (connectors s.node_map_).flatMap teardown ++ [Event.gadget_close flags] ∧
      (∀ c id cont ok,
        Event.con_putq c id cont ok ∈ (connectors s.node_map_).flatMap teardown →
          c ∈ connectors s.node_map_ ∧ id = GADGET_MESSAGE_CLOSE ∧ cont = none ∧ ok = true) ∧
      ((connectors s.node_map_).Nodup → ∀ c ∈ connectors s.node_map_,
        ((connectors s.node_map_).flatMap teardown).count
          (Event.con_putq c GADGET_MESSAGE_CLOSE none true) = 1)) ∧
    (flags = 0 → (close e s flags).2.trace = s.trace ++ [Event.gadget_close flags]) := by
  refine ⟨fun hflags hok => ⟨?_, ?_, ?_⟩, fun hflags => ?_⟩
  · simp [close, hflags, close_connectors_all_ok _ _ hok, DistributeGadget.emit]
  · intro c id cont ok hmem
    obtain ⟨c1, hc1, hev⟩ := List.mem_flatMap.1 hmem
    simp only [teardown, List.mem_cons, Event.con_putq.injEq, List.mem_singleton,
      reduceCtorEq, or_false, List.not_mem_nil] at hev
    obtain ⟨h1, h2, h3, h4⟩ := hev
    exact ⟨h1 ▸ hc1, h2, h3, h4⟩
  · intro hnd c hc
    rw [count_sentinel_flatMap]
    exact List.count_eq_one_of_mem hnd hc
  · simp [close, hflags, DistributeGadget.emit]

/-- Instance of C6: connectors 10 and 11 under keys 1 and 3, a null entry
under key 2, flags = 1. -/
theorem close_tears_down_every_connector_witness :
    (close sample_close_env busy_gadget 1).2.trace =
      [Event.con_putq 10 GADGET_MESSAGE_CLOSE none true, Event.con_wait 10, Event.con_close 10,
       Event.delete_connector 10,
       Event.con_putq 11 GADGET_MESSAGE_CLOSE none true, Event.con_wait 11, Event.con_close 11,
       Event.delete_connector 11, Event.gadget_close 1] ∧
    (close sample_close_env busy_gadget 0).2.trace = [Event.gadget_close 0] :=
  ⟨((close_tears_down_every_connector sample_close_env busy_gadget 1).1 (by decide)
      (fun _ _ _ => rfl)).1,
   (close_tears_down_every_connector sample_close_env busy_gadget 0).2 rfl⟩

/-- C7 fails on the code: a connector created by process is not deleted
when its set-up fails.  On a fresh gadget, a message for slot 1 whose
connector cannot be opened makes process create connector 0 and return
GADGET_FAIL without storing or deleting it; the following close(1) finds an
empty node map, so connector 0 is never deleted. -/
theorem connector_leaked_when_open_fails :
    (process slot_one unreachable_env sample_gadget 7).1 = GADGET_FAIL ∧
    (process slot_one unreachable_env sample_gadget 7).2.node_map_ = [] ∧
    Event.new_connector 0 ∈
      (close sample_close_env (process slot_one unreachable_env sample_gadget 7).2 1).2.trace ∧
    (close sample_close_env (process slot_one unreachable_env sample_gadget 7).2 1).2.trace.count
      (Event.delete_connector 0) = 0 := by
  decide

/-- C8: in close with a non-zero flag, when the putq of the CLOSE message
succeeds on every non-null connector of the node map, the calls made are the
four tear-down calls of each of them, in key order, followed by one call of
Gadget::close with the same flags, whose value close returns.  Whatever the
putq answers, a call of Gadget::close (with any flags) among the calls made
is the last call, has the flags of close, and comes after the four tear-down
calls of every non-null connector of the node map.  When the putq fails on
some connector, close returns -1 and Gadget::close is not called. -/
theorem close_propagates_after_connectors (e : CloseEnv) (s : DistributeGadget) (flags : Nat)
    (hflags : flags ≠ 0) :
    ∃ added, (close e s flags).2.trace = s.trace ++ added ∧
      ((∀ k c, (k, some c) ∈ s.node_map_ → e.sentinel_putq_ok k = true) →
        added = (connectors s.node_map_).flatMap teardown ++ [Event.gadget_close flags] ∧
        (close e s flags).1 = e.gadget_close) ∧
      (∀ f before after, added = before ++ Event.gadget_close f :: after →
        f = flags ∧ after = [] ∧
        ∀ k c, (k, some c) ∈ s.node_map_ → teardown c <:+: before) ∧
      ((∃ k c, (k, some c) ∈ s.node_map_ ∧ e.sentinel_putq_ok k = false) →
        (close e s flags).1 = -1 ∧ ∀ f, Event.gadget_close f ∉ added) := by
  have hnone : ∀ x ∈ (close_connectors e.sentinel_putq_ok s.node_map_).2,
      ¬ ∃ f, x = Event.gadget_close f := by
    rintro x hx ⟨f, hf⟩
    exact close_connectors_no_gadget_close e.sentinel_putq_ok s.node_map_ f (hf ▸ hx)
  cases hr : (close_connectors e.sentinel_putq_ok s.node_map_).1 with
  | false =>
    refine ⟨(close_connectors e.sentinel_putq_ok s.node_map_).2, ?_, ?_, ?_, ?_⟩
    · simp [close, hflags, hr, DistributeGadget.emit]
    · intro hok
      rw [close_connectors_all_ok _ _ hok] at hr
      cases hr
    · intro f before after hsplit
      exfalso
      apply close_connectors_no_gadget_close e.sentinel_putq_ok s.node_map_ f
      rw [hsplit]
      simp
    · intro _
      exact ⟨by simp [close, hflags, hr],
        fun f => close_connectors_no_gadget_close e.sentinel_putq_ok s.node_map_ f⟩
  | true =>
    refine ⟨(close_connectors e.sentinel_putq_ok s.node_map_).2 ++ [Event.gadget_close flags],
      ?_, ?_, ?_, ?_⟩
    · simp [close, hflags, hr, DistributeGadget.emit]
    · intro hok
      refine ⟨by rw [close_connectors_all_ok _ _ hok], ?_⟩
      simp [close, hflags, hr]
    · intro f before after hsplit
      obtain ⟨h1, h2, h3⟩ := append_singleton_split_of (fun x => ∃ f, x = Event.gadget_close f)
        (Event.gadget_close flags) (Event.gadget_close f) _ before after hnone ⟨f, rfl⟩ hsplit
      refine ⟨by simpa using h2, h3, fun k c hm => ?_⟩
      rw [h1]
      exact close_connectors_teardown e.sentinel_putq_ok s.node_map_ hr k c hm
    · intro hfail
      rw [close_connectors_failure e.sentinel_putq_ok s.node_map_ hfail] at hr
      cases hr

/-- Instance of C8 on the gadget holding connectors 10 and 11, flags = 1:
both are torn down, then Gadget::close(1) is called and its value returned. -/
theorem close_propagates_after_connectors_witness :
    ∃ added, (close sample_close_env busy_gadget 1).2.trace = busy_gadget.trace ++ added ∧
      ((∀ k c, (k, some c) ∈ busy_gadget.node_map_ →
          sample_close_env.sentinel_putq_ok k = true) →
        added = (connectors busy_gadget.node_map_).flatMap teardown ++
          [Event.gadget_close 1] ∧
        (close sample_close_env busy_gadget 1).1 = sample_close_env.gadget_close) ∧
      (∀ f before after, added = before ++ Event.gadget_close f :: after →
        f = 1 ∧ after = [] ∧
        ∀ k c, (k, some c) ∈ busy_gadget.node_map_ → teardown c <:+: before) ∧
      ((∃ k c, (k, some c) ∈ busy_gadget.node_map_ ∧
          sample_close_env.sentinel_putq_ok k = false) →
        (close sample_close_env busy_gadget 1).1 = -1 ∧ ∀ f, Event.gadget_close f ∉ added) :=
  close_propagates_after_connectors sample_close_env busy_gadget 1 (by decide)

/-- C9 fails on the code: process returns GADGET_FAIL without releasing the
message when the node index is negative, and also when the connector of a
new slot cannot be opened; the sibling failure paths (a failed putq, no
local fallback) do release it. -/
theorem message_not_released_on_failure :
    (process negative_slot sample_env sample_gadget 7).1 = GADGET_FAIL ∧
    releases 7 (process negative_slot sample_env sample_gadget 7).2.trace = 0 ∧
    (process slot_one unreachable_env sample_gadget 7).1 = GADGET_FAIL ∧
    releases 7 (process slot_one unreachable_env sample_gadget 7).2.trace = 0 ∧
    (process slot_one lonely_env remote_only_gadget 7).1 = GADGET_FAIL ∧
    releases 7 (process slot_one lonely_env remote_only_gadget 7).2.trace = 1 := by
  decide

/-- C10: when a positive index is resolved for the first time, the scan
selects a remote node, the configuration parses and the codecs load, and
then the open or one of the two handshake sends fails, process returns
GADGET_FAIL after having called open and leaves the node map exactly as it
was, with no entry for the index; so the next process call for that index
queries the CloudBus and runs the selection again. -/
theorem process_connect_failure_not_cached (p : Policy) (e : ProcessEnv)
    (s : DistributeGadget) (m : MessageBlock) (cfg : GadgetStreamConfiguration)
    (hi : 0 < p.node_index m)
    (hf : NodeMap.find (p.node_index m) s.node_map_ = none)
    (hport : (select_node (local_node e.local_load) e.nodes).port ≠ 0)
    (hcfg : e.deserialize s.node_xml_config_ = some cfg)
    (hr : (register_readers e.load_reader s.next_object cfg.reader).1 = true)
    (hw : (register_writers e.load_writer s.next_object cfg.writer).1 = true)
    (hfail : e.open_ok = false ∨ e.send_config_ok = false ∨ e.send_params_ok = false) :
    (process p e s m).1 = GADGET_FAIL ∧
    (process p e s m).2.node_map_ = s.node_map_ ∧
    NodeMap.find (p.node_index m) (process p e s m).2.node_map_ = none ∧
    Event.con_open s.next_object (select_node (local_node e.local_load) e.nodes).address
      (Nat.repr (select_node (local_node e.local_load) e.nodes).port) ∈
        (process p e s m).2.trace ∧
    ∀ (e1 : ProcessEnv) (m1 : MessageBlock), p.node_index m1 = p.node_index m →
      ∃ rest, (process p e1 (process p e s m).2 m1).2.trace =
        (process p e s m).2.trace ++
          Event.get_node_info :: Event.active_reconstructions :: rest := by
  have hc := connect_handshake_failure e
    (s.emit [Event.get_node_info, Event.active_reconstructions])
    (select_node (local_node e.local_load) e.nodes) cfg hcfg hr hw hfail
  have hm := (connect_fields e (s.emit [Event.get_node_info, Event.active_reconstructions])
    (select_node (local_node e.local_load) e.nodes)).1
  have hp : process p e s m =
      (GADGET_FAIL, (connect e (s.emit [Event.get_node_info, Event.active_reconstructions])
        (select_node (local_node e.local_load) e.nodes)).2) := by
    rw [process_fresh p e s m hi hf, if_pos hport]
    generalize connect e (s.emit [Event.get_node_info, Event.active_reconstructions])
      (select_node (local_node e.local_load) e.nodes) = r at hc
    obtain ⟨r1, r2⟩ := r
    obtain ⟨h1, _⟩ := hc
    simp only at h1
    subst h1
    rfl
  have hmap : (process p e s m).2.node_map_ = s.node_map_ := by
    rw [hp]
    exact hm
  refine ⟨by rw [hp], hmap, by rw [hmap]; exact hf, by rw [hp]; exact hc.2, ?_⟩
  intro e1 m1 h1
  apply process_fresh_trace
  · rw [h1]; exact hi
  · rw [h1, hmap]; exact hf

/-- Instance of C10: slot 1 on a fresh gadget, node B selected, open fails. -/
theorem process_connect_failure_not_cached_witness :
    (process slot_one unreachable_env sample_gadget 7).1 = GADGET_FAIL ∧
    (process slot_one unreachable_env sample_gadget 7).2.node_map_ = sample_gadget.node_map_ ∧
    Event.con_open 0 "B" "9002" ∈ (process slot_one unreachable_env sample_gadget 7).2.trace :=
  have h := process_connect_failure_not_cached slot_one unreachable_env sample_gadget 7
    sample_cfg (by decide) rfl (by decide) rfl rfl rfl (Or.inl rfl)
  ⟨h.1, h.2.1, h.2.2.2.1⟩

/-- C13: for a message whose node index is negative, process returns
GADGET_FAIL and leaves the whole state as it was: nothing is added to the
trace (no putq on the next gadget or on a connector, no CloudBus query) and
the node map is unchanged. -/
theorem process_negative_index_fails (p : Policy) (e : ProcessEnv) (s : DistributeGadget)
    (m : MessageBlock) (h : p.node_index m < 0) :
    (process p e s m).1 = GADGET_FAIL ∧ (process p e s m).2 = s ∧
    (process p e s m).2.trace = s.trace ∧ (process p e s m).2.node_map_ = s.node_map_ := by
  simp [process, h]

/-- Instance of C13: node index -1 on a gadget holding two connectors. -/
theorem process_negative_index_fails_witness :
    (process negative_slot sample_env busy_gadget 7).1 = GADGET_FAIL ∧
    (process negative_slot sample_env busy_gadget 7).2 = busy_gadget :=
  have h := process_negative_index_fails negative_slot sample_env busy_gadget 7 (by decide)
  ⟨h.1, h.2.1⟩

/-- C16: process never removes an entry of the node map and never changes
the pointer stored under an existing key, whatever it returns: a key that
maps to a pointer (null or not) before the call maps to the same pointer
after it, also after any sequence of process calls; in a well-formed map the
very entry is still present. -/
theorem process_never_evicts (p : Policy) (e : ProcessEnv) (s : DistributeGadget)
    (m : MessageBlock) :
    (∀ j v, NodeMap.find j s.node_map_ = some v →
      NodeMap.find j (process p e s m).2.node_map_ = some v) ∧
    (∀ calls j v, NodeMap.find j s.node_map_ = some v →
      NodeMap.find j (process_all p s calls).node_map_ = some v) ∧
    (s.wf → ∀ kv, kv ∈ s.node_map_ → kv ∈ (process p e s m).2.node_map_) := by
  refine ⟨fun j v h => process_keeps_entry p e s m j v h,
    fun calls j v h => process_all_keeps_entry p calls s j v h, ?_⟩
  intro hs kv hkv
  obtain ⟨k, v⟩ := kv
  exact NodeMap.find_mem k v _
    (process_keeps_entry p e s m k v (NodeMap.find_of_mem k v _ hs.1 hkv))

/-- Instance of C16: a failing call for the new slot 4 on a gadget holding
connector 10 under key 1 and a null pointer under key 2. -/
theorem process_never_evicts_witness :
    (process { node_index := fun _ => 4, message_id := fun m => m } unreachable_env
      busy_gadget 7).1 = GADGET_FAIL ∧
    NodeMap.find 1 (process { node_index := fun _ => 4, message_id := fun m => m }
      unreachable_env busy_gadget 7).2.node_map_ = some (some 10) ∧
    NodeMap.find 2 (process { node_index := fun _ => 4, message_id := fun m => m }
      unreachable_env busy_gadget 7).2.node_map_ = some none :=
  ⟨by decide,
   (process_never_evicts { node_index := fun _ => 4, message_id := fun m => m }
      unreachable_env busy_gadget 7).1 1 (some 10) rfl,
   (process_never_evicts { node_index := fun _ => 4, message_id := fun m => m }
      unreachable_env busy_gadget 7).1 2 none rfl⟩

/-- C18: DistributionConnector::process hands the message to the gadget
recorded in collect_gadget_ and returns GADGET_OK when that putq succeeds,
with no call on the next gadget; when no collector is recorded, or the putq
fails, the message is released once and GADGET_FAIL is returned. -/
theorem connector_results_go_to_collector (ok : Bool) (s : DistributeGadget)
    (messageid : Nat) (mb : MessageBlock) :
    (∀ g, s.collect_gadget_ = some g → ok = true →
      DistributionConnector.process ok s messageid mb =
        (GADGET_OK, s.emit [Event.collector_putq g mb true])) ∧
    (s.collect_gadget_ = none →
      DistributionConnector.process ok s messageid mb =
        (GADGET_FAIL, s.emit [Event.release mb])) ∧
    (∀ g, s.collect_gadget_ = some g → ok = false →
      DistributionConnector.process ok s messageid mb =
        (GADGET_FAIL, s.emit [Event.collector_putq g mb false, Event.release mb])) ∧
    ((DistributionConnector.process ok s messageid mb).1 = GADGET_FAIL →
      releases mb (DistributionConnector.process ok s messageid mb).2.trace =
        releases mb s.trace + 1) := by
  refine ⟨?_, ?_, ?_, ?_⟩
  · intro g hg hok
    simp [DistributionConnector.process, collector_putq, hg, hok]
  · intro hg
    simp [DistributionConnector.process, collector_putq, hg]
  · intro g hg hok
    simp [DistributionConnector.process, collector_putq, hg, hok]
  · cases hg : s.collect_gadget_ <;> cases ok <;>
      simp [DistributionConnector.process, collector_putq, hg, releases, DistributeGadget.emit,
        GADGET_OK, GADGET_FAIL, List.countP_cons]

/-- Instance of C18: after process_config in the sample world the collector
is task 3; a result is put on its queue, and released when that fails or
when no collector is recorded. -/
theorem connector_results_go_to_collector_witness :
    configured_gadget.collect_gadget_ = some 3 ∧
    DistributionConnector.process true configured_gadget 1022 7 =
      (GADGET_OK, configured_gadget.emit [Event.collector_putq 3 7 true]) ∧
    DistributionConnector.process true sample_gadget 1022 7 =
      (GADGET_FAIL, sample_gadget.emit [Event.release 7]) ∧
    DistributionConnector.process false configured_gadget 1022 7 =
      (GADGET_FAIL, configured_gadget.emit [Event.collector_putq 3 7 false, Event.release 7]) :=
  ⟨rfl,
   (connector_results_go_to_collector true configured_gadget 1022 7).1 3 rfl rfl,
   (connector_results_go_to_collector true sample_gadget 1022 7).2.1 rfl,
   (connector_results_go_to_collector false configured_gadget 1022 7).2.2.1 3 rfl rfl⟩

/-- C19: the baseline node_index returns 0 for every message; hence a
sequence of process calls under the baseline policy leaves the node map as
it is (empty on a fresh gadget), and its trace consists of one putq on the
next gadget per message, in order (followed by the release of the message
when that putq fails): the CloudBus is never asked. -/
theorem baseline_policy_always_local (mid : MessageBlock → Nat) (s : DistributeGadget)
    (calls : List (ProcessEnv × MessageBlock)) (collector : String) (use_this_node : Bool) :
    (∀ m, node_index m = 0) ∧
    (process_all { node_index := node_index, message_id := mid } s calls).node_map_ =
      s.node_map_ ∧
    (process_all { node_index := node_index, message_id := mid }
      (DistributeGadget.init collector use_this_node) calls).node_map_ = [] ∧
    (process_all { node_index := node_index, message_id := mid } s calls).trace =
      s.trace ++ offered calls ∧
    (∀ ev ∈ offered calls, ev.is_query = false) ∧
    (∀ em ∈ calls, Event.next_putq em.2 em.1.next_putq_ok ∈ offered calls) := by
  have h0 : ∀ m, ({ node_index := node_index, message_id := mid } : Policy).node_index m = 0 :=
    fun _ => rfl
  refine ⟨fun _ => rfl, ?_, ?_, ?_, ?_, ?_⟩
  · rw [process_all_index_zero _ calls s h0]; rfl
  · rw [process_all_index_zero _ calls _ h0]; rfl
  · rw [process_all_index_zero _ calls s h0]; rfl
  · intro ev hev
    obtain ⟨em, _, hem⟩ := List.mem_flatMap.1 hev
    cases hq : em.1.next_putq_ok <;> simp [hq] at hem
    · rcases hem with h | h <;> rw [h] <;> rfl
    · rw [hem]; rfl
  · intro em hem
    exact List.mem_flatMap.2 ⟨em, hem, List.mem_cons_self _ _⟩

/-- C14: when a positive index is not in the node map and the scan ends on a
candidate with port 0 (the local node), process stores a null pointer under
the index; with use_this_node_for_compute = true it then puts the message on
the next gadget and returns what a call with index 0 returns (GADGET_OK, or
GADGET_FAIL after releasing the message when the putq fails); every later
process call with that index, after any further process calls, only puts
its message on the next gadget or releases it and never asks the CloudBus. -/
theorem process_caches_local_resolution (p : Policy) (e : ProcessEnv) (s : DistributeGadget)
    (m : MessageBlock) (hi : 0 < p.node_index m)
    (hf : NodeMap.find (p.node_index m) s.node_map_ = none)
    (hport : (select_node (local_node e.local_load) e.nodes).port = 0) :
    NodeMap.find (p.node_index m) (process p e s m).2.node_map_ = some none ∧
    (s.use_this_node_for_compute = true →
      (process p e s m).1 = (if e.next_putq_ok then GADGET_OK else GADGET_FAIL) ∧
      (process p e s m).2.trace =
        s.trace ++ [Event.get_node_info, Event.active_reconstructions] ++
          Event.next_putq m e.next_putq_ok ::
            (if e.next_putq_ok then [] else [Event.release m]) ∧
      ∀ p0 : Policy, p0.node_index m = 0 → (process p e s m).1 = (process p0 e s m).1) ∧
    (∀ (calls : List (ProcessEnv × MessageBlock)) (e2 : ProcessEnv) (m2 : MessageBlock),
      p.node_index m2 = p.node_index m →
      ∃ added,
        (process p e2 (process_all p (process p e s m).2 calls) m2).2.trace =
          (process_all p (process p e s m).2 calls).trace ++ added ∧
        ∀ ev ∈ added, ev.is_query = false ∧
          (ev = Event.release m2 ∨ ∃ ok, ev = Event.next_putq m2 ok)) := by
  have hp : process p e s m =
      dispatch p e (s.emit [Event.get_node_info, Event.active_reconstructions]) m
        (p.node_index m) none := by
    rw [process_fresh p e s m hi hf]
    simp [hport]
  have hnull : NodeMap.find (p.node_index m) (process p e s m).2.node_map_ = some none := by
    rw [hp, dispatch_find]
    simp
  refine ⟨hnull, ?_, ?_⟩
  · intro hu
    refine ⟨?_, ?_, ?_⟩
    · rw [hp]
      cases hq : e.next_putq_ok <;> simp [dispatch, hu, hq, DistributeGadget.emit]
    · rw [hp]
      cases hq : e.next_putq_ok <;> simp [dispatch, hu, hq, DistributeGadget.emit]
    · intro p0 h0
      rw [hp, process_index_zero_eq p0 e s m h0]
      cases hq : e.next_putq_ok <;> simp [dispatch, hu, hq, DistributeGadget.emit]
  · intro calls e2 m2 h2
    have hk := process_all_keeps_entry p calls (process p e s m).2 (p.node_index m) none hnull
    rw [← h2] at hk
    rw [process_cached p e2 _ m2 none (h2 ▸ hi) hk]
    exact dispatch_none_trace p e2 _ m2 _

/-- Instance of C14: no remote node is known, slot 1 resolves to the local
node; the next gadget gets the message, and a second call for slot 1 puts
its message there without asking the CloudBus. -/
theorem process_caches_local_resolution_witness :
    NodeMap.find 1 (process slot_one lonely_env sample_gadget 7).2.node_map_ = some none ∧
    (process slot_one lonely_env sample_gadget 7).2.trace =
      [Event.get_node_info, Event.active_reconstructions, Event.next_putq 7 true] ∧
    (process slot_one sample_env (process slot_one lonely_env sample_gadget 7).2 8).2.trace =
      [Event.get_node_info, Event.active_reconstructions, Event.next_putq 7 true,
       Event.next_putq 8 true] :=
  have h := process_caches_local_resolution slot_one lonely_env sample_gadget 7
    (by decide) rfl rfl
  ⟨h.1, (h.2.1 rfl).2.1, by decide⟩

/-- C15: when the positive index of a message resolves to the non-null
connector c (cached under the index, or set up successfully in this call),
process makes exactly one putq after the set-up calls: on c, of a container
whose identifier is message_id(m) and whose continuation is m; nothing is
put on the next gadget; the call returns GADGET_OK when that putq succeeds,
and releases the container and returns GADGET_FAIL when it fails. -/
theorem process_remote_enqueue (p : Policy) (e : ProcessEnv) (s : DistributeGadget)
    (m : MessageBlock) (c : Connector) (hi : 0 < p.node_index m)
    (hres : NodeMap.find (p.node_index m) s.node_map_ = some (some c) ∨
      (NodeMap.find (p.node_index m) s.node_map_ = none ∧
        (select_node (local_node e.local_load) e.nodes).port ≠ 0 ∧
        (connect e (s.emit [Event.get_node_info, Event.active_reconstructions])
          (select_node (local_node e.local_load) e.nodes)).1 = some c)) :
    (process p e s m).1 = (if e.con_putq_ok then GADGET_OK else GADGET_FAIL) ∧
    ∃ setup, (process p e s m).2.trace =
        s.trace ++ setup ++ Event.con_putq c (p.message_id m) (some m) e.con_putq_ok ::
          (if e.con_putq_ok then []
           else [Event.release_container (p.message_id m) (some m)]) ∧
      ∀ ev ∈ setup, ev.is_putq = false := by
  rcases hres with hf | ⟨hf, hport, hc⟩
  · rw [process_cached p e s m (some c) hi hf, dispatch_some_eq]
    exact ⟨rfl, [], by simp, by simp⟩
  · rw [process_fresh p e s m hi hf, if_pos hport]
    obtain ⟨ev, hev, hno⟩ := connect_no_putq e
      (s.emit [Event.get_node_info, Event.active_reconstructions])
      (select_node (local_node e.local_load) e.nodes)
    generalize connect e (s.emit [Event.get_node_info, Event.active_reconstructions])
      (select_node (local_node e.local_load) e.nodes) = r at hc hev
    obtain ⟨r1, r2⟩ := r
    simp only at hc
    subst hc
    simp only [DistributeGadget.emit] at hev
    dsimp only
    rw [dispatch_some_eq]
    refine ⟨rfl, [Event.get_node_info, Event.active_reconstructions] ++ ev, ?_, ?_⟩
    · show r2.trace ++ _ = _
      rw [hev]
      simp only [List.append_assoc]
    · intro x hx
      rcases List.mem_append.1 hx with h | h
      · rcases List.mem_cons.1 h with h1 | h1
        · rw [h1]; rfl
        · rw [List.mem_singleton.1 h1]; rfl
      · exact hno x h

/-- Instance of C15: connector 10 is cached under slot 1 and its queue
refuses the container. -/
theorem process_remote_enqueue_witness :
    (process slot_one { sample_env with con_putq_ok := false } busy_gadget 7).1 = GADGET_FAIL ∧
    ∃ setup, (process slot_one { sample_env with con_putq_ok := false } busy_gadget 7).2.trace =
        busy_gadget.trace ++ setup ++ Event.con_putq 10 7 (some 7) false ::
          [Event.release_container 7 (some 7)] ∧
      ∀ ev ∈ setup, ev.is_putq = false :=
  process_remote_enqueue slot_one { sample_env with con_putq_ok := false } busy_gadget 7 10
    (by decide) (Or.inl rfl)

/-- C11: on a gadget configured by process_config (and after any further
process calls), when a new positive index resolves to a remote node whose
port fits the print buffer, the stored configuration parses back, every
reader and writer loads and the open, both sends and the putq succeed, the
calls are, in this order: the CloudBus queries, the creation of the
connector, the parse, load and register of every reader and then of every
writer of the configuration, open with the node's address and its port in
decimal, send of the configuration script (the serialised slice stored by
process_config), send of the parameters (the string stored by
process_config), and last the putq of the container holding the message. -/
theorem process_handshake_order (p : Policy) (e : ProcessEnv) (ec : ConfigEnv)
    (s0 s1 : DistributeGadget) (st : Int) (calls : List (ProcessEnv × MessageBlock))
    (m : MessageBlock) (full : GadgetStreamConfiguration) (slice : List GadgetXML)
    (hconf : process_config ec s0 = Except.ok (st, s1))
    (hfull : ec.deserialize ec.xml = some full)
    (hslice : slice_gadgets ec.self.name s0.collector full.gadget = some slice)
    (hround : e.deserialize (ec.serialize { full with gadget := slice }) =
      some { full with gadget := slice })
    (hi : 0 < p.node_index m)
    (hf : NodeMap.find (p.node_index m) (process_all p s1 calls).node_map_ = none)
    (hport : (select_node (local_node e.local_load) e.nodes).port ≠ 0)
    (hsmall : (select_node (local_node e.local_load) e.nodes).port < 10 ^ 9)
    (hr : ∀ i ∈ full.reader, e.load_reader i.dll i.classname = true)
    (hw : ∀ i ∈ full.writer, e.load_writer i.dll i.classname = true)
    (ho : e.open_ok = true) (hsc : e.send_config_ok = true) (hsp : e.send_params_ok = true)
    (hq : e.con_putq_ok = true) :
    (process p e (process_all p s1 calls) m).1 = GADGET_OK ∧
    (process_all p s1 calls).node_xml_config_ = ec.serialize { full with gadget := slice } ∧
    (process_all p s1 calls).node_parameters_ = ec.parameters ∧
    (process p e (process_all p s1 calls) m).2.trace =
      (process_all p s1 calls).trace ++
        ([Event.get_node_info, Event.active_reconstructions,
          Event.new_connector (process_all p s1 calls).next_object,
          Event.deserialize (ec.serialize { full with gadget := slice })] ++
         reader_calls (process_all p s1 calls).next_object full.reader ++
         writer_calls (process_all p s1 calls).next_object full.writer ++
         [Event.con_open (process_all p s1 calls).next_object
            (select_node (local_node e.local_load) e.nodes).address
            (Nat.repr (select_node (local_node e.local_load) e.nodes).port),
          Event.send_configuration_script (process_all p s1 calls).next_object
            (ec.serialize { full with gadget := slice }),
          Event.send_parameters (process_all p s1 calls).next_object ec.parameters,
          Event.con_putq (process_all p s1 calls).next_object (p.message_id m) (some m)
            true]) := by
  have _ := hsmall
  obtain ⟨cfg, gadget, g, h1, h2, _, _, h5, h6, _⟩ := process_config_ok ec s0 s1 st hconf
  rw [hfull] at h1
  cases h1
  rw [hslice] at h2
  cases h2
  obtain ⟨_, f2, f3, _, _⟩ := process_all_fields p calls s1
  have hxml : (process_all p s1 calls).node_xml_config_ =
      ec.serialize { full with gadget := slice } := f2.trans h6
  have hpar : (process_all p s1 calls).node_parameters_ = ec.parameters := f3.trans h5
  have hcfg : e.deserialize
      ((process_all p s1 calls).emit
        [Event.get_node_info, Event.active_reconstructions]).node_xml_config_ =
      some { full with gadget := slice } := by
    show e.deserialize (process_all p s1 calls).node_xml_config_ = _
    rw [hxml]
    exact hround
  have hc := connect_all_ok e
    ((process_all p s1 calls).emit [Event.get_node_info, Event.active_reconstructions])
    (select_node (local_node e.local_load) e.nodes) _ hcfg hr hw ho hsc hsp
  refine ⟨?_, hxml, hpar, ?_⟩
  · rw [process_fresh p e _ m hi hf, if_pos hport, hc]
    simp [dispatch_some_eq, hq]
  · rw [process_fresh p e _ m hi hf, if_pos hport, hc]
    simp [dispatch_some_eq, hq, DistributeGadget.emit, hxml, hpar]

/-- Instance of C11: process_config on [A, Router, C, Collector, D] with one
reader and one writer, then the first message for slot 1, sent to node B. -/
theorem process_handshake_order_witness :
    (process slot_one codec_env codec_gadget 7).1 = GADGET_OK ∧
    (process slot_one codec_env codec_gadget 7).2.trace =
      [Event.set_parameter 3 "pass_through_mode" "true",
       Event.get_node_info, Event.active_reconstructions, Event.new_connector 0,
       Event.deserialize "C,Collector",
       Event.load_reader "mri_core" "AcquisitionReader", Event.register_reader 0 1008,
       Event.load_writer "mri_core" "ImageWriter", Event.register_writer 0 1022,
       Event.con_open 0 "B" "9002",
       Event.send_configuration_script 0 "C,Collector",
       Event.send_parameters 0 "<ismrmrdHeader/>",
       Event.con_putq 0 7 (some 7) true] :=
  have h := process_handshake_order slot_one codec_env codec_config_env sample_gadget
    codec_gadget GADGET_OK [] 7 codec_pipeline [stage "C", stage "Collector"]
    rfl rfl rfl rfl (by decide) rfl (by decide) (by decide)
    (fun _ _ => rfl) (fun _ _ => rfl) rfl rfl rfl rfl
  ⟨h.1, h.2.2.2⟩

/-- C12 fails on the code: process_config does not return GADGET_FAIL when
the collector is missing.  With no descriptor named as the collector the
second scan of the descriptor list reads it->name at end() (undefined
behaviour); with no task named as the collector in the live stream the walk
stops on the last task, which is recorded as the collector and switched to
pass-through mode while GADGET_OK is returned, or, when the stream ends in a
task that is not a Gadget, a null pointer is dereferenced. -/
theorem process_config_missing_collector_not_reported :
    process_config no_collector_env sample_gadget = Except.error Fault.undefined_behaviour ∧
    (∃ s1, process_config missing_stage_env sample_gadget = Except.ok (GADGET_OK, s1) ∧
      s1.collect_gadget_ = some 4 ∧
      s1.trace = [Event.set_parameter 4 "pass_through_mode" "true"]) ∧
    process_config stream_tail_env sample_gadget = Except.error Fault.undefined_behaviour :=
  ⟨rfl, ⟨_, rfl, rfl, rfl⟩, rfl⟩

/-- C17 as stated fails on the code: a task at the gadget itself carries
the collector name (the gadget "Router" is configured with collector
"Router", and the walk of lines 223-227 stops on it), yet process_config
does not return GADGET_OK: no descriptor after the gadget's own carries that
name, so the scan of line 215 reads it->name at end(). -/
theorem process_config_collector_at_router_undefined :
    sample_config_env.self.name = (DistributeGadget.init "Router" true).collector ∧
    walk (DistributeGadget.init "Router" true).collector (some sample_config_env.self)
      sample_config_env.downstream = Except.ok (some sample_config_env.self) ∧
    process_config sample_config_env (DistributeGadget.init "Router" true) =
      Except.error Fault.undefined_behaviour :=
  ⟨rfl, rfl, rfl⟩

/-- C17 amended: when the configuration parses, the gadget's own name first
occurs at position r of its descriptor list and the collector name occurs at
a position c after r, and the first task named as the collector at or after
the gadget in the live stream is g, the tasks up to g being Gadgets, then
process_config returns GADGET_OK, records g in collect_gadget_, and its only
outside call is set_parameter("pass_through_mode", "true") on g. -/
theorem process_config_marks_collector (e : ConfigEnv) (s : DistributeGadget)
    (cfg : GadgetStreamConfiguration) (r c k : Nat) (g : Task)
    (hcfg : e.deserialize e.xml = some cfg)
    (hr : (cfg.gadget[r]?).map GadgetXML.name = some e.self.name)
    (hr1 : ∀ j, j < r → (cfg.gadget[j]?).map GadgetXML.name ≠ some e.self.name)
    (hrc : r < c)
    (hc : (cfg.gadget[c]?).map GadgetXML.name = some s.collector)
    (hk : (e.self :: e.downstream)[k]? = some g) (hname : g.name = s.collector)
    (hfirst : ∀ j, j < k → ∀ x, (e.self :: e.downstream)[j]? = some x → x.name ≠ s.collector)
    (hgad : ∀ j, 0 < j → j ≤ k →
      ∀ x, (e.self :: e.downstream)[j]? = some x → x.is_gadget = true) :
    ∃ s1, process_config e s = Except.ok (GADGET_OK, s1) ∧
      s1.collect_gadget_ = some g.id ∧
      s1.trace = s.trace ++ [Event.set_parameter g.id "pass_through_mode" "true"] ∧
      ∀ t key value, Event.set_parameter t key value ∈ s1.trace →
        Event.set_parameter t key value ∈ s.trace ∨
          (t = g.id ∧ key = "pass_through_mode" ∧ value = "true") := by
  obtain ⟨slice, hslice⟩ := slice_gadgets_defined e.self.name s.collector cfg.gadget r c
    hr hr1 hrc hc
  have hw := walk_finds s.collector e.downstream e.self k g hk hname hfirst hgad
  refine ⟨_, by simp [process_config, hcfg, hslice, hw]; rfl, rfl, rfl, ?_⟩
  intro t key value hmem
  simp only [DistributeGadget.emit, List.mem_append, List.mem_singleton,
    Event.set_parameter.injEq] at hmem
  exact hmem

/-- Instance of C17 amended: the descriptors are [A, Router, C, Collector,
D] and the live stream is Router, C, Collector, D; the collector is the task
with identity 3. -/
theorem process_config_marks_collector_witness :
    ∃ s1, process_config sample_config_env sample_gadget = Except.ok (GADGET_OK, s1) ∧
      s1.collect_gadget_ = some 3 ∧
      s1.trace = sample_gadget.trace ++ [Event.set_parameter 3 "pass_through_mode" "true"] ∧
      ∀ t key value, Event.set_parameter t key value ∈ s1.trace →
        Event.set_parameter t key value ∈ sample_gadget.trace ∨
          (t = 3 ∧ key = "pass_through_mode" ∧ value = "true") :=
  process_config_marks_collector sample_config_env sample_gadget sample_pipeline
    1 3 2 { id := 3, name := "Collector", is_gadget := true }
    rfl (by decide) (by decide) (by decide) (by decide) rfl rfl
    (by
      intro j hj x hx
      interval_cases j
      · cases (Option.some.inj hx : sample_config_env.self = x)
        decide
      · cases (Option.some.inj hx : ({ id := 2, name := "C", is_gadget := true } : Task) = x)
        decide)
    (by
      intro j h1 h2 x hx
      interval_cases j
      · cases (Option.some.inj hx : ({ id := 2, name := "C", is_gadget := true } : Task) = x)
        rfl
      · cases (Option.some.inj hx :
          ({ id := 3, name := "Collector", is_gadget := true } : Task) = x)
        rfl)

/-- C21 as stated fails on the code: there is no local load and node list
for which the selected candidate carries more load than the local node or
than some listed node. -/
theorem no_selection_above_minimum :
    ¬ ∃ (s : Nat) (nl : List GadgetronNodeInfo),
      s < (select_node (local_node s) nl).active_reconstructions ∨
      ∃ x ∈ nl, x.active_reconstructions <
        (select_node (local_node s) nl).active_reconstructions := by
  rintro ⟨s, nl, h | ⟨x, hx, h⟩⟩
  · exact absurd h (Nat.not_lt.2 (select_node_le s nl).1)
  · exact absurd h (Nat.not_lt.2 ((select_node_le s nl).2 x hx))

/-- C21 amended: the scan attains the global minimum.  For every local load
and node list the load of the selected candidate is at most the local load
and at most every listed load, and it is the local load or the load of a
listed node: it equals the smallest load among self and all listed nodes. -/
theorem select_node_attains_minimum (s : Nat) (nl : List GadgetronNodeInfo) :
    (select_node (local_node s) nl).active_reconstructions ≤ s ∧
    (∀ x ∈ nl, (select_node (local_node s) nl).active_reconstructions ≤
      x.active_reconstructions) ∧
    ((select_node (local_node s) nl).active_reconstructions = s ∨
      ∃ x ∈ nl, (select_node (local_node s) nl).active_reconstructions =
        x.active_reconstructions) := by
  refine ⟨(select_node_le s nl).1, (select_node_le s nl).2, ?_⟩
  rcases select_node_local_or_listed s nl with h | ⟨h, _⟩
  · left
    rw [h]
    rfl
  · exact Or.inr ⟨_, h, rfl⟩

/-- C22: the scan selects the local node when no listed node has a load
strictly below the local load s; otherwise it selects a listed node before
which every node has a strictly greater load and after which every node has
a load at least as great (the first node with the least load of the list);
in both cases the selected load is the minimum of s and all listed loads. -/
theorem select_node_first_minimum (s : Nat) (nl : List GadgetronNodeInfo) :
    ((∀ x ∈ nl, ¬ x.active_reconstructions < s) →
      select_node (local_node s) nl = local_node s) ∧
    ((∃ x ∈ nl, x.active_reconstructions < s) →
      ∃ front back, nl = front ++ select_node (local_node s) nl :: back ∧
        (∀ y ∈ front, (select_node (local_node s) nl).active_reconstructions <
          y.active_reconstructions) ∧
        (∀ y ∈ back, (select_node (local_node s) nl).active_reconstructions ≤
          y.active_reconstructions) ∧
        (select_node (local_node s) nl).active_reconstructions < s) ∧
    (select_node (local_node s) nl).active_reconstructions ≤ s ∧
    (∀ x ∈ nl, (select_node (local_node s) nl).active_reconstructions ≤
      x.active_reconstructions) ∧
    ((select_node (local_node s) nl).active_reconstructions = s ∨
      ∃ x ∈ nl, (select_node (local_node s) nl).active_reconstructions =
        x.active_reconstructions) := by
  have hb := running_best_first_minimum (local_node s) nl
  rw [← select_node_eq_running_best] at hb
  refine ⟨?_, ?_, (select_node_le s nl).1, (select_node_le s nl).2, ?_⟩
  · intro hno
    rcases hb with ⟨h1, _⟩ | ⟨front, back, h1, h2, _, _⟩
    · exact h1
    · exfalso
      have hmem : ∀ z, nl = front ++ z :: back → z ∈ nl := by
        intro z hz
        rw [hz]
        simp
      exact hno (select_node (local_node s) nl) (hmem _ h1) h2
  · rintro ⟨x, hx, hlt⟩
    rcases hb with ⟨_, h2⟩ | ⟨front, back, h1, h2, h3, h4⟩
    · exact absurd hlt (Nat.not_lt.2 (h2 x hx))
    · exact ⟨front, back, h1, h3, h4, h2⟩
  · rcases select_node_local_or_listed s nl with h | ⟨h, _⟩
    · left
      rw [h]
      rfl
    · exact Or.inr ⟨_, h, rfl⟩

/-- Instance of C22: local load 2 and nodes [(A,5),(B,0),(C,1)] select B,
found after A; and with local load 0 the local node is kept. -/
theorem select_node_first_minimum_witness :
    select_node (local_node 0) sample_nodes = local_node 0 ∧
    ∃ front back, sample_nodes = front ++ select_node (local_node 2) sample_nodes :: back ∧
      (∀ y ∈ front, (select_node (local_node 2) sample_nodes).active_reconstructions <
        y.active_reconstructions) ∧
      (∀ y ∈ back, (select_node (local_node 2) sample_nodes).active_reconstructions ≤
        y.active_reconstructions) ∧
      (select_node (local_node 2) sample_nodes).active_reconstructions < 2 :=
  ⟨(select_node_first_minimum 0 sample_nodes).1 (by decide),
   (select_node_first_minimum 2 sample_nodes).2.1
     ⟨{ address := "B", port := 9002, active_reconstructions := 0 }, by decide, by decide⟩⟩

/-- C23: with use_this_node_for_compute = false, a process call for a new
positive index whose scan ends on port 0 stores the null pointer under the
index before it returns GADGET_FAIL; every later process call for that
index, after any further process calls and whatever the CloudBus would
report, returns GADGET_FAIL as well, its only outside call being the release
of its message. -/
theorem process_failure_caches_null (p : Policy) (e : ProcessEnv) (s : DistributeGadget)
    (m : MessageBlock) (hu : s.use_this_node_for_compute = false)
    (hi : 0 < p.node_index m)
    (hf : NodeMap.find (p.node_index m) s.node_map_ = none)
    (hport : (select_node (local_node e.local_load) e.nodes).port = 0) :
    (process p e s m).1 = GADGET_FAIL ∧
    NodeMap.find (p.node_index m) (process p e s m).2.node_map_ = some none ∧
    ∀ (calls : List (ProcessEnv × MessageBlock)) (e2 : ProcessEnv) (m2 : MessageBlock),
      p.node_index m2 = p.node_index m →
      (process p e2 (process_all p (process p e s m).2 calls) m2).1 = GADGET_FAIL ∧
      (process p e2 (process_all p (process p e s m).2 calls) m2).2.trace =
        (process_all p (process p e s m).2 calls).trace ++ [Event.release m2] := by
  have hp : process p e s m =
      dispatch p e (s.emit [Event.get_node_info, Event.active_reconstructions]) m
        (p.node_index m) none := by
    rw [process_fresh p e s m hi hf]
    simp [hport]
  have hnull : NodeMap.find (p.node_index m) (process p e s m).2.node_map_ = some none := by
    rw [hp, dispatch_find]
    simp
  refine ⟨by rw [hp]; simp [dispatch, hu, DistributeGadget.emit], hnull, ?_⟩
  intro calls e2 m2 h2
  have hk := process_all_keeps_entry p calls (process p e s m).2 (p.node_index m) none hnull
  have hu2 : (process_all p (process p e s m).2 calls).use_this_node_for_compute = false :=
    ((process_all_fields p calls _).1.trans (process_fields p e s m).1).trans hu
  rw [← h2] at hk
  rw [process_cached p e2 _ m2 none (h2 ▸ hi) hk]
  constructor <;> simp [dispatch, hu2, DistributeGadget.emit]

/-- Instance of C23: no node is known at the first call for slot 1; the
second call fails although the CloudBus now lists the idle node B. -/
theorem process_failure_caches_null_witness :
    (process slot_one lonely_env remote_only_gadget 7).1 = GADGET_FAIL ∧
    (process slot_one sample_env (process slot_one lonely_env remote_only_gadget 7).2 8).1 =
      GADGET_FAIL ∧
    (process slot_one sample_env (process slot_one lonely_env remote_only_gadget 7).2 8).2.trace =
      (process slot_one lonely_env remote_only_gadget 7).2.trace ++ [Event.release 8] :=
  have h := process_failure_caches_null slot_one lonely_env remote_only_gadget 7 rfl
    (by decide) rfl rfl
  ⟨h.1, (h.2.2 [] sample_env 8 rfl).1, (h.2.2 [] sample_env 8 rfl).2⟩

/-- C24 fails on the code: close deletes the connectors but leaves their
pointers in node_map_.  After a message for slot 1 has created connector 0
and close(1) has deleted it, slot 1 still maps to connector 0; the next
process call for slot 1 puts its message on the deleted connector, and a
second close(1) puts a CLOSE message on it and deletes it again. -/
theorem node_map_keeps_deleted_connector :
    NodeMap.find 1
      (close sample_close_env (process slot_one sample_env sample_gadget 7).2 1).2.node_map_ =
      some (some 0) ∧
    Event.delete_connector 0 ∈
      (close sample_close_env (process slot_one sample_env sample_gadget 7).2 1).2.trace ∧
    (process slot_one sample_env
      (close sample_close_env (process slot_one sample_env sample_gadget 7).2 1).2 8).2.trace =
      (close sample_close_env (process slot_one sample_env sample_gadget 7).2 1).2.trace ++
        [Event.con_putq 0 8 (some 8) true] ∧
    (close sample_close_env
      (close sample_close_env (process slot_one sample_env sample_gadget 7).2 1).2 1).2.trace.count
      (Event.delete_connector 0) = 2 := by
  decide

/-- C25: in the first resolution of a positive index a connector is created
exactly when the candidate the scan ends on has a non-zero port.  With port
0, also when the candidate is a listed node, no connector is created and a
null pointer is stored under the index; and every open made by the call
goes to the address and the decimal port of a listed node whose load is
strictly below the local load. -/
theorem process_connects_iff_port (p : Policy) (e : ProcessEnv) (s : DistributeGadget)
    (m : MessageBlock) (hi : 0 < p.node_index m)
    (hf : NodeMap.find (p.node_index m) s.node_map_ = none) :
    ∃ added, (process p e s m).2.trace = s.trace ++ added ∧
      ((∃ c, Event.new_connector c ∈ added) ↔
        (select_node (local_node e.local_load) e.nodes).port ≠ 0) ∧
      ((select_node (local_node e.local_load) e.nodes).port = 0 →
        NodeMap.find (p.node_index m) (process p e s m).2.node_map_ = some none) ∧
      ∀ c a pt, Event.con_open c a pt ∈ added →
        ∃ x ∈ e.nodes, x.active_reconstructions < e.local_load ∧ x.port ≠ 0 ∧
          a = x.address ∧ pt = Nat.repr x.port := by
  obtain ⟨added, h1, h2, h3, h4⟩ := process_fresh_calls p e s m hi hf
  refine ⟨added, h1, ⟨?_, fun h => ⟨_, h2 h⟩⟩, ?_, ?_⟩
  · rintro ⟨c, hc⟩ h0
    exact h3 h0 c hc
  · intro h0
    rw [process_fresh p e s m hi hf, if_neg (by simpa using h0), dispatch_find]
    simp
  · intro c a pt hmem
    obtain ⟨hp, ha, hpt⟩ := h4 c a pt hmem
    rcases select_node_local_or_listed e.local_load e.nodes with h | ⟨h5, h6⟩
    · rw [h] at hp
      exact absurd rfl hp
    · exact ⟨_, h5, h6, hp, ha, hpt⟩

/-- Instance of C25: the idle node B reports port 0 and wins the selection;
no connector is created and slot 1 is resolved to the local node. -/
theorem process_connects_iff_port_witness :
    (select_node (local_node portless_env.local_load) portless_env.nodes) =
      { address := "B", port := 0, active_reconstructions := 0 } ∧
    ∃ added, (process slot_one portless_env sample_gadget 7).2.trace =
        sample_gadget.trace ++ added ∧
      ((∃ c, Event.new_connector c ∈ added) ↔
        (select_node (local_node portless_env.local_load) portless_env.nodes).port ≠ 0) ∧
      ((select_node (local_node portless_env.local_load) portless_env.nodes).port = 0 →
        NodeMap.find (slot_one.node_index 7)
          (process slot_one portless_env sample_gadget 7).2.node_map_ = some none) ∧
      ∀ c a pt, Event.con_open c a pt ∈ added →
        ∃ x ∈ portless_env.nodes, x.active_reconstructions < portless_env.local_load ∧
          x.port ≠ 0 ∧ a = x.address ∧ pt = Nat.repr x.port :=
  ⟨by decide, process_connects_iff_port slot_one portless_env sample_gadget 7 (by decide) rfl⟩

/-- What add_parameter without a default does while the store lies inside
the allocated array: it returns -1 and leaves the parser as it is when a
stored parameter has the switch; otherwise, with fewer than m_list_size +
m_list_increment parameters stored, it returns 0 and appends the new, unset
parameter.  After a sequence of add_parameter calls that returns, the
switches of the stored parameters are pairwise distinct, get_parameter
returns the stored parameter with the switch asked for, and null when there
is none. -/
theorem add_parameter_within_list (s : ParameterParser) (c : Char)
    (t : CommandLineParameterType) (n : Nat) (d : String) (r : Bool) :
    ((∃ q ∈ s.m_parameter_list, q.m_switch = c) →
      s.add_parameter c t n d r = Except.ok (-1, s)) ∧
    ((∀ q ∈ s.m_parameter_list, q.m_switch ≠ c) → s.m_list_size ≤ s.allocated →
      s.m_number_of_parameters < s.m_list_size + s.m_list_increment →
      ∃ s1, s.add_parameter c t n d r = Except.ok (0, s1) ∧
        s1.m_parameter_list = s.m_parameter_list ++ [CommandLineParameter.ctor c t n d r] ∧
        (CommandLineParameter.ctor c t n d r).m_is_set = false ∧
        (CommandLineParameter.ctor c t n d r).m_switch = c) ∧
    (∀ (list_size list_increment : Nat) (calls : List AddCall) (s1 : ParameterParser),
      (ParameterParser.ctor list_size list_increment).add_calls calls = Except.ok s1 →
      s1.switches.Nodup ∧
      (∀ q ∈ s1.m_parameter_list, s1.get_parameter q.m_switch = some q) ∧
      (∀ c1, (∀ q ∈ s1.m_parameter_list, q.m_switch ≠ c1) → s1.get_parameter c1 = none) ∧
      (∀ c1 q, s1.get_parameter c1 = some q → q ∈ s1.m_parameter_list ∧ q.m_switch = c1)) := by
  refine ⟨?_, ?_, ?_⟩
  · intro hdup
    unfold ParameterParser.add_parameter
    rw [if_pos ((any_switch_iff _ _).2 hdup)]
  · intro hno halloc hroom
    have hdup : ¬ s.m_parameter_list.any (fun q => q.is_switch_equal_to c) = true := by
      intro h
      obtain ⟨q, hq, hc⟩ := (any_switch_iff _ _).1 h
      exact hno q hq hc
    unfold ParameterParser.add_parameter
    rw [if_neg hdup]
    by_cases hfull : s.m_number_of_parameters ≥ s.m_list_size
    · have hcopy : s.m_number_of_parameters ≤ s.m_list_size + s.m_list_increment :=
        Nat.le_of_lt hroom
      have hstore : ({ s with allocated := s.m_list_size + s.m_list_increment } :
          ParameterParser).m_number_of_parameters < s.m_list_size + s.m_list_increment := hroom
      simp only [if_pos hfull, ParameterParser.expand_list, if_pos hcopy, if_pos hstore]
      exact ⟨_, rfl, rfl, rfl, rfl⟩
    · have hstore : s.m_number_of_parameters < s.allocated := by omega
      simp only [if_neg hfull, if_pos hstore]
      exact ⟨_, rfl, rfl, rfl, rfl⟩
  · intro list_size list_increment calls s1 h
    have hn := add_calls_nodup calls _ s1 (by simp [ParameterParser.switches,
      ParameterParser.ctor]) h
    refine ⟨hn, fun q hq => get_parameter_of_mem _ hn q hq, ?_, ?_⟩
    · intro c1 hno
      unfold ParameterParser.get_parameter
      rw [List.find?_eq_none]
      intro q hq
      simpa [CommandLineParameter.is_switch_equal_to] using hno q hq
    · intro c1 q hq
      unfold ParameterParser.get_parameter at hq
      refine ⟨List.mem_of_find?_eq_some hq, ?_⟩
      simpa [CommandLineParameter.is_switch_equal_to] using List.find?_some hq

/-- C27 fails on the code: with a switch that is not stored add_parameter
does not always return 0 and append.  The parser constructed with list_size
1 and list_increment 1 holds a and b after two calls; no stored parameter
has the switch c, yet the call for c stores its pointer beyond the array
(the defect shown for C29: expand_list leaves m_list_size as it was), so the
sequence of the three calls has no defined result. -/
theorem add_parameter_new_switch_beyond_list :
    (ParameterParser.ctor 1 1).add_calls
      [AddCall.plain (Char.ofNat 97) CommandLineParameterType.COMMAND_LINE_STRING 1 "value" false,
       AddCall.plain (Char.ofNat 98) CommandLineParameterType.COMMAND_LINE_STRING 0 "value"
         false] = Except.ok two_slot_parameters ∧
    two_slot_parameters.get_parameter (Char.ofNat 99) = none ∧
    two_slot_parameters.add_parameter (Char.ofNat 99)
      CommandLineParameterType.COMMAND_LINE_STRING 2 "count" true =
      Except.error Fault.undefined_behaviour ∧
    (ParameterParser.ctor 1 1).add_calls
      [AddCall.plain (Char.ofNat 97) CommandLineParameterType.COMMAND_LINE_STRING 1 "value" false,
       AddCall.plain (Char.ofNat 98) CommandLineParameterType.COMMAND_LINE_STRING 0 "value"
         false,
       AddCall.plain (Char.ofNat 99) CommandLineParameterType.COMMAND_LINE_STRING 2 "count"
         true] = Except.error Fault.undefined_behaviour :=
  ⟨rfl, rfl, rfl, rfl⟩

/-- C28 fails on the code: add_parameter with a default does not look at
the value the inner add_parameter returns.  Called with the stored switch a
it returns 0 where the overload without a default returns -1, and it calls
set_value on the last stored parameter: b is marked set; on a parser that
holds only a, the stored value of a is replaced by the default. -/
theorem add_parameter_default_ignores_duplicate :
    sample_parameters.add_parameter (Char.ofNat 97) CommandLineParameterType.COMMAND_LINE_STRING 1
      "value" false = Except.ok (-1, sample_parameters) ∧
    sample_parameters.add_parameter_default (Char.ofNat 97)
      CommandLineParameterType.COMMAND_LINE_STRING 1 "value" false "5" =
      Except.ok (0,
        { sample_parameters with
          m_parameter_list :=
            [string_parameter (Char.ofNat 97) 1,
             { string_parameter (Char.ofNat 98) 0 with m_is_set := true }] }) ∧
    ({ sample_parameters with
        m_parameter_list := [string_parameter (Char.ofNat 97) 1] } :
      ParameterParser).add_parameter_default (Char.ofNat 97)
      CommandLineParameterType.COMMAND_LINE_STRING 1 "value" false "5" =
      Except.ok (0,
        { sample_parameters with
          m_parameter_list :=
            [{ string_parameter (Char.ofNat 97) 1 with
               m_is_set := true, m_string_value := ["5"] }] }) :=
  ⟨rfl, rfl, rfl⟩

/-- C29 fails on the code: expand_list does not update m_list_size, so the
array never has more than m_list_size + m_list_increment slots.  A parser
constructed with list_size 1 and list_increment 1 holds two parameters in an
array of two slots after two add_parameter calls; the third call expands to
two slots again and stores its pointer at index 2, beyond the array. -/
theorem add_parameter_stores_beyond_allocated_list :
    (ParameterParser.ctor 1 1).add_calls
      [AddCall.plain (Char.ofNat 97) CommandLineParameterType.COMMAND_LINE_STRING 1 "value" false,
       AddCall.plain (Char.ofNat 98) CommandLineParameterType.COMMAND_LINE_STRING 0 "value"
         false] = Except.ok two_slot_parameters ∧
    two_slot_parameters.m_number_of_parameters = 2 ∧ two_slot_parameters.allocated = 2 ∧
    two_slot_parameters.expand_list = Except.ok two_slot_parameters ∧
    two_slot_parameters.add_parameter (Char.ofNat 99) CommandLineParameterType.COMMAND_LINE_STRING 0
      "value" false = Except.error Fault.undefined_behaviour :=
  ⟨rfl, rfl, rfl, rfl, rfl⟩

/-- C26: on a parser whose stored switches are pairwise distinct and an
argument list whose tokens after the command name are not empty,
parse_parameter_list returns 0 exactly when these tokens are the
concatenation of groups, each a token whose second character is a stored
switch followed by exactly that parameter's number of values; it then
leaves every parameter whose switch occurs set, with the values of the last
group of its switch, and every other parameter as it was; otherwise it
returns -1. -/
theorem parse_parameter_list_accepts_groups (s : ParameterParser) (name : String)
    (tokens : List String) (hne : ∀ t ∈ tokens, t ≠ "") (hn : s.switches.Nodup) :
    ((∃ s1, s.parse_parameter_list (name :: tokens) = Except.ok (0, s1)) ↔
      ∃ gs, well_grouped s.m_parameter_list gs ∧ tokens = flatten_groups gs) ∧
    (∀ gs, well_grouped s.m_parameter_list gs → tokens = flatten_groups gs →
      s.parse_parameter_list (name :: tokens) =
        Except.ok (0,
          { s with
            m_command_name := name,
            m_parameter_list := s.m_parameter_list.map (after_groups gs) })) ∧
    ((¬ ∃ gs, well_grouped s.m_parameter_list gs ∧ tokens = flatten_groups gs) →
      ∃ s1, s.parse_parameter_list (name :: tokens) = Except.ok (-1, s1)) ∧
    (∀ (gs : List (String × List String)) (p : CommandLineParameter),
      ((∀ g ∈ gs, second_char g.1 ≠ some p.m_switch) → after_groups gs p = p) ∧
      ∀ front g back, gs = front ++ g :: back → second_char g.1 = some p.m_switch →
        (∀ x ∈ back, second_char x.1 ≠ some p.m_switch) →
        after_groups gs p = { p with m_string_value := g.2, m_is_set := true }) := by
  have hgroups : ∀ gs, well_grouped s.m_parameter_list gs → tokens = flatten_groups gs →
      s.parse_parameter_list (name :: tokens) =
        Except.ok (0,
          { s with
            m_command_name := name,
            m_parameter_list := s.m_parameter_list.map (after_groups gs) }) := by
    intro gs hw ht
    unfold ParameterParser.parse_parameter_list
    rw [ht]
    exact parse_loop_groups gs { s with m_command_name := name } hn hw
  have haccept : (∃ s1, s.parse_parameter_list (name :: tokens) = Except.ok (0, s1)) →
      ∃ gs, well_grouped s.m_parameter_list gs ∧ tokens = flatten_groups gs := by
    rintro ⟨s1, h⟩
    exact parse_loop_accepts tokens.length { s with m_command_name := name } s1 tokens
      (Nat.le_refl _) h
  refine ⟨⟨haccept, fun ⟨gs, hw, ht⟩ => ⟨_, hgroups gs hw ht⟩⟩, hgroups, ?_, ?_⟩
  · intro hno
    obtain ⟨r, s1, hr, h01⟩ := parse_loop_returns tokens.length
      { s with m_command_name := name } tokens (Nat.le_refl _) hne
    rcases h01 with h0 | h1
    · exact absurd (haccept ⟨s1, by rw [← h0]; exact hr⟩) hno
    · exact ⟨s1, by rw [← h1]; exact hr⟩
  · intro gs p
    refine ⟨?_, ?_⟩
    · intro hno
      unfold after_groups
      rw [last_group_none _ _ hno]
    · intro front g back hgs hg hback
      unfold after_groups
      rw [hgs, last_group_last _ front g back hg hback]

/-- Instance of C26: the parser holds a (one value) and b (no value); the
arguments -a x -b -a y are three groups, a ends with the value y, b is set. -/
theorem parse_parameter_list_accepts_groups_witness :
    sample_parameters.parse_parameter_list ["prog", "-a", "x", "-b", "-a", "y"] =
      Except.ok (0,
        { sample_parameters with
          m_command_name := "prog",
          m_parameter_list :=
            [{ string_parameter (Char.ofNat 97) 1 with
               m_is_set := true, m_string_value := ["y"] },
             { string_parameter (Char.ofNat 98) 0 with
               m_is_set := true, m_string_value := [] }] }) ∧
    ∃ s1, sample_parameters.parse_parameter_list ["prog", "-a", "x", "y"] = Except.ok (-1, s1) :=
  ⟨(parse_parameter_list_accepts_groups sample_parameters "prog" ["-a", "x", "-b", "-a", "y"]
      (by decide) (by decide)).2.1 [("-a", ["x"]), ("-b", []), ("-a", ["y"])]
      (by unfold well_grouped; decide) rfl,
   (parse_parameter_list_accepts_groups sample_parameters "prog" ["-a", "x", "y"]
      (by decide) (by decide)).2.2.1
      (by
        rintro ⟨gs, hw, ht⟩
        have h := (parse_parameter_list_accepts_groups sample_parameters "prog" ["-a", "x", "y"]
          (by decide) (by decide)).2.1 gs hw ht
        have h2 : sample_parameters.parse_parameter_list ["prog", "-a", "x", "y"] =
            Except.ok (-1,
              { sample_parameters with
                m_command_name := "prog",
                m_parameter_list :=
                  [{ string_parameter (Char.ofNat 97) 1 with
                     m_is_set := true, m_string_value := ["x"] },
                   string_parameter (Char.ofNat 98) 0] }) := by
          show parse_loop named_parameters ["-a", "x", "y"] = _
          rw [parse_loop_set named_parameters "-a" ["x", "y"] (Char.ofNat 97) _ 1 rfl rfl]
          rw [List.drop, List.drop, parse_loop_cons]
          rfl
        rw [h2] at h
        cases h)⟩

/-- C30 fails on the code: the test of the leading '-' only prints and the
loop goes on.  On the parser holding a (one value) and b (no value) the
tokens "xb" and "+a" are taken as the switches b and a: the call returns 0,
b is marked set and a takes the value 1. -/
theorem parse_parameter_list_ignores_missing_dash :
    sample_parameters.parse_parameter_list ["prog", "xb"] =
      Except.ok (0,
        { sample_parameters with
          m_command_name := "prog",
          m_parameter_list :=
            [string_parameter (Char.ofNat 97) 1,
             { string_parameter (Char.ofNat 98) 0 with m_is_set := true }] }) ∧
    sample_parameters.parse_parameter_list ["prog", "+a", "1"] =
      Except.ok (0,
        { sample_parameters with
          m_command_name := "prog",
          m_parameter_list :=
            [{ string_parameter (Char.ofNat 97) 1 with
               m_is_set := true, m_string_value := ["1"] },
             string_parameter (Char.ofNat 98) 0] }) := by
  constructor
  · show parse_loop named_parameters ["xb"] = _
    rw [parse_loop_set named_parameters "xb" [] (Char.ofNat 98) _ 0 rfl rfl, List.drop,
      parse_loop_nil]
    rfl
  · show parse_loop named_parameters ["+a", "1"] = _
    rw [parse_loop_set named_parameters "+a" ["1"] (Char.ofNat 97) _ 1 rfl rfl, List.drop,
      List.drop, parse_loop_nil]
    rfl

end Gadgetron
